import Mathlib

set_option maxHeartbeats 1000000

/-
  Shallow embedding of the Dive command-hierarchy builder
  (src/dive_core/command_hierarchy.cpp).

  Machine integers are modelled as Nat with explicit masking where the
  source masks; UINT64_MAX / UINT32_MAX / UINT8_MAX are kept as sentinel
  values, exactly as the source uses them.  Code whose C++ counterpart can
  hit an assertion failure or vector-underflow UB is modelled with Option
  (none = the assertion / UB fired).
-/

namespace Dive

def UINT64_MAX : Nat := 2 ^ 64 - 1

def UINT32_MAX : Nat := 2 ^ 32 - 1

def UINT8_MAX : Nat := 2 ^ 8 - 1

/-- Lower-case hex digit, as produced by std::hex on an ostream. -/
def hexDigit (n : Nat) : Char :=
  if n < 10 then Char.ofNat (48 + n) else Char.ofNat (87 + n)

def toHexAux : Nat → List Char → List Char
  | 0, acc => acc
  | n + 1, acc =>
    toHexAux ((n + 1) / 16) (hexDigit ((n + 1) % 16) :: acc)
decreasing_by
  exact Nat.div_lt_self (Nat.succ_pos n) (by norm_num)

/-- Renders a Nat the way `ostream << std::hex << v` does (lower case, no
leading zeros, "0" for zero). -/
def toHex (n : Nat) : String :=
  if n = 0 then "0" else String.mk (toHexAux n [])

/-- Node types of the hierarchy.  The enumeration itself is declared in
command_hierarchy.h; the constructor set is taken from the uses in
command_hierarchy.cpp and spec section 3.1. -/
inductive NodeType where
  | kRootNode
  | kEngineNode
  | kSubmitNode
  | kIbNode
  | kMarkerNode
  | kDrawDispatchDmaNode
  | kSyncNode
  | kPacketNode
  | kRegNode
  | kFieldNode
  | kPostambleStateNode
  | kPresentNode
  deriving DecidableEq, Repr, Inhabited

/-- IB transfer kinds (Normal / Call / Chain). -/
inductive IbType where
  | kNormal
  | kCall
  | kChain
  deriving DecidableEq, Repr, Inhabited

/-- Marker kinds used by the builder.  Modelled from the spec: the enum
lives in command_hierarchy.h (absent from src/); spec section 3.1 lists
BeginEnd, DiveMetadata and Barrier, which are the kinds the .cpp file
mentions. -/
inductive MarkerType where
  | kBeginEnd
  | kDiveMetadata
  | kBarrier
  deriving DecidableEq, Repr, Inhabited

/-- Engine types.  Modelled from the spec: the enum is in a header absent
from src/; spec section 4.6.1 names Universal, Compute, Dma plus further
values, of which the builder parses only the first three. -/
inductive EngineType where
  | kUniversal
  | kCompute
  | kDma
  | kOther
  deriving DecidableEq, Repr, Inhabited

def EngineType.toIdx : EngineType → Nat
  | .kUniversal => 0
  | .kCompute => 1
  | .kDma => 2
  | .kOther => 3

/-- Number of engine types (EngineType::kCount). -/
def kEngineTypeCount : Nat := 4

/-- Engine-type display strings.  Modelled from the spec: the string table
kEngineTypeStrings lives in dive_strings (absent from src/). -/
def kEngineTypeStrings : List String :=
  ["Universal", "Compute", "Dma", "Other"]

/-- Queue-type display strings.  Modelled from the spec: kQueueTypeStrings
lives in dive_strings (absent from src/). -/
def kQueueTypeStrings : List String :=
  ["Universal", "Compute", "Dma", "Other"]

/-- Sync classification result; the builder in src/ only ever sees kNone
(GetSyncType is stubbed, spec section 9). -/
inductive SyncType where
  | kNone
  | kSome
  deriving DecidableEq, Repr, Inhabited

/-- PM4 header classes seen by OnPacket. -/
inductive Pm4Type where
  | kType2
  | kType4
  | kType7
  deriving DecidableEq, Repr, Inhabited

/-- Discriminated auxiliary payload of a node (CommandHierarchy::AuxInfo).
The union's bit layout is private to command_hierarchy.h; this structured
sum models the per-type payloads its factory functions store.  The field
values stored are exactly the masked values the source stores. -/
inductive AuxInfo where
  | noAux
  | submitNode (engineType : EngineType) (submitIndex : Nat)
  | ibNode (ibIndex : Nat) (ibType : IbType) (sizeInDwords : Nat) (fullyCaptured : Bool)
  | packetNode (addr : Nat) (opcode : Nat) (isCe : Bool)
  | regFieldNode (isCe : Bool)
  | eventNode (eventId : Nat)
  | markerNode (markerType : MarkerType) (id : Nat)
  | syncNode (syncType : SyncType)
  deriving DecidableEq, Repr, Inhabited

/-- Maximum number of bits of an ib-index (kMaxNumIbsBits).  Modelled from
the spec: the constant is declared in a header absent from src/; spec
section 3.1 bounds the ib-index at 8 bits and GetIbNodeIndex returns
uint8_t. -/
def kMaxNumIbsBits : Nat := 8

/-- AuxInfo::IbNode: stores the ib-index masked to kMaxNumIbsBits bits
(the source: ib_index & ((1 << kMaxNumIbsBits) - 1)). -/
def AuxInfo.IbNode (ibIndex : Nat) (ibType : IbType) (sizeInDwords : Nat)
    (fullyCaptured : Bool) : AuxInfo :=
  .ibNode (ibIndex % 2 ^ kMaxNumIbsBits) ibType (sizeInDwords % 2 ^ 32) fullyCaptured

/-- AuxInfo::PacketNode: the address is masked to 48 bits
(addr & 0x0000FFFFFFFFFFFF). -/
def AuxInfo.PacketNode (addr : Nat) (opcode : Nat) (isCe : Bool) : AuxInfo :=
  .packetNode (addr % 2 ^ 48) (opcode % 2 ^ 8) isCe

-- =============================================================================
-- Packed 64-bit model of the Ib aux payload (for the encoding round-trip).
-- =============================================================================

def IbType.code : IbType → Nat
  | .kNormal => 0
  | .kCall => 1
  | .kChain => 2

def IbType.fromCode : Nat → IbType
  | 0 => .kNormal
  | 1 => .kCall
  | _ => .kChain

/-- Packed u64 layout of the `ib_node` member of the AuxInfo union.
Modelled from the spec: the union's bit fields are declared in
command_hierarchy.h (absent from src/); spec section 3.1 lists the fields
ib-type, ib-index (kMaxNumIbsBits = 8 bits), size-in-dwords (32 bits) and
the fully-captured flag, packed into one 64-bit word.  The factory masks
the ib-index exactly as AuxInfo::IbNode does. -/
def AuxInfo.IbNodePacked (ibIndex : Nat) (ibType : IbType) (sizeInDwords : Nat)
    (fullyCaptured : Bool) : Nat :=
  (ibType.code % 2 ^ 8) +
    (ibIndex % 2 ^ kMaxNumIbsBits) * 2 ^ 8 +
    (sizeInDwords % 2 ^ 32) * 2 ^ 16 +
    (if fullyCaptured then 1 else 0) * 2 ^ 48

/-- Accessor GetIbNodeIndex on the packed payload (returns the uint8
m_ib_index field). -/
def GetIbNodeIndexPacked (u : Nat) : Nat :=
  u / 2 ^ 8 % 2 ^ kMaxNumIbsBits

/-- Accessor GetIbNodeType on the packed payload (the (IbType) cast of the
uint8 m_ib_type field). -/
def GetIbNodeTypePacked (u : Nat) : IbType :=
  IbType.fromCode (u % 2 ^ 8)

/-- Accessor GetIbNodeSizeInDwords on the packed payload. -/
def GetIbNodeSizeInDwordsPacked (u : Nat) : Nat :=
  u / 2 ^ 16 % 2 ^ 32

/-- Accessor GetIbNodeIsFullyCaptured on the packed payload. -/
def GetIbNodeIsFullyCapturedPacked (u : Nat) : Bool :=
  u / 2 ^ 48 % 2 = 1

-- =============================================================================
-- Node store (CommandHierarchy::Nodes): parallel append-only arrays.
-- =============================================================================

structure Nodes where
  m_node_type : List NodeType
  m_description : List String
  m_aux_info : List AuxInfo
  m_metadata : List (List Nat)
  m_event_node_indices : List Nat
  deriving DecidableEq, Repr, Inhabited

def Nodes.empty : Nodes := ⟨[], [], [], [], []⟩

/-- Nodes::AddNode: appends to the four parallel arrays and returns the
index of the new node (the pre-call length). -/
def Nodes.AddNode (ns : Nodes) (ty : NodeType) (desc : String) (aux : AuxInfo)
    (metadata : List Nat) : Nat × Nodes :=
  (ns.m_node_type.length,
    { ns with
      m_node_type := ns.m_node_type ++ [ty]
      m_description := ns.m_description ++ [desc]
      m_aux_info := ns.m_aux_info ++ [aux]
      m_metadata := ns.m_metadata ++ [metadata] })

def Nodes.numNodes (ns : Nodes) : Nat := ns.m_node_type.length

/-- CommandHierarchy::GetNodeType (the DIVE_ASSERT bound holds in every
reachable call; out of range yields the Inhabited default). -/
def Nodes.GetNodeType (ns : Nodes) (i : Nat) : NodeType :=
  ns.m_node_type.getD i default

def Nodes.GetNodeDesc (ns : Nodes) (i : Nat) : String :=
  ns.m_description.getD i ""

def Nodes.GetAux (ns : Nodes) (i : Nat) : AuxInfo :=
  ns.m_aux_info.getD i default

/-- CommandHierarchy::GetIbNodeIndex.  The node-type DIVE_ASSERT holds at
every reachable call; a non-Ib aux yields 0. -/
def Nodes.GetIbNodeIndex (ns : Nodes) (i : Nat) : Nat :=
  match ns.GetAux i with
  | .ibNode ibIndex _ _ _ => ibIndex
  | _ => 0

/-- CommandHierarchy::GetIbNodeType (non-Ib aux yields the default). -/
def Nodes.GetIbNodeType (ns : Nodes) (i : Nat) : IbType :=
  match ns.GetAux i with
  | .ibNode _ t _ _ => t
  | _ => default

def Nodes.GetIbNodeSizeInDwords (ns : Nodes) (i : Nat) : Nat :=
  match ns.GetAux i with
  | .ibNode _ _ sz _ => sz
  | _ => 0

def Nodes.GetIbNodeIsFullyCaptured (ns : Nodes) (i : Nat) : Bool :=
  match ns.GetAux i with
  | .ibNode _ _ _ cap => cap
  | _ => false

def Nodes.GetMarkerNodeType (ns : Nodes) (i : Nat) : MarkerType :=
  match ns.GetAux i with
  | .markerNode t _ => t
  | _ => default

def Nodes.GetMarkerNodeId (ns : Nodes) (i : Nat) : Nat :=
  match ns.GetAux i with
  | .markerNode _ id => id
  | _ => 0

-- =============================================================================
-- std::lower_bound and CommandHierarchy::GetEventIndex
-- =============================================================================

/-- The classic half-open binary search of std::lower_bound over a
random-access range, counting from `first` over `count` elements. -/
def lowerBoundAux (a : List Nat) (v : Nat) (first count : Nat) : Nat :=
  if h : count = 0 then first
  else
    let step := count / 2
    if a.getD (first + step) 0 < v then
      lowerBoundAux a v (first + step + 1) (count - step - 1)
    else
      lowerBoundAux a v first step
termination_by count
decreasing_by
  · omega
  · exact Nat.div_lt_self (Nat.pos_of_ne_zero h) (by norm_num)

def lowerBound (a : List Nat) (v : Nat) : Nat :=
  lowerBoundAux a v 0 a.length

/-- CommandHierarchy::GetEventIndex: binary-search m_event_node_indices;
return the 1-based rank when found, else 0. -/
def Nodes.GetEventIndex (ns : Nodes) (nodeIndex : Nat) : Nat :=
  let indices := ns.m_event_node_indices
  let it := lowerBound indices nodeIndex
  if it = indices.length ∨ indices.getD it 0 ≠ nodeIndex then 0
  else it + 1

-- =============================================================================
-- Topology
-- =============================================================================

/-- Per-node view into the flat children list (start index + count);
value-initialized to zero by SetNumNodes. -/
structure ChildrenInfo where
  m_start_index : Nat := 0
  m_num_children : Nat := 0
  deriving DecidableEq, Repr, Inhabited

structure Topology where
  m_children_list : List Nat := []
  m_shared_children_list : List Nat := []
  m_node_children : List ChildrenInfo := []
  m_node_shared_children : List ChildrenInfo := []
  m_node_parent : List Nat := []
  m_node_child_index : List Nat := []
  deriving DecidableEq, Repr, Inhabited

def Topology.kRootNodeIndex : Nat := 0

def Topology.GetNumNodes (t : Topology) : Nat := t.m_node_children.length

def Topology.GetParentNodeIndex (t : Topology) (n : Nat) : Nat :=
  t.m_node_parent.getD n UINT64_MAX

def Topology.GetChildIndex (t : Topology) (n : Nat) : Nat :=
  t.m_node_child_index.getD n UINT64_MAX

def Topology.GetNumChildren (t : Topology) (n : Nat) : Nat :=
  (t.m_node_children.getD n default).m_num_children

def Topology.GetChildNodeIndex (t : Topology) (n : Nat) (childIndex : Nat) : Nat :=
  t.m_children_list.getD ((t.m_node_children.getD n default).m_start_index + childIndex) 0

def Topology.GetNumSharedChildren (t : Topology) (n : Nat) : Nat :=
  (t.m_node_shared_children.getD n default).m_num_children

def Topology.GetSharedChildNodeIndex (t : Topology) (n : Nat) (childIndex : Nat) : Nat :=
  t.m_shared_children_list.getD
    ((t.m_node_shared_children.getD n default).m_start_index + childIndex) 0

/-- The upward half of Topology::GetNextNodeIndex (the while-true loop).
The loop's termination rests on the acyclicity of the parent links, which
the type system cannot see, so the recursion carries fuel; `none` models a
walk that exceeds the fuel, which the tree theorems show cannot happen. -/
def Topology.walkUp (t : Topology) : Nat → Nat → Option Nat
  | 0, _ => none
  | fuel + 1, n =>
    if n = Topology.kRootNodeIndex then some UINT64_MAX
    else
      let p := t.GetParentNodeIndex n
      let sibling := t.GetChildIndex n + 1
      if sibling < t.GetNumChildren p then some (t.GetChildNodeIndex p sibling)
      else t.walkUp fuel p

/-- Topology::GetNextNodeIndex: first child if any, else climb until a
next sibling exists, UINT64_MAX after the root. -/
def Topology.GetNextNodeIndex (t : Topology) (n : Nat) : Option Nat :=
  if 0 < t.GetNumChildren n then some (t.GetChildNodeIndex n 0)
  else t.walkUp (t.GetNumNodes + 1) n

/-- Topology::SetNumNodes: resize the per-node arrays; parent and
child-index fill with UINT64_MAX. -/
def Topology.SetNumNodes (t : Topology) (numNodes : Nat) : Topology :=
  { t with
    m_node_children :=
      t.m_node_children.take numNodes ++
        List.replicate (numNodes - t.m_node_children.length) default
    m_node_shared_children :=
      t.m_node_shared_children.take numNodes ++
        List.replicate (numNodes - t.m_node_shared_children.length) default
    m_node_parent :=
      t.m_node_parent.take numNodes ++
        List.replicate (numNodes - t.m_node_parent.length) UINT64_MAX
    m_node_child_index :=
      t.m_node_child_index.take numNodes ++
        List.replicate (numNodes - t.m_node_child_index.length) UINT64_MAX }

/-- The parent/child-index writing loop of Topology::AddChildren. -/
def Topology.addChildrenLoop (t : Topology) (node : Nat) : List Nat → Nat → Topology
  | [], _ => t
  | c :: cs, i =>
    Topology.addChildrenLoop
      { t with
        m_node_parent := t.m_node_parent.set c node
        m_node_child_index := t.m_node_child_index.set c i }
      node cs (i + 1)

/-- Topology::AddChildren: append to the flat list, point the node at the
new segment, and record parent / child-index for every child. -/
def Topology.AddChildren (t : Topology) (node : Nat) (children : List Nat) : Topology :=
  let prevSize := t.m_children_list.length
  let t1 :=
    { t with
      m_children_list := t.m_children_list ++ children
      m_node_children := t.m_node_children.set node ⟨prevSize, children.length⟩ }
  t1.addChildrenLoop node children 0

/-- Topology::AddSharedChildren: like AddChildren but with no parent
back-links. -/
def Topology.AddSharedChildren (t : Topology) (node : Nat) (children : List Nat) : Topology :=
  let prevSize := t.m_shared_children_list.length
  { t with
    m_shared_children_list := t.m_shared_children_list ++ children
    m_node_shared_children := t.m_node_shared_children.set node ⟨prevSize, children.length⟩ }

/-- The per-node loop at the end of CreateTopologies: AddChildren and
AddSharedChildren for node 0, 1, ... in order. -/
def Topology.fill (t : Topology) : Nat → List (List Nat) → List (List Nat) → Topology
  | _, [], _ => t
  | idx, p :: ps, ss =>
    Topology.fill ((t.AddChildren idx p).AddSharedChildren idx (ss.headD []))
      (idx + 1) ps ss.tail

/-- Materialize one topology from its pending primary and shared children
tables, as the final loop of CreateTopologies does. -/
def mkTopology (prim shared : List (List Nat)) : Topology :=
  (({} : Topology).SetNumNodes prim.length).fill 0 prim shared

-- =============================================================================
-- Labelled rose trees: the primary-tree invariant of a topology
-- =============================================================================

mutual
/-- A labelled rose tree: the shape the primary child links of a topology
are meant to encode. -/
inductive LTree where
  | node (label : Nat) (children : LForest)

/-- A forest of sibling subtrees. -/
inductive LForest where
  | nil
  | cons (hd : LTree) (tl : LForest)
end

instance : Inhabited LTree := ⟨.node 0 .nil⟩

def LTree.label : LTree → Nat
  | .node n _ => n

def LTree.children : LTree → LForest
  | .node _ cs => cs

def LForest.length : LForest → Nat
  | .nil => 0
  | .cons _ cs => cs.length + 1

mutual
/-- Pre-order flattening of a tree: the node, then its subtrees in order. -/
def LTree.flat : LTree → List Nat
  | .node n cs => n :: cs.flat

def LForest.flat : LForest → List Nat
  | .nil => []
  | .cons c cs => c.flat ++ cs.flat
end

/-- Per-position agreement of the topology's child accessors with a forest
of children of node `n` starting at child position `j`: the j+i-th primary
child of `n` is the i-th subtree's root, whose parent and
child-index-within-parent entries point back. -/
def childOk (t : Topology) (n : Nat) : LForest → Nat → Bool
  | .nil, _ => true
  | .cons c cs, j =>
    (t.GetChildNodeIndex n j == c.label) &&
      (t.GetParentNodeIndex c.label == n) &&
      (t.GetChildIndex c.label == j) &&
      childOk t n cs (j + 1)

mutual
/-- The primary-tree invariant, rooted at the tree's label: every node's
child count matches its subtree list, and all child/parent/child-index
accessors agree with the tree. -/
def isTreeAt (t : Topology) : LTree → Bool
  | .node n cs =>
    (t.GetNumChildren n == cs.length) && childOk t n cs 0 && isForest t cs

def isForest (t : Topology) : LForest → Bool
  | .nil => true
  | .cons c cs => isTreeAt t c && isForest t cs
end

/-- `m` is `n`'s pre-order successor as GetNextNodeIndex computes it: the
first child when `n` has children, else the result of an upward walk of
fuel at most `B`. -/
def Succ (t : Topology) (n m B : Nat) : Prop :=
  (0 < t.GetNumChildren n → t.GetChildNodeIndex n 0 = m) ∧
    (t.GetNumChildren n = 0 → ∃ f, f ≤ B ∧ t.walkUp f n = some m)

/-- Consecutive elements of `l` are successors, and the last one's
successor is the continuation `K`. -/
def SuccList (t : Topology) (l : List Nat) (K B : Nat) : Prop :=
  (∀ k, k + 1 < l.length → Succ t (l.getD k 0) (l.getD (k + 1) 0) B) ∧
    (l ≠ [] → Succ t (l.getD (l.length - 1) 0) K B)

-- =============================================================================
-- External-contract inputs of the builder
-- =============================================================================

structure IndirectBufferInfo where
  m_va_addr : Nat := 0
  m_size_in_dwords : Nat := 0
  m_skip : Bool := false
  deriving DecidableEq, Repr, Inhabited

structure SubmitInfo where
  engineType : EngineType := .kUniversal
  queueType : Nat := 0
  engineIndex : Nat := 0
  isDummy : Bool := false
  ibs : List IndirectBufferInfo := []
  deriving DecidableEq, Repr, Inhabited

structure PresentInfo where
  submitIndex : Nat := 0
  hasValidData : Bool := false
  fullScreen : Bool := false
  engineType : EngineType := .kUniversal
  queueType : Nat := 0
  surfaceAddr : Nat := 0
  surfaceSize : Nat := 0
  vkFormat : Nat := 0
  vkColorSpace : Nat := 0
  deriving DecidableEq, Repr, Inhabited

structure CaptureData where
  submits : List SubmitInfo := []
  presents : List PresentInfo := []
  vulkanMetadataVersion : Nat := 0
  deriving DecidableEq, Repr, Inhabited

/-- One field of a type-7 packet schema (PacketField of the catalog). -/
structure PacketField where
  m_name : String := ""
  m_dword : Nat := 0
  m_mask : Nat := 0
  m_shift : Nat := 0
  m_enum_handle : Nat := UINT32_MAX
  deriving DecidableEq, Repr, Inhabited

structure PacketInfo where
  m_fields : List PacketField := []
  deriving DecidableEq, Repr, Inhabited

structure RegField where
  m_name : String := ""
  m_mask : Nat := 0
  m_shift : Nat := 0
  deriving DecidableEq, Repr, Inhabited

structure RegInfo where
  m_name : String := ""
  m_fields : List RegField := []
  deriving DecidableEq, Repr, Inhabited

/-- External collaborators consumed read-only by the builder: the memory
view (CopyMemory reads one dword of simulated GPU memory), the packet /
register catalog and its string tables, the generated Vulkan-command
classifier, and the std::sort routine used by OnSubmitEnd.  None of these
live in src/; they enter the embedding as explicit parameters. -/
structure Params where
  copyMemory : Nat → Nat → Option Nat
  getPacketInfo : Nat → Option PacketInfo
  getRegInfo : Nat → Option RegInfo
  getOpCodeString : Nat → String
  getEnumString : Nat → Nat → Option String
  isVulkanEventCmd : Nat → Bool
  getVkFormatString : Nat → String
  getVkColorSpaceKhrString : Nat → String
  sortFn : (Nat → Nat → Bool) → List Nat → List Nat

/-- Type-7 PM4 header fields.  Modelled from the spec: the Pm4Type7Header
bit layout lives in a header absent from src/; the spec (section 4.6.4)
says the header carries an opcode and a dword count. -/
def pm4Type7Opcode (header : Nat) : Nat := header / 2 ^ 16 % 2 ^ 7

def pm4Type7Count (header : Nat) : Nat := header % 2 ^ 15

/-- Type-4 PM4 header fields (base register offset and dword count).
Modelled from the spec, like the type-7 layout. -/
def pm4Type4Offset (header : Nat) : Nat := header / 2 ^ 8 % 2 ^ 18

def pm4Type4Count (header : Nat) : Nat := header % 2 ^ 7

/-- Type-7 opcodes the builder tests for.  Modelled from the spec: the
opcode table is generated code absent from src/; only distinctness of the
values matters to the builder. -/
def CP_NOP : Nat := 0x10

def CP_DRAW_INDX_OFFSET : Nat := 0x38

def CP_DRAW_INDIRECT : Nat := 0x28

def CP_DRAW_INDX_INDIRECT : Nat := 0x29

def CP_DRAW_INDIRECT_MULTI : Nat := 0x2a

def CP_DRAW_AUTO : Nat := 0x24

/-- IsDrawDispatchEvent.  Modelled from the spec (section 4.6.4): the
definition lives in a header absent from src/; an event packet is one of
the five draw opcodes. -/
def IsDrawDispatchEvent (opcode : Nat) : Bool :=
  opcode = CP_DRAW_INDX_OFFSET ∨ opcode = CP_DRAW_INDIRECT ∨
    opcode = CP_DRAW_INDX_INDIRECT ∨ opcode = CP_DRAW_INDIRECT_MULTI ∨
    opcode = CP_DRAW_AUTO

/-- GetSyncType.  Modelled from the spec (section 9): the classifier is
not emitted in the attached source and is to be treated as always
returning None. -/
def GetSyncType (opcodes : List Nat) (addrs : List Nat) : SyncType :=
  SyncType.kNone

/-- VKCmdID value of vkEndCommandBuffer.  Modelled from the spec: the
generated enum is absent from src/; only its identity matters. -/
def kVkEndCommandBufferCmdID : Nat := 1

-- =============================================================================
-- CommandHierarchyCreator state
-- =============================================================================

/-- Identifiers of the six topologies (CommandHierarchy::TopologyType). -/
inductive TopologyType where
  | kEngineTopology
  | kSubmitTopology
  | kAllEventTopology
  | kRgpTopology
  | kVulkanCallTopology
  | kVulkanEventTopology
  deriving DecidableEq, Repr, Inhabited

/-- One per-topology family of pending children lists
(m_node_children[topology][0] or [1]): entry n is the list of children
recorded so far for node n. -/
structure TableSet where
  engine : List (List Nat) := []
  subm : List (List Nat) := []
  allEvent : List (List Nat) := []
  rgp : List (List Nat) := []
  vulkanCall : List (List Nat) := []
  vulkanEvent : List (List Nat) := []
  deriving DecidableEq, Repr, Inhabited

def TableSet.get (ts : TableSet) : TopologyType → List (List Nat)
  | .kEngineTopology => ts.engine
  | .kSubmitTopology => ts.subm
  | .kAllEventTopology => ts.allEvent
  | .kRgpTopology => ts.rgp
  | .kVulkanCallTopology => ts.vulkanCall
  | .kVulkanEventTopology => ts.vulkanEvent

def TableSet.setTable (ts : TableSet) : TopologyType → List (List Nat) → TableSet
  | .kEngineTopology, l => { ts with engine := l }
  | .kSubmitTopology, l => { ts with subm := l }
  | .kAllEventTopology, l => { ts with allEvent := l }
  | .kRgpTopology, l => { ts with rgp := l }
  | .kVulkanCallTopology, l => { ts with vulkanCall := l }
  | .kVulkanEventTopology, l => { ts with vulkanEvent := l }

/-- Append one empty per-node entry to every table (the AddNode resize). -/
def TableSet.grow (ts : TableSet) : TableSet :=
  { engine := ts.engine ++ [[]]
    subm := ts.subm ++ [[]]
    allEvent := ts.allEvent ++ [[]]
    rgp := ts.rgp ++ [[]]
    vulkanCall := ts.vulkanCall ++ [[]]
    vulkanEvent := ts.vulkanEvent ++ [[]] }

/-- Push `c` onto the pending list of node `n` in table `t`
(CommandHierarchyCreator::AddChild / AddSharedChild; the DIVE_ASSERT bound
n < size holds at every reachable call). -/
def TableSet.push (ts : TableSet) (t : TopologyType) (n c : Nat) : TableSet :=
  ts.setTable t ((ts.get t).set n ((ts.get t).getD n [] ++ [c]))

/-- The packet run buffer m_packets: three parallel arrays. -/
structure PacketBuf where
  m_packet_opcodes : List Nat := []
  m_packet_addrs : List Nat := []
  m_packet_node_indices : List Nat := []
  deriving DecidableEq, Repr, Inhabited

def PacketBuf.Add (b : PacketBuf) (opcode addr nodeIndex : Nat) : PacketBuf :=
  { m_packet_opcodes := b.m_packet_opcodes ++ [opcode]
    m_packet_addrs := b.m_packet_addrs ++ [addr]
    m_packet_node_indices := b.m_packet_node_indices ++ [nodeIndex] }

def PacketBuf.Clear (_ : PacketBuf) : PacketBuf := {}

/-- Scratch state of CommandHierarchyCreator during a build. -/
structure CreatorState where
  nodes : Nodes := Nodes.empty
  prim : TableSet := {}
  shared : TableSet := {}
  m_num_events : Nat := 0
  m_cur_submit_node_index : Nat := UINT64_MAX
  m_cur_engine_index : Nat := 0
  m_dcb_ib_stack : List Nat := []
  m_ccb_ib_stack : List Nat := []
  m_flatten_chain_nodes : Bool := false
  m_packets : PacketBuf := {}
  m_marker_stack : List Nat := []
  m_internal_marker_stack : List Nat := []
  m_cmd_begin_packet_node_indices : List Nat := []
  m_cmd_begin_event_node_indices : List Nat := []
  m_node_parent_info : List (TopologyType × Nat × Nat) := []
  m_has_unended_vulkan_marker : Bool := false
  m_cur_vulkan_cmd_id : Nat := UINT32_MAX
  m_is_secondary_cmdbuf_started : Bool := false
  deriving Inhabited

/-- CommandHierarchyCreator::AddNode: create the node in the store and
grow every pending children table by one empty entry. -/
def CreatorState.AddNode (s : CreatorState) (ty : NodeType) (desc : String)
    (aux : AuxInfo) (metadata : List Nat) : Nat × CreatorState :=
  let r := s.nodes.AddNode ty desc aux metadata
  (r.1, { s with nodes := r.2, prim := s.prim.grow, shared := s.shared.grow })

/-- CommandHierarchyCreator::AddChild. -/
def CreatorState.AddChild (s : CreatorState) (t : TopologyType) (n c : Nat) : CreatorState :=
  { s with prim := s.prim.push t n c }

/-- CommandHierarchyCreator::AddSharedChild. -/
def CreatorState.AddSharedChild (s : CreatorState) (t : TopologyType) (n c : Nat) :
    CreatorState :=
  { s with shared := s.shared.push t n c }

/-- CommandHierarchyCreator::GetChildNodeIndex over the pending tables. -/
def CreatorState.GetChildNodeIndex (s : CreatorState) (t : TopologyType) (n k : Nat) : Nat :=
  ((s.prim.get t).getD n []).getD k 0

/-- CommandHierarchyCreator::GetChildCount over the pending tables. -/
def CreatorState.GetChildCount (s : CreatorState) (t : TopologyType) (n : Nat) : Nat :=
  ((s.prim.get t).getD n []).length

-- =============================================================================
-- OnIbStart / OnIbEnd
-- =============================================================================

/-- Description string of an Ib node, by kind. -/
def ibDescription (ibIndex : Nat) (info : IndirectBufferInfo) (t : IbType) : String :=
  let tail :=
    ", Address: 0x" ++ toHex info.m_va_addr ++
      ", Size (DWORDS): " ++ toString info.m_size_in_dwords ++
      (if info.m_skip then ", NOT CAPTURED" else "")
  match t with
  | .kNormal => "IB: " ++ toString ibIndex ++ tail
  | .kCall => "Call IB" ++ tail
  | .kChain => "Chain IB" ++ tail

/-- The flatten-chain scan of OnIbStart: walk the stack from the top and
return the first entry whose Ib node is not a Chain (the source's
backwards for-loop with break). -/
def findLastNonChain (ns : Nodes) (stack : List Nat) : Option Nat :=
  stack.reverse.find? (fun i => ns.GetIbNodeType i ≠ IbType.kChain)

/-- CommandHierarchyCreator::OnIbStart. -/
def CreatorState.OnIbStart (s : CreatorState) (ibIndex : Nat)
    (ibInfo : IndirectBufferInfo) (t : IbType) : CreatorState :=
  let aux := AuxInfo.IbNode ibIndex t ibInfo.m_size_in_dwords (!ibInfo.m_skip)
  let r := s.AddNode NodeType.kIbNode (ibDescription ibIndex ibInfo t) aux []
  let ibNodeIndex := r.1
  let s1 := r.2
  let parent0 :=
    if s1.m_dcb_ib_stack.isEmpty then s1.m_cur_submit_node_index
    else s1.m_dcb_ib_stack.getLast!
  let parentNodeIndex :=
    if s1.m_flatten_chain_nodes ∧ t = IbType.kChain then
      match findLastNonChain s1.nodes s1.m_dcb_ib_stack with
      | some p => p
      | none => parent0
    else parent0
  let s2 := (s1.AddChild .kEngineTopology parentNodeIndex ibNodeIndex).AddChild
    .kSubmitTopology parentNodeIndex ibNodeIndex
  { s2 with
    m_dcb_ib_stack := s2.m_dcb_ib_stack ++ [ibNodeIndex]
    m_cmd_begin_packet_node_indices := []
    m_cmd_begin_event_node_indices := [] }

/-- The chain-popping loop of OnIbEnd.  The current type was read from the
stack top before entry; each iteration pops and then reads the new back,
which is vector UB on an empty stack, hence the Option. -/
def chainPopLoop (ns : Nodes) : List Nat → IbType → Option (List Nat)
  | stack, t =>
    if stack ≠ [] ∧ t = IbType.kChain then
      let stack' := stack.dropLast
      match stack'.getLast? with
      | none => none
      | some b => chainPopLoop ns stack' (ns.GetIbNodeType b)
    else some stack
termination_by stack _ => stack.length
decreasing_by
  rename_i hcond
  have hne : stack ≠ [] := hcond.1
  have hpos : 0 < stack.length := List.length_pos.mpr hne
  simp only [List.length_dropLast]
  omega

/-- CommandHierarchyCreator::OnVulkanMarkerEnd. -/
def CreatorState.OnVulkanMarkerEnd (s : CreatorState) : CreatorState :=
  let s1 :=
    if s.m_has_unended_vulkan_marker then
      { s with
        m_marker_stack := s.m_marker_stack.dropLast
        m_internal_marker_stack := s.m_internal_marker_stack.dropLast
        m_has_unended_vulkan_marker := false }
    else s
  if s1.m_cur_vulkan_cmd_id = kVkEndCommandBufferCmdID ∧
      s1.m_is_secondary_cmdbuf_started then
    { s1 with
      m_marker_stack := s1.m_marker_stack.dropLast
      m_internal_marker_stack := s1.m_internal_marker_stack.dropLast
      m_cur_vulkan_cmd_id := UINT32_MAX }
  else s1

/-- CommandHierarchyCreator::OnIbEnd.  `none` models the DIVE_ASSERT on an
empty stack or a back()/pop_back() on an emptied stack. -/
def CreatorState.OnIbEnd (s : CreatorState) : Option CreatorState :=
  match s.m_dcb_ib_stack.getLast? with
  | none => none
  | some b => do
    let stack' ← chainPopLoop s.nodes s.m_dcb_ib_stack (s.nodes.GetIbNodeType b)
    if stack' = [] then none
    else
      let s1 := { s with m_dcb_ib_stack := stack'.dropLast }
      let s2 := s1.OnVulkanMarkerEnd
      some { s2 with
        m_cmd_begin_packet_node_indices := []
        m_cmd_begin_event_node_indices := [] }

-- =============================================================================
-- Ib callback traces (for the OnIbEnd safety claim)
-- =============================================================================

/-- One ib-boundary callback delivered by the emulator. -/
inductive IbEv where
  | ibStart (ibIndex : Nat) (info : IndirectBufferInfo) (t : IbType)
  | ibEnd
  deriving DecidableEq, Repr, Inhabited

/-- Run a sequence of ib callbacks through the real handlers; `none`
as soon as any handler hits an empty-stack read or pop. -/
def ibExec (s : CreatorState) : List IbEv → Option CreatorState
  | [] => some s
  | .ibStart ibIndex info t :: rest => ibExec (s.OnIbStart ibIndex info t) rest
  | .ibEnd :: rest => s.OnIbEnd.bind fun s2 => ibExec s2 rest

/-- Drop the trailing run of Chain-typed entries (node indices, typed via
the node store). -/
def dropTrailingChainsNat (ns : Nodes) (stack : List Nat) : List Nat :=
  (stack.reverse.dropWhile (fun i => ns.GetIbNodeType i == IbType.kChain)).reverse

/-- Modelled from the spec: drop the trailing run of Chain entries from an
abstract stack of IB types ("pop any run of Chain IBs from the top"). -/
def dropTrailingChains (σ : List IbType) : List IbType :=
  (σ.reverse.dropWhile (fun t => t == IbType.kChain)).reverse

/-- Modelled from the spec: the abstract effect of one callback on the
stack of IB types — a start pushes its type; an end pops the run of
Chain entries and then exactly one more (non-Chain) entry, failing if
that would underflow. -/
def specStep (σ : List IbType) : IbEv → Option (List IbType)
  | .ibStart _ _ t => some (σ ++ [t])
  | .ibEnd =>
    if dropTrailingChains σ = [] then none
    else some (dropTrailingChains σ).dropLast

/-- Modelled from the spec: run the abstract stack machine over a trace;
`some` exactly when no end-callback underflows. -/
def specExec (σ : List IbType) : List IbEv → Option (List IbType)
  | [] => some σ
  | e :: rest => (specStep σ e).bind fun σ2 => specExec σ2 rest

-- =============================================================================
-- OnPacket and its helper node builders
-- =============================================================================

/-- CommandHierarchyCreator::GetEventString (draw opcodes only; the
DIVE_ASSERT(IsDrawDispatchEvent) holds at the only call site). -/
def GetEventString (opcode : Nat) : String :=
  if opcode = CP_DRAW_INDX_OFFSET then "DrawIndexOffset"
  else if opcode = CP_DRAW_INDIRECT then "DrawIndirect"
  else if opcode = CP_DRAW_INDX_INDIRECT then "DrawIndexIndirect"
  else if opcode = CP_DRAW_INDIRECT_MULTI then "DrawIndirectMulti"
  else if opcode = CP_DRAW_AUTO then "DrawAuto"
  else ""

/-- CommandHierarchyCreator::AddRegisterNode: one Reg node plus a Field
child per defined bit-field, attached in all four live views. -/
def CreatorState.AddRegisterNode (s : CreatorState) (pr : Params) (reg regValue : Nat) :
    Nat × CreatorState :=
  let regInfo :=
    match pr.getRegInfo reg with
    | some ri => ri
    | none => { m_name := "Unknown" }
  let aux := AuxInfo.regFieldNode false
  let r := s.AddNode NodeType.kRegNode (regInfo.m_name ++ ": 0x" ++ toHex regValue) aux []
  let regNodeIndex := r.1
  let s1 := regInfo.m_fields.foldl
    (fun st f =>
      let fieldValue := (regValue &&& f.m_mask) >>> f.m_shift
      let r2 := st.AddNode NodeType.kFieldNode (f.m_name ++ ": 0x" ++ toHex fieldValue) aux []
      ((((r2.2.AddChild .kEngineTopology regNodeIndex r2.1).AddChild
            .kSubmitTopology regNodeIndex r2.1).AddChild
          .kAllEventTopology regNodeIndex r2.1).AddChild
        .kRgpTopology regNodeIndex r2.1))
    r.2
  (regNodeIndex, s1)

/-- CommandHierarchyCreator::AppendRegNodes (the type-4 variant): one Reg
node per written register, reading each dword through the memory view;
`none` models the DIVE_ASSERT on a failed read. -/
def CreatorState.AppendRegNodes (s : CreatorState) (pr : Params)
    (submitIndex va header packetNodeIndex : Nat) : Option CreatorState :=
  (List.range (pm4Type4Count header)).foldlM
    (fun st i => do
      let regValue ← pr.copyMemory submitIndex (va + 4 + i * 4)
      let r := st.AddRegisterNode pr (pm4Type4Offset header + i) regValue
      some ((((r.2.AddChild .kEngineTopology packetNodeIndex r.1).AddChild
            .kSubmitTopology packetNodeIndex r.1).AddChild
          .kAllEventTopology packetNodeIndex r.1).AddChild
        .kRgpTopology packetNodeIndex r.1))
    s

/-- Create one Field node of a type-7 packet and attach it in the four
live views (shared body of both loops of AppendPacketFieldNodes). -/
def CreatorState.addFieldNode (s : CreatorState) (desc : String) (isCe : Bool)
    (packetNodeIndex : Nat) : CreatorState :=
  let r := s.AddNode NodeType.kFieldNode desc (AuxInfo.regFieldNode isCe) []
  ((((r.2.AddChild .kEngineTopology packetNodeIndex r.1).AddChild
        .kSubmitTopology packetNodeIndex r.1).AddChild
      .kAllEventTopology packetNodeIndex r.1).AddChild
    .kRgpTopology packetNodeIndex r.1)

/-- The field loop of AppendPacketFieldNodes.  Walks fields from
`fieldIdx` up to `endField`, remembering the last field dword seen in
`endDword` (initially UINT32_MAX) and breaking on a field beyond the
header count; returns the state plus the final end_dword. -/
def CreatorState.appendFieldsLoop (pr : Params) (submitIndex va : Nat) (isCe : Bool)
    (headerCount : Nat) (fields : List PacketField) (endField packetNodeIndex : Nat) :
    CreatorState → Nat → Nat → Option (CreatorState × Nat)
  | s, fieldIdx, endDword =>
    if h : fieldIdx < endField then
      let f := fields.getD fieldIdx default
      if f.m_dword > headerCount then some (s, f.m_dword)
      else do
        let dwordValue ← pr.copyMemory submitIndex (va + f.m_dword * 4)
        let fieldValue := (dwordValue &&& f.m_mask) >>> f.m_shift
        let desc ←
          if f.m_enum_handle ≠ UINT32_MAX then do
            let enumStr ← pr.getEnumString f.m_enum_handle fieldValue
            some (f.m_name ++ ": " ++ enumStr)
          else some (f.m_name ++ ": 0x" ++ toHex fieldValue)
        CreatorState.appendFieldsLoop pr submitIndex va isCe headerCount fields endField
          packetNodeIndex (s.addFieldNode desc isCe packetNodeIndex) (fieldIdx + 1)
          f.m_dword
    else some (s, endDword)
termination_by s fieldIdx _ => endField - fieldIdx

/-- CommandHierarchyCreator::AppendPacketFieldNodes.  Note the source
computes `end_field` as a min against `field_last + 1` in size_t
arithmetic; with the default field_last = UINT64_MAX the sum wraps to 0,
which the model reproduces. -/
def CreatorState.AppendPacketFieldNodes (s : CreatorState) (pr : Params)
    (submitIndex va : Nat) (isCe : Bool) (header : Nat) (info : PacketInfo)
    (packetNodeIndex : Nat) (fieldStart : Nat) (fieldLast : Nat) :
    Option CreatorState := do
  let headerCount := pm4Type7Count header
  let endField :=
    if info.m_fields.length < (fieldLast + 1) % 2 ^ 64 then info.m_fields.length
    else (fieldLast + 1) % 2 ^ 64
  let r ← CreatorState.appendFieldsLoop pr submitIndex va isCe headerCount
    info.m_fields endField packetNodeIndex s fieldStart UINT32_MAX
  let s1 := r.1
  let endDword := r.2
  if endDword < headerCount then
    (List.range' (endDword + 1) (headerCount - endDword)).foldlM
      (fun st i => do
        let dwordValue ← pr.copyMemory submitIndex (va + i * 4)
        some (st.addFieldNode ("(DWORD " ++ toString i ++ "): 0x" ++ toHex dwordValue)
          isCe packetNodeIndex))
      s1
  else some s1

/-- CommandHierarchyCreator::AddPacketNode.  `none` models the
DIVE_ASSERT on a missing catalog entry or a failed memory read. -/
def CreatorState.AddPacketNode (s : CreatorState) (pr : Params)
    (submitIndex va : Nat) (isCe : Bool) (ty : Pm4Type) (header : Nat) :
    Option (Nat × CreatorState) :=
  if ty = Pm4Type.kType7 then do
    let opcode := pm4Type7Opcode header
    let desc := pr.getOpCodeString opcode ++ " 0x" ++ toHex header
    let aux := AuxInfo.PacketNode va opcode isCe
    let r := s.AddNode NodeType.kPacketNode desc aux []
    let info ← pr.getPacketInfo opcode
    let s1 ← r.2.AppendPacketFieldNodes pr submitIndex va isCe header info r.1 0
      UINT64_MAX
    some (r.1, s1)
  else if ty = Pm4Type.kType4 then do
    let desc := "TYPE4 REGWRITE 0x" ++ toHex header
    let aux := AuxInfo.PacketNode va UINT8_MAX isCe
    let r := s.AddNode NodeType.kPacketNode desc aux []
    let s1 ← r.2.AppendRegNodes pr submitIndex va header r.1
    some (r.1, s1)
  else
    some (UINT32_MAX, s)

/-- CommandHierarchyCreator::AppendEventNodeIndex. -/
def CreatorState.AppendEventNodeIndex (s : CreatorState) (nodeIndex : Nat) : CreatorState :=
  { s with
    nodes := { s.nodes with
      m_event_node_indices := s.nodes.m_event_node_indices ++ [nodeIndex] } }

/-- The draw/dispatch sub-branch of OnPacket's event branch: create the
DrawDispatchDma node with the next event id and record it in the sorted
event-index list. -/
def CreatorState.addDrawDispatchNode (s : CreatorState) (opcode : Nat) :
    Nat × CreatorState :=
  let eventId := s.m_num_events
  let s5a := { s with m_num_events := s.m_num_events + 1 }
  let r := s5a.AddNode NodeType.kDrawDispatchDmaNode (GetEventString opcode)
    (AuxInfo.eventNode eventId) []
  (r.1, r.2.AppendEventNodeIndex r.1)

/-- Shared body of the two run-buffer drain loops (OnPacket's event
branch and OnSubmitEnd's postamble): attach every buffered packet as a
shared child of `owner` in the AllEvent and Rgp views. -/
def CreatorState.shareAllPackets (st : CreatorState) (owner : Nat)
    (pkts : List Nat) : CreatorState :=
  pkts.foldl
    (fun st2 pk =>
      (st2.AddSharedChild .kAllEventTopology owner pk).AddSharedChild
        .kRgpTopology owner pk)
    st

/-- The event-closing branch of OnPacket: make the event node, drain
m_packets into its shared children (AllEvent and Rgp), and attach it as a
primary child under the marker-stack tops (or the submit node). -/
def CreatorState.onPacketEventBranch (s4 : CreatorState) (syncIsSome : Bool)
    (opcode : Nat) : CreatorState :=
  let parent0 :=
    if s4.m_marker_stack.isEmpty then s4.m_cur_submit_node_index
    else s4.m_marker_stack.getLast!
  let r5 :=
    if syncIsSome then (UINT64_MAX, s4)
    else s4.addDrawDispatchNode opcode
  let eventNodeIndex := r5.1
  let s5 := { r5.2 with
    m_cmd_begin_event_node_indices :=
      r5.2.m_cmd_begin_event_node_indices ++ [eventNodeIndex] }
  let s6 := s5.shareAllPackets eventNodeIndex s5.m_packets.m_packet_node_indices
  let s6a := { s6 with m_packets := s6.m_packets.Clear }
  let s6b := s6a.AddChild .kAllEventTopology parent0 eventNodeIndex
  let s6c := { s6b with
    m_node_parent_info :=
      s6b.m_node_parent_info ++ [(TopologyType.kAllEventTopology, eventNodeIndex, parent0)] }
  let parent1 :=
    if s6c.m_internal_marker_stack.isEmpty then parent0
    else s6c.m_internal_marker_stack.getLast!
  let s6d := s6c.AddChild .kRgpTopology parent1 eventNodeIndex
  { s6d with
    m_node_parent_info :=
      s6d.m_node_parent_info ++ [(TopologyType.kRgpTopology, eventNodeIndex, parent1)] }

/-- The post-classification tail of OnPacket: a non-marker packet is
shared into every marker on both stacks. -/
def CreatorState.onPacketMarkerTail (s7 : CreatorState) (packetNodeIndex : Nat) :
    CreatorState :=
  let s8 := s7.m_marker_stack.foldl
    (fun st it => st.AddSharedChild .kAllEventTopology it packetNodeIndex) s7
  s8.m_internal_marker_stack.foldl
    (fun st it => st.AddSharedChild .kRgpTopology it packetNodeIndex) s8

/-- Steps 2-5 of OnPacket once the packet node exists: shared-child
attachments, run-buffer append, classification, event creation, marker
attachment.  `none` models the back() on an empty IB stack. -/
def CreatorState.onPacketRest (s1 : CreatorState) (packetNodeIndex va : Nat)
    (ty : Pm4Type) (header : Nat) : Option CreatorState :=
  let s2 :=
    (((s1.AddSharedChild .kEngineTopology s1.m_cur_submit_node_index
          packetNodeIndex).AddSharedChild
        .kSubmitTopology s1.m_cur_submit_node_index packetNodeIndex).AddSharedChild
      .kAllEventTopology s1.m_cur_submit_node_index packetNodeIndex).AddSharedChild
      .kRgpTopology s1.m_cur_submit_node_index packetNodeIndex
  match s2.m_dcb_ib_stack.getLast? with
  | none => none
  | some ibTop =>
    let s3 := (s2.AddSharedChild .kEngineTopology ibTop packetNodeIndex).AddSharedChild
      .kSubmitTopology ibTop packetNodeIndex
    let opcode := if ty = Pm4Type.kType7 then pm4Type7Opcode header else UINT32_MAX
    let s4 := { s3 with
      m_packets := s3.m_packets.Add opcode va packetNodeIndex
      m_cmd_begin_packet_node_indices :=
        s3.m_cmd_begin_packet_node_indices ++ [packetNodeIndex] }
    let syncType := GetSyncType s4.m_packets.m_packet_opcodes s4.m_packets.m_packet_addrs
    let s7 :=
      if syncType ≠ SyncType.kNone ∨ IsDrawDispatchEvent opcode then
        s4.onPacketEventBranch (syncType ≠ SyncType.kNone) opcode
      else s4
    some (s7.onPacketMarkerTail packetNodeIndex)

/-- CommandHierarchyCreator::OnPacket.  `none` models a back() on an
empty IB stack or a failure inside AddPacketNode. -/
def CreatorState.OnPacket (s : CreatorState) (pr : Params) (submitIndex va : Nat)
    (ty : Pm4Type) (header : Nat) : Option CreatorState :=
  if ty ≠ Pm4Type.kType4 ∧ ty ≠ Pm4Type.kType7 then some s
  else
    match s.AddPacketNode pr submitIndex va false ty header with
    | none => none
    | some r => r.2.onPacketRest r.1 va ty header

-- =============================================================================
-- OnSubmitStart / OnSubmitEnd
-- =============================================================================

/-- CommandHierarchyCreator::OnSubmitStart. -/
def CreatorState.OnSubmitStart (s : CreatorState) (submitIndex : Nat)
    (info : SubmitInfo) : CreatorState :=
  let engineIndex := info.engineType.toIdx
  let desc :=
    "Submit: " ++ toString submitIndex ++
      ", Num IBs: " ++ toString info.ibs.length ++
      ", Engine: " ++ kEngineTypeStrings.getD engineIndex "" ++
      ", Queue: " ++ kQueueTypeStrings.getD info.queueType "" ++
      ", Engine Index: " ++ toString info.engineIndex ++
      ", Dummy Submit: " ++ toString (if info.isDummy then 1 else 0)
  let aux := AuxInfo.submitNode info.engineType submitIndex
  let r := s.AddNode NodeType.kSubmitNode desc aux []
  let submitNodeIndex := r.1
  let s1 := r.2
  let engineNodeIndex :=
    s1.GetChildNodeIndex .kEngineTopology Topology.kRootNodeIndex engineIndex
  let s2 := s1.AddChild .kEngineTopology engineNodeIndex submitNodeIndex
  let s3 := ((s2.AddChild .kSubmitTopology Topology.kRootNodeIndex
        submitNodeIndex).AddChild .kAllEventTopology Topology.kRootNodeIndex
      submitNodeIndex).AddChild .kRgpTopology Topology.kRootNodeIndex submitNodeIndex
  { s3 with
    m_cur_submit_node_index := submitNodeIndex
    m_cur_engine_index := info.engineIndex }

/-- Description of a Present node. -/
def presentDescription (pr : Params) (i : Nat) (p : PresentInfo) : String :=
  if p.hasValidData then
    "Present: " ++ toString i ++
      ", FullScreen: " ++ toString (if p.fullScreen then 1 else 0) ++
      ", Engine: " ++ kEngineTypeStrings.getD p.engineType.toIdx "" ++
      ", Queue: " ++ kQueueTypeStrings.getD p.queueType "" ++
      ", SurfaceAddr: 0x" ++ toHex p.surfaceAddr ++
      ", SurfaceSize: " ++ toString p.surfaceSize ++
      ", VkFormat: " ++ pr.getVkFormatString p.vkFormat ++
      ", VkColorSpaceKHR: " ++ pr.getVkColorSpaceKhrString p.vkColorSpace
  else
    "Present: " ++ toString i

/-- The opening of OnSubmitEnd: sort the Submit-view children of the
current submit node by ib-index with std::sort, and clear both marker
stacks. -/
def CreatorState.submitEndSort (s : CreatorState) (pr : Params) : CreatorState :=
  let cur := s.m_cur_submit_node_index
  let submitChildren := (s.prim.subm).getD cur []
  let sorted := pr.sortFn
    (fun lhs rhs => s.nodes.GetIbNodeIndex lhs < s.nodes.GetIbNodeIndex rhs)
    submitChildren
  { s with
    prim := s.prim.setTable .kSubmitTopology ((s.prim.subm).set cur sorted)
    m_marker_stack := []
    m_internal_marker_stack := [] }

/-- The postamble block of OnSubmitEnd: when the run buffer is non-empty,
drain it into a new PostambleState node attached under the current submit
in the AllEvent and Rgp views.  (m_cur_submit_node_index is unchanged by
the sort stage, so reading it here matches the source reading it once at
the top.) -/
def CreatorState.submitEndPostamble (s1 : CreatorState) : CreatorState :=
  if s1.m_packets.m_packet_node_indices ≠ [] then
    let cur := s1.m_cur_submit_node_index
    let r :=
      if s1.GetChildCount .kAllEventTopology cur ≠ 0 then
        s1.AddNode NodeType.kPostambleStateNode "State" AuxInfo.noAux []
      else
        s1.AddNode NodeType.kPostambleStateNode "Postamble State" AuxInfo.noAux []
    let postambleStateNodeIndex := r.1
    let sA := r.2.shareAllPackets postambleStateNodeIndex
      r.2.m_packets.m_packet_node_indices
    let sB := { sA with m_packets := sA.m_packets.Clear }
    (sB.AddChild .kAllEventTopology cur postambleStateNodeIndex).AddChild
      .kRgpTopology cur postambleStateNodeIndex
  else s1

/-- The postamble block with the description string factored out (the two
branches of submitEndPostamble differ only in it); used to state the
postamble lemmas once. -/
def CreatorState.postambleBody (s1 : CreatorState) (d : String) : CreatorState :=
  let r := s1.AddNode NodeType.kPostambleStateNode d AuxInfo.noAux []
  let sA := r.2.shareAllPackets r.1 r.2.m_packets.m_packet_node_indices
  let sB := { sA with m_packets := sA.m_packets.Clear }
  (sB.AddChild .kAllEventTopology s1.m_cur_submit_node_index r.1).AddChild
    .kRgpTopology s1.m_cur_submit_node_index r.1

/-- One iteration of the present loop of OnSubmitEnd. -/
def CreatorState.addPresentNode (st : CreatorState) (pr : Params) (submitIndex : Nat)
    (pi : Nat × PresentInfo) : CreatorState :=
  if submitIndex ≠ pi.2.submitIndex then st
  else
    let r := st.AddNode NodeType.kPresentNode (presentDescription pr pi.1 pi.2)
      AuxInfo.noAux []
    (r.2.AddChild .kAllEventTopology Topology.kRootNodeIndex r.1).AddChild
      .kRgpTopology Topology.kRootNodeIndex r.1

/-- The present loop of OnSubmitEnd. -/
def CreatorState.submitEndPresents (s2 : CreatorState) (pr : Params)
    (capture : CaptureData) (submitIndex : Nat) : CreatorState :=
  (capture.presents.enum).foldl
    (fun st pi => st.addPresentNode pr submitIndex pi) s2

/-- CommandHierarchyCreator::OnSubmitEnd. -/
def CreatorState.OnSubmitEnd (s : CreatorState) (pr : Params) (capture : CaptureData)
    (submitIndex : Nat) : CreatorState :=
  let s3 := (((s.submitEndSort pr).submitEndPostamble).submitEndPresents pr capture
    submitIndex)
  { s3 with
    m_cur_submit_node_index := UINT64_MAX
    m_ccb_ib_stack := []
    m_dcb_ib_stack := [] }

-- =============================================================================
-- CreateTopologies
-- =============================================================================

/-- The FilterOut lambda of CreateTopologies: drop events, sync nodes,
postamble-state nodes and Barrier markers. -/
def FilterOut (ns : Nodes) (i : Nat) : Bool :=
  let ty := ns.GetNodeType i
  if ty = NodeType.kDrawDispatchDmaNode ∨ ty = NodeType.kSyncNode ∨
      ty = NodeType.kPostambleStateNode then true
  else if ty = NodeType.kMarkerNode then
    ns.GetMarkerNodeType i = MarkerType.kBarrier
  else false

/-- CommandHierarchyCreator::EventNodeHelper specialised to IsVulkanEvent. -/
def IsVulkanEventNode (ns : Nodes) (pr : Params) (i : Nat) : Bool :=
  ns.GetNodeType i = NodeType.kMarkerNode ∧
    ns.GetMarkerNodeType i = MarkerType.kDiveMetadata ∧
    pr.isVulkanEventCmd (ns.GetMarkerNodeId i)

/-- CommandHierarchyCreator::EventNodeHelper specialised to
IsNonVulkanEvent.  Modelled from the spec for the inner predicate:
IsNonVulkanEvent is declared in the header (absent from src/) as the
complement of IsVulkanEvent on Vulkan metadata markers. -/
def IsVulkanNonEventNode (ns : Nodes) (pr : Params) (i : Nat) : Bool :=
  ns.GetNodeType i = NodeType.kMarkerNode ∧
    ns.GetMarkerNodeType i = MarkerType.kDiveMetadata ∧
    ¬ pr.isVulkanEventCmd (ns.GetMarkerNodeId i)

/-- Primary-children table of the VulkanCall view derived from AllEvent:
filtered nodes keep no children; others keep their non-filtered children. -/
def vulkanCallPrim (ns : Nodes) (aePrim : List (List Nat)) : List (List Nat) :=
  (List.range aePrim.length).map
    (fun i =>
      if FilterOut ns i then []
      else (aePrim.getD i []).filter (fun c => !FilterOut ns c))

/-- Shared-children table of the VulkanCall view: copied verbatim for
non-filtered nodes, left empty for filtered ones. -/
def vulkanCallShared (ns : Nodes) (aePrim aeShared : List (List Nat)) :
    List (List Nat) :=
  (List.range aePrim.length).map
    (fun i => if FilterOut ns i then [] else aeShared.getD i [])

/-- The inner child walk of the VulkanEvent derivation: accumulate shared
children, skip non-event Vulkan markers, emit other children with the
accumulated (or verbatim) shared list. -/
def veGo (ns : Nodes) (pr : Params) (srcShared : List (List Nat)) :
    List Nat → List Nat → List Nat × List (Nat × List Nat)
  | [], _ => ([], [])
  | c :: rest, acc =>
    let sh := srcShared.getD c []
    let acc1 := acc ++ sh
    if IsVulkanNonEventNode ns pr c then veGo ns pr srcShared rest acc1
    else
      let acc2 := if !IsVulkanEventNode ns pr c then [] else acc1
      let assigned := if acc2 = [] then sh else acc2
      let r := veGo ns pr srcShared rest []
      (c :: r.1, (c, assigned) :: r.2)

/-- The VulkanEvent tables derived from VulkanCall. -/
def vulkanEventTables (ns : Nodes) (pr : Params) (srcPrim srcShared : List (List Nat)) :
    List (List Nat) × List (List Nat) :=
  let num := srcPrim.length
  (List.range num).foldl
    (fun acc i =>
      if IsVulkanNonEventNode ns pr i then acc
      else
        let r := veGo ns pr srcShared (srcPrim.getD i []) []
        (acc.1.set i r.1,
          r.2.foldl (fun sh p => sh.set p.1 p.2) acc.2))
    (List.replicate num [], List.replicate num [])

/-- The six materialized topologies. -/
structure TopologySet where
  engine : Topology
  subm : Topology
  allEvent : Topology
  rgp : Topology
  vulkanCall : Topology
  vulkanEvent : Topology
  deriving DecidableEq, Repr

/-- The read-only result of a build. -/
structure CommandHierarchy where
  nodes : Nodes
  topologies : TopologySet
  metadataVersion : Nat

def CommandHierarchy.GetEngineHierarchyTopology (ch : CommandHierarchy) : Topology :=
  ch.topologies.engine

def CommandHierarchy.GetSubmitHierarchyTopology (ch : CommandHierarchy) : Topology :=
  ch.topologies.subm

def CommandHierarchy.GetAllEventHierarchyTopology (ch : CommandHierarchy) : Topology :=
  ch.topologies.allEvent

def CommandHierarchy.GetRgpHierarchyTopology (ch : CommandHierarchy) : Topology :=
  ch.topologies.rgp

def CommandHierarchy.GetVulkanEventHierarchyTopology (ch : CommandHierarchy) : Topology :=
  ch.topologies.vulkanCall

def CommandHierarchy.GetVulkanDrawEventHierarchyTopology (ch : CommandHierarchy) : Topology :=
  ch.topologies.vulkanEvent

def CommandHierarchy.GetNodeType (ch : CommandHierarchy) (i : Nat) : NodeType :=
  ch.nodes.GetNodeType i

def CommandHierarchy.GetNodeDesc (ch : CommandHierarchy) (i : Nat) : String :=
  ch.nodes.GetNodeDesc i

def CommandHierarchy.GetEventIndex (ch : CommandHierarchy) (i : Nat) : Nat :=
  ch.nodes.GetEventIndex i

/-- CommandHierarchyCreator::CreateTopologies: derive VulkanCall from
AllEvent and VulkanEvent from VulkanCall, then materialize all six. -/
def CreatorState.CreateTopologies (s : CreatorState) (pr : Params)
    (metadataVersion : Nat) : CommandHierarchy :=
  let vcPrim := vulkanCallPrim s.nodes s.prim.allEvent
  let vcShared := vulkanCallShared s.nodes s.prim.allEvent s.shared.allEvent
  let ve := vulkanEventTables s.nodes pr vcPrim vcShared
  { nodes := s.nodes
    topologies :=
      { engine := mkTopology s.prim.engine s.shared.engine
        subm := mkTopology s.prim.subm s.shared.subm
        allEvent := mkTopology s.prim.allEvent s.shared.allEvent
        rgp := mkTopology s.prim.rgp s.shared.rgp
        vulkanCall := mkTopology vcPrim vcShared
        vulkanEvent := mkTopology ve.1 ve.2 }
    metadataVersion := metadataVersion }

-- =============================================================================
-- CreateTrees
-- =============================================================================

/-- One emulator callback, as delivered to the builder by
EmulatePM4::ExecuteSubmit (the emulator itself is an external
collaborator). -/
inductive EmuEv where
  | ibStart (ibIndex : Nat) (ibInfo : IndirectBufferInfo) (t : IbType)
  | ibEnd (ibIndex : Nat) (ibInfo : IndirectBufferInfo)
  | packet (va : Nat) (t : Pm4Type) (header : Nat)
  deriving DecidableEq, Repr, Inhabited

/-- Dispatch one emulator callback to the builder. -/
def CreatorState.step (s : CreatorState) (pr : Params) (submitIndex : Nat) :
    EmuEv → Option CreatorState
  | .ibStart ibIndex ibInfo t => some (s.OnIbStart ibIndex ibInfo t)
  | .ibEnd _ _ => s.OnIbEnd
  | .packet va t header => s.OnPacket pr submitIndex va t header

/-- Run the callbacks of one submit in order. -/
def CreatorState.runTrace (s : CreatorState) (pr : Params) (submitIndex : Nat)
    (trace : List EmuEv) : Option CreatorState :=
  trace.foldlM (fun st ev => st.step pr submitIndex ev) s

/-- CommandHierarchyCreator::CreateTrees.  The PM4 emulator is an
external collaborator; it enters as `emu`, giving per submit either the
callback sequence it drives or `none` for a decode failure (ExecuteSubmit
returning false).  The result is `none` when the build aborts. -/
def CreateTrees (pr : Params) (emu : Nat → Option (List EmuEv))
    (capture : CaptureData) (flattenChainNodes : Bool) : Option CommandHierarchy := do
  let s0 : CreatorState := {}
  let r := s0.AddNode NodeType.kRootNode "" AuxInfo.noAux []
  let s1 := (List.range kEngineTypeCount).foldl
    (fun st engineIdx =>
      let r2 := st.AddNode NodeType.kEngineNode (kEngineTypeStrings.getD engineIdx "")
        AuxInfo.noAux []
      r2.2.AddChild .kEngineTopology Topology.kRootNodeIndex r2.1)
    r.2
  let s2 := { s1 with
    m_num_events := 0
    m_cur_submit_node_index := UINT64_MAX
    m_dcb_ib_stack := []
    m_ccb_ib_stack := []
    m_flatten_chain_nodes := flattenChainNodes }
  let sFinal ← (capture.submits.enum).foldlM
    (fun st pi => do
      let submitInfo := pi.2
      let submitIndex := pi.1
      let stA := st.OnSubmitStart submitIndex submitInfo
      if submitInfo.isDummy then
        some (stA.OnSubmitEnd pr capture submitIndex)
      else if submitInfo.engineType ≠ EngineType.kUniversal ∧
          submitInfo.engineType ≠ EngineType.kCompute ∧
          submitInfo.engineType ≠ EngineType.kDma then
        some (stA.OnSubmitEnd pr capture submitIndex)
      else do
        let trace ← emu submitIndex
        let stB ← stA.runTrace pr submitIndex trace
        some (stB.OnSubmitEnd pr capture submitIndex))
    s2
  some (sFinal.CreateTopologies pr capture.vulkanMetadataVersion)

-- =============================================================================
-- Helper lemmas: List.getD
-- =============================================================================

theorem getD_set_self {α : Type} (l : List α) (i : Nat) (a : α) (d : α)
    (h : i < l.length) : (l.set i a).getD i d = a := by
  induction l generalizing i with
  | nil => simp at h
  | cons x xs ih =>
    cases i with
    | zero => simp
    | succ j => simpa using ih j (by simpa using h)

theorem getD_set_ne {α : Type} (l : List α) (i j : Nat) (a : α) (d : α)
    (h : i ≠ j) : (l.set i a).getD j d = l.getD j d := by
  induction l generalizing i j with
  | nil => simp
  | cons x xs ih =>
    cases i with
    | zero =>
      cases j with
      | zero => exact absurd rfl h
      | succ j2 => simp
    | succ i2 =>
      cases j with
      | zero => simp
      | succ j2 => simpa using ih i2 j2 (by omega)

theorem getD_append_left {α : Type} (l1 l2 : List α) (j : Nat) (d : α)
    (h : j < l1.length) : (l1 ++ l2).getD j d = l1.getD j d := by
  induction l1 generalizing j with
  | nil => simp at h
  | cons x xs ih =>
    cases j with
    | zero => simp
    | succ j2 => simpa using ih j2 (by simpa using h)

theorem getD_append_add {α : Type} (l1 l2 : List α) (k : Nat) (d : α) :
    (l1 ++ l2).getD (l1.length + k) d = l2.getD k d := by
  induction l1 with
  | nil => simp
  | cons x xs ih => simpa [Nat.succ_add] using ih

-- =============================================================================
-- Helper lemmas: Topology construction (SetNumNodes / AddChildren / fill)
-- =============================================================================

theorem addChildrenLoop_children_list (t : Topology) (node : Nat) (cs : List Nat)
    (i : Nat) : (t.addChildrenLoop node cs i).m_children_list = t.m_children_list := by
  induction cs generalizing t i with
  | nil => rfl
  | cons c rest ih => simpa [Topology.addChildrenLoop] using ih _ _

theorem addChildrenLoop_node_children (t : Topology) (node : Nat) (cs : List Nat)
    (i : Nat) : (t.addChildrenLoop node cs i).m_node_children = t.m_node_children := by
  induction cs generalizing t i with
  | nil => rfl
  | cons c rest ih => simpa [Topology.addChildrenLoop] using ih _ _

theorem addChildrenLoop_shared_list (t : Topology) (node : Nat) (cs : List Nat)
    (i : Nat) :
    (t.addChildrenLoop node cs i).m_shared_children_list = t.m_shared_children_list := by
  induction cs generalizing t i with
  | nil => rfl
  | cons c rest ih => simpa [Topology.addChildrenLoop] using ih _ _

theorem addChildrenLoop_node_shared (t : Topology) (node : Nat) (cs : List Nat)
    (i : Nat) :
    (t.addChildrenLoop node cs i).m_node_shared_children = t.m_node_shared_children := by
  induction cs generalizing t i with
  | nil => rfl
  | cons c rest ih => simpa [Topology.addChildrenLoop] using ih _ _

theorem addChildrenLoop_parent_length (t : Topology) (node : Nat) (cs : List Nat)
    (i : Nat) :
    (t.addChildrenLoop node cs i).m_node_parent.length = t.m_node_parent.length := by
  induction cs generalizing t i with
  | nil => rfl
  | cons c rest ih =>
    simp only [Topology.addChildrenLoop]
    rw [ih]
    simp

theorem addChildrenLoop_child_index_length (t : Topology) (node : Nat) (cs : List Nat)
    (i : Nat) :
    (t.addChildrenLoop node cs i).m_node_child_index.length =
      t.m_node_child_index.length := by
  induction cs generalizing t i with
  | nil => rfl
  | cons c rest ih =>
    simp only [Topology.addChildrenLoop]
    rw [ih]
    simp

/-- Nodes not in the child list keep their parent and child-index. -/
theorem addChildrenLoop_not_mem (t : Topology) (node : Nat) (cs : List Nat) (i : Nat)
    (x : Nat) (hx : x ∉ cs) :
    (t.addChildrenLoop node cs i).m_node_parent.getD x UINT64_MAX =
        t.m_node_parent.getD x UINT64_MAX ∧
      (t.addChildrenLoop node cs i).m_node_child_index.getD x UINT64_MAX =
        t.m_node_child_index.getD x UINT64_MAX := by
  induction cs generalizing t i with
  | nil => exact ⟨rfl, rfl⟩
  | cons c rest ih =>
    have hxc : x ≠ c := fun hEq => hx (hEq ▸ List.mem_cons_self c rest)
    have hxr : x ∉ rest := fun hmem => hx (List.mem_cons_of_mem c hmem)
    have := ih { t with
      m_node_parent := t.m_node_parent.set c node
      m_node_child_index := t.m_node_child_index.set c i } (i + 1) hxr
    simp only [Topology.addChildrenLoop]
    rw [this.1, this.2]
    constructor
    · exact getD_set_ne _ c x node UINT64_MAX (fun hEq => hxc hEq.symm)
    · exact getD_set_ne _ c x i UINT64_MAX (fun hEq => hxc hEq.symm)

/-- The j-th child of a duplicate-free list gets parent `node` and child
index `i + j`. -/
theorem addChildrenLoop_mem (t : Topology) (node : Nat) (cs : List Nat) (i : Nat)
    (hnd : cs.Nodup) (j : Nat) (hj : j < cs.length)
    (hb1 : cs.getD j 0 < t.m_node_parent.length)
    (hb2 : cs.getD j 0 < t.m_node_child_index.length) :
    (t.addChildrenLoop node cs i).m_node_parent.getD (cs.getD j 0) UINT64_MAX = node ∧
      (t.addChildrenLoop node cs i).m_node_child_index.getD (cs.getD j 0) UINT64_MAX =
        i + j := by
  induction cs generalizing t i j with
  | nil => simp at hj
  | cons c rest ih =>
    rcases List.nodup_cons.mp hnd with ⟨hcr, hndr⟩
    cases j with
    | zero =>
      simp only [List.getD_cons_zero]
      simp only [Topology.addChildrenLoop]
      have := addChildrenLoop_not_mem { t with
        m_node_parent := t.m_node_parent.set c node
        m_node_child_index := t.m_node_child_index.set c i } node rest (i + 1) c hcr
      rw [this.1, this.2]
      simp only [List.getD_cons_zero] at hb1 hb2
      exact ⟨getD_set_self _ c node UINT64_MAX hb1, by
        rw [getD_set_self _ c i UINT64_MAX hb2]; omega⟩
    | succ j2 =>
      simp only [List.getD_cons_succ] at hb1 hb2 ⊢
      simp only [Topology.addChildrenLoop]
      have := ih { t with
        m_node_parent := t.m_node_parent.set c node
        m_node_child_index := t.m_node_child_index.set c i } (i + 1) hndr j2
        (by simpa using hj) (by simpa using hb1) (by simpa using hb2)
      rw [this.1, this.2]
      exact ⟨rfl, by omega⟩

theorem AddChildren_children_list (t : Topology) (n : Nat) (cs : List Nat) :
    (t.AddChildren n cs).m_children_list = t.m_children_list ++ cs := by
  simp [Topology.AddChildren, addChildrenLoop_children_list]

theorem AddChildren_node_children (t : Topology) (n : Nat) (cs : List Nat) :
    (t.AddChildren n cs).m_node_children =
      t.m_node_children.set n ⟨t.m_children_list.length, cs.length⟩ := by
  simp [Topology.AddChildren, addChildrenLoop_node_children]

theorem AddChildren_shared_list (t : Topology) (n : Nat) (cs : List Nat) :
    (t.AddChildren n cs).m_shared_children_list = t.m_shared_children_list := by
  simp [Topology.AddChildren, addChildrenLoop_shared_list]

theorem AddChildren_node_shared (t : Topology) (n : Nat) (cs : List Nat) :
    (t.AddChildren n cs).m_node_shared_children = t.m_node_shared_children := by
  simp [Topology.AddChildren, addChildrenLoop_node_shared]

/-- One step of `fill` (unfolding helper). -/
theorem fill_cons (t : Topology) (idx : Nat) (p : List Nat) (ps ss : List (List Nat)) :
    t.fill idx (p :: ps) ss =
      ((t.AddChildren idx p).AddSharedChildren idx (ss.headD [])).fill (idx + 1) ps
        ss.tail := rfl

theorem fill_node_children_length (t : Topology) (idx : Nat) (ps ss : List (List Nat)) :
    (t.fill idx ps ss).m_node_children.length = t.m_node_children.length := by
  induction ps generalizing t idx ss with
  | nil => rfl
  | cons p rest ih =>
    rw [fill_cons]
    rw [ih]
    simp [Topology.AddSharedChildren, AddChildren_node_children]

theorem fill_node_shared_length (t : Topology) (idx : Nat) (ps ss : List (List Nat)) :
    (t.fill idx ps ss).m_node_shared_children.length =
      t.m_node_shared_children.length := by
  induction ps generalizing t idx ss with
  | nil => rfl
  | cons p rest ih =>
    rw [fill_cons, ih]
    simp [Topology.AddSharedChildren, AddChildren_node_shared]

theorem fill_parent_length (t : Topology) (idx : Nat) (ps ss : List (List Nat)) :
    (t.fill idx ps ss).m_node_parent.length = t.m_node_parent.length := by
  induction ps generalizing t idx ss with
  | nil => rfl
  | cons p rest ih =>
    rw [fill_cons, ih]
    simp [Topology.AddSharedChildren, Topology.AddChildren,
      addChildrenLoop_parent_length]

theorem fill_child_index_length (t : Topology) (idx : Nat) (ps ss : List (List Nat)) :
    (t.fill idx ps ss).m_node_child_index.length = t.m_node_child_index.length := by
  induction ps generalizing t idx ss with
  | nil => rfl
  | cons p rest ih =>
    rw [fill_cons, ih]
    simp [Topology.AddSharedChildren, Topology.AddChildren,
      addChildrenLoop_child_index_length]

theorem fill_children_list_prefix (t : Topology) (idx : Nat) (ps ss : List (List Nat)) :
    ∃ rest, (t.fill idx ps ss).m_children_list = t.m_children_list ++ rest := by
  induction ps generalizing t idx ss with
  | nil => exact ⟨[], by simp [Topology.fill]⟩
  | cons p more ih =>
    rw [fill_cons]
    obtain ⟨rest, hr⟩ := ih ((t.AddChildren idx p).AddSharedChildren idx (ss.headD []))
      (idx + 1) ss.tail
    refine ⟨p ++ rest, ?_⟩
    rw [hr]
    simp [Topology.AddSharedChildren, AddChildren_children_list]

theorem fill_shared_list_prefix (t : Topology) (idx : Nat) (ps ss : List (List Nat)) :
    ∃ rest,
      (t.fill idx ps ss).m_shared_children_list =
        t.m_shared_children_list ++ rest := by
  induction ps generalizing t idx ss with
  | nil => exact ⟨[], by simp [Topology.fill]⟩
  | cons p more ih =>
    rw [fill_cons]
    obtain ⟨rest, hr⟩ := ih ((t.AddChildren idx p).AddSharedChildren idx (ss.headD []))
      (idx + 1) ss.tail
    refine ⟨ss.headD [] ++ rest, ?_⟩
    rw [hr]
    simp [Topology.AddSharedChildren, AddChildren_shared_list]

theorem fill_node_children_lt (t : Topology) (idx : Nat) (ps ss : List (List Nat))
    (n : Nat) (hn : n < idx) :
    (t.fill idx ps ss).m_node_children.getD n default =
      t.m_node_children.getD n default := by
  induction ps generalizing t idx ss with
  | nil => rfl
  | cons p more ih =>
    rw [fill_cons, ih _ _ _ (by omega)]
    simp only [Topology.AddSharedChildren, AddChildren_node_children]
    exact getD_set_ne _ idx n _ default (by omega)

theorem fill_node_shared_lt (t : Topology) (idx : Nat) (ps ss : List (List Nat))
    (n : Nat) (hn : n < idx) :
    (t.fill idx ps ss).m_node_shared_children.getD n default =
      t.m_node_shared_children.getD n default := by
  induction ps generalizing t idx ss with
  | nil => rfl
  | cons p more ih =>
    rw [fill_cons, ih _ _ _ (by omega)]
    simp only [Topology.AddSharedChildren, AddChildren_node_shared]
    exact getD_set_ne _ idx n _ default (by omega)

/-- After `fill`, node `n` in the processed range points at exactly its
input list: the recorded count is the list length and the recorded segment
reads the list back. -/
theorem fill_children_spec (ps : List (List Nat)) :
    ∀ (ss : List (List Nat)) (t : Topology) (idx n : Nat),
      idx ≤ n → n < idx + ps.length → n < t.m_node_children.length →
      (t.fill idx ps ss).GetNumChildren n = (ps.getD (n - idx) []).length ∧
        ∀ k, k < (ps.getD (n - idx) []).length →
          (t.fill idx ps ss).GetChildNodeIndex n k = (ps.getD (n - idx) []).getD k 0 := by
  induction ps with
  | nil =>
    intro ss t idx n h1 h2 h3
    exact absurd h2 (by simp only [List.length_nil, Nat.add_zero]; omega)
  | cons p more ih =>
    intro ss t idx n h1 h2 h3
    rcases Nat.eq_or_lt_of_le h1 with hEq | hlt
    · subst hEq
      rw [fill_cons]
      have hinfo :
          ((((t.AddChildren idx p).AddSharedChildren idx (ss.headD [])).fill (idx + 1)
              more ss.tail).m_node_children.getD idx default) =
            ⟨t.m_children_list.length, p.length⟩ := by
        rw [fill_node_children_lt _ _ _ _ _ (by omega)]
        simp only [Topology.AddSharedChildren, AddChildren_node_children]
        exact getD_set_self _ idx _ default h3
      obtain ⟨rest, hlist⟩ := fill_children_list_prefix
        ((t.AddChildren idx p).AddSharedChildren idx (ss.headD [])) (idx + 1) more ss.tail
      have hlist2 : (((t.AddChildren idx p).AddSharedChildren idx (ss.headD [])).fill
          (idx + 1) more ss.tail).m_children_list =
          t.m_children_list ++ (p ++ rest) := by
        rw [hlist]
        simp [Topology.AddSharedChildren, AddChildren_children_list]
      constructor
      · simp only [Topology.GetNumChildren, hinfo, Nat.sub_self, List.getD_cons_zero]
      · intro k hk
        simp only [Nat.sub_self, List.getD_cons_zero] at hk
        simp only [Topology.GetChildNodeIndex, hinfo, hlist2, Nat.sub_self,
          List.getD_cons_zero]
        rw [getD_append_add, getD_append_left _ _ _ _ hk]
    · rw [fill_cons]
      have hstep := ih ss.tail ((t.AddChildren idx p).AddSharedChildren idx (ss.headD []))
        (idx + 1) n hlt (by simpa [Nat.add_comm, Nat.add_left_comm] using h2)
        (by simpa [Topology.AddSharedChildren, AddChildren_node_children] using h3)
      have hidx : n - idx = (n - (idx + 1)) + 1 := by omega
      rw [hidx]
      simpa using hstep

/-- The shared analogue of fill_children_spec. -/
theorem fill_shared_spec (ps : List (List Nat)) :
    ∀ (ss : List (List Nat)) (t : Topology) (idx n : Nat),
      idx ≤ n → n < idx + ps.length → n < t.m_node_shared_children.length →
      (t.fill idx ps ss).GetNumSharedChildren n = (ss.getD (n - idx) []).length ∧
        ∀ k, k < (ss.getD (n - idx) []).length →
          (t.fill idx ps ss).GetSharedChildNodeIndex n k =
            (ss.getD (n - idx) []).getD k 0 := by
  induction ps with
  | nil =>
    intro ss t idx n h1 h2 h3
    exact absurd h2 (by simp only [List.length_nil, Nat.add_zero]; omega)
  | cons p more ih =>
    intro ss t idx n h1 h2 h3
    rcases Nat.eq_or_lt_of_le h1 with hEq | hlt
    · subst hEq
      rw [fill_cons]
      have hb : idx < ((t.AddChildren idx p).m_node_shared_children).length := by
        simpa [AddChildren_node_shared] using h3
      have hinfo :
          ((((t.AddChildren idx p).AddSharedChildren idx (ss.headD [])).fill (idx + 1)
              more ss.tail).m_node_shared_children.getD idx default) =
            ⟨(t.AddChildren idx p).m_shared_children_list.length,
              (ss.headD []).length⟩ := by
        rw [fill_node_shared_lt _ _ _ _ _ (by omega)]
        simp only [Topology.AddSharedChildren]
        exact getD_set_self _ idx _ default hb
      obtain ⟨rest, hlist⟩ := fill_shared_list_prefix
        ((t.AddChildren idx p).AddSharedChildren idx (ss.headD [])) (idx + 1) more ss.tail
      have hlist2 : (((t.AddChildren idx p).AddSharedChildren idx (ss.headD [])).fill
          (idx + 1) more ss.tail).m_shared_children_list =
          (t.AddChildren idx p).m_shared_children_list ++ (ss.headD [] ++ rest) := by
        rw [hlist]
        simp [Topology.AddSharedChildren]
      have hhead : ss.headD [] = ss.getD 0 [] := by
        cases ss <;> rfl
      constructor
      · simp only [Topology.GetNumSharedChildren, hinfo, Nat.sub_self, ← hhead]
      · intro k hk
        simp only [Nat.sub_self, ← hhead] at hk
        simp only [Topology.GetSharedChildNodeIndex, hinfo, hlist2, Nat.sub_self, ← hhead]
        rw [getD_append_add, getD_append_left _ _ _ _ hk]
    · rw [fill_cons]
      have hstep := ih ss.tail ((t.AddChildren idx p).AddSharedChildren idx (ss.headD []))
        (idx + 1) n hlt (by simpa [Nat.add_comm, Nat.add_left_comm] using h2)
        (by simpa [Topology.AddSharedChildren, AddChildren_node_shared] using h3)
      have hidx : n - idx = (n - (idx + 1)) + 1 := by omega
      rw [hidx]
      have htail : ∀ j, ss.tail.getD j [] = ss.getD (j + 1) [] := by
        intro j
        cases ss <;> simp
      rw [htail] at hstep
      exact hstep

theorem SetNumNodes_empty (n : Nat) :
    ({} : Topology).SetNumNodes n =
      { m_children_list := []
        m_shared_children_list := []
        m_node_children := List.replicate n default
        m_node_shared_children := List.replicate n default
        m_node_parent := List.replicate n UINT64_MAX
        m_node_child_index := List.replicate n UINT64_MAX } := by
  simp [Topology.SetNumNodes]

theorem mkTopology_num_nodes (prim shared : List (List Nat)) :
    (mkTopology prim shared).GetNumNodes = prim.length := by
  simp [mkTopology, Topology.GetNumNodes, fill_node_children_length, SetNumNodes_empty]

theorem mkTopology_children (prim shared : List (List Nat)) (n : Nat)
    (hn : n < prim.length) :
    (mkTopology prim shared).GetNumChildren n = (prim.getD n []).length ∧
      ∀ k, k < (prim.getD n []).length →
        (mkTopology prim shared).GetChildNodeIndex n k = (prim.getD n []).getD k 0 := by
  have := fill_children_spec prim shared (({} : Topology).SetNumNodes prim.length) 0 n
    (by omega) (by omega) (by simpa [SetNumNodes_empty] using hn)
  simpa [mkTopology] using this

theorem mkTopology_shared (prim shared : List (List Nat)) (n : Nat)
    (hn : n < prim.length) :
    (mkTopology prim shared).GetNumSharedChildren n = (shared.getD n []).length ∧
      ∀ k, k < (shared.getD n []).length →
        (mkTopology prim shared).GetSharedChildNodeIndex n k =
          (shared.getD n []).getD k 0 := by
  have := fill_shared_spec prim shared (({} : Topology).SetNumNodes prim.length) 0 n
    (by omega) (by omega) (by simpa [SetNumNodes_empty] using hn)
  simpa [mkTopology] using this

-- =============================================================================
-- Helper lemmas: parent back-links written by fill
-- =============================================================================

theorem AddChildren_parent (t : Topology) (n : Nat) (cs : List Nat) :
    (t.AddChildren n cs).m_node_parent =
      (Topology.addChildrenLoop
          { t with
            m_children_list := t.m_children_list ++ cs
            m_node_children :=
              t.m_node_children.set n ⟨t.m_children_list.length, cs.length⟩ }
          n cs 0).m_node_parent := rfl

/-- A node in none of the remaining lists keeps its parent/child-index. -/
theorem fill_parent_not_mem (ps : List (List Nat)) :
    ∀ (ss : List (List Nat)) (t : Topology) (idx x : Nat),
      (∀ p ∈ ps, x ∉ p) →
      (t.fill idx ps ss).m_node_parent.getD x UINT64_MAX =
          t.m_node_parent.getD x UINT64_MAX ∧
        (t.fill idx ps ss).m_node_child_index.getD x UINT64_MAX =
          t.m_node_child_index.getD x UINT64_MAX := by
  induction ps with
  | nil => intro ss t idx x _; exact ⟨rfl, rfl⟩
  | cons p more ih =>
    intro ss t idx x hx
    rw [fill_cons]
    have h1 := ih ss.tail ((t.AddChildren idx p).AddSharedChildren idx (ss.headD []))
      (idx + 1) x (fun q hq => hx q (List.mem_cons_of_mem p hq))
    have h2 := addChildrenLoop_not_mem
      { t with
        m_children_list := t.m_children_list ++ p
        m_node_children := t.m_node_children.set idx ⟨t.m_children_list.length, p.length⟩ }
      idx p 0 x (hx p (List.mem_cons_self p more))
    constructor
    · rw [h1.1]
      simpa [Topology.AddSharedChildren, Topology.AddChildren] using h2.1
    · rw [h1.2]
      simpa [Topology.AddSharedChildren, Topology.AddChildren] using h2.2

/-- A node listed at position j of the m-th list gets parent idx+m and
child index j, provided no later list mentions it again. -/
theorem fill_parent_mem (ps : List (List Nat)) :
    ∀ (ss : List (List Nat)) (t : Topology) (idx m j : Nat),
      m < ps.length → j < (ps.getD m []).length →
      List.Nodup (ps.getD m []) →
      (∀ m2, m < m2 → m2 < ps.length → (ps.getD m []).getD j 0 ∉ ps.getD m2 []) →
      (ps.getD m []).getD j 0 < t.m_node_parent.length →
      (ps.getD m []).getD j 0 < t.m_node_child_index.length →
      (t.fill idx ps ss).m_node_parent.getD ((ps.getD m []).getD j 0) UINT64_MAX =
          idx + m ∧
        (t.fill idx ps ss).m_node_child_index.getD ((ps.getD m []).getD j 0)
          UINT64_MAX = j := by
  induction ps with
  | nil =>
    intro ss t idx m j h1
    exact absurd h1 (by simp)
  | cons p more ih =>
    intro ss t idx m j hm hj hnd hlater hb1 hb2
    cases m with
    | zero =>
      simp only [List.getD_cons_zero] at hj hnd hlater hb1 hb2 ⊢
      rw [fill_cons]
      have hnotlater : ∀ q ∈ more, p.getD j 0 ∉ q := by
        intro q hq
        obtain ⟨m2, hm2len, hm2⟩ := List.mem_iff_getElem.mp hq
        have h3 := hlater (m2 + 1) (by omega) (by simpa using hm2len)
        rw [List.getD_cons_succ, List.getD_eq_getElem _ _ hm2len, hm2] at h3
        exact h3
      have h1 := fill_parent_not_mem more ss.tail
        ((t.AddChildren idx p).AddSharedChildren idx (ss.headD [])) (idx + 1) (p.getD j 0)
        hnotlater
      have h2 := addChildrenLoop_mem
        { t with
          m_children_list := t.m_children_list ++ p
          m_node_children :=
            t.m_node_children.set idx ⟨t.m_children_list.length, p.length⟩ }
        idx p 0 hnd j hj (by simpa using hb1) (by simpa using hb2)
      constructor
      · rw [h1.1]
        simpa [Topology.AddSharedChildren, Topology.AddChildren] using h2.1
      · rw [h1.2]
        simpa [Topology.AddSharedChildren, Topology.AddChildren] using h2.2
    | succ m2 =>
      simp only [List.getD_cons_succ] at hj hnd hlater hb1 hb2 ⊢
      rw [fill_cons]
      have hstep := ih ss.tail ((t.AddChildren idx p).AddSharedChildren idx (ss.headD []))
        (idx + 1) m2 j (by simpa using hm) hj hnd
        (by
          intro m3 hm3a hm3b
          have := hlater (m3 + 1) (by omega) (by simpa using hm3b)
          simpa using this)
        (by
          simpa [Topology.AddSharedChildren, Topology.AddChildren,
            addChildrenLoop_parent_length] using hb1)
        (by
          simpa [Topology.AddSharedChildren, Topology.AddChildren,
            addChildrenLoop_child_index_length] using hb2)
      rw [hstep.1]
      exact ⟨by omega, hstep.2⟩

theorem getD_replicate {α : Type} (n i : Nat) (a : α) :
    (List.replicate n a).getD i a = a := by
  induction n generalizing i with
  | zero => simp
  | succ m ih =>
    cases i with
    | zero => simp [List.replicate]
    | succ i2 => simpa [List.replicate] using ih i2

/-- A node that no pending list mentions keeps parent UINT64_MAX in the
materialized topology. -/
theorem mkTopology_parent_not_mem (prim shared : List (List Nat)) (x : Nat)
    (hx : ∀ p ∈ prim, x ∉ p) :
    (mkTopology prim shared).GetParentNodeIndex x = UINT64_MAX := by
  have h := fill_parent_not_mem prim shared (({} : Topology).SetNumNodes prim.length) 0 x hx
  simp only [mkTopology, Topology.GetParentNodeIndex]
  rw [h.1]
  simp only [SetNumNodes_empty]
  exact getD_replicate _ _ _

/-- The j-th entry of the m-th pending list gets parent m and child
index j in the materialized topology. -/
theorem mkTopology_parent_of_child (prim shared : List (List Nat))
    (hnd : prim.join.Nodup)
    (hbound : ∀ p ∈ prim, ∀ c ∈ p, c < prim.length)
    (m j : Nat) (hm : m < prim.length) (hj : j < (prim.getD m []).length) :
    (mkTopology prim shared).GetParentNodeIndex ((prim.getD m []).getD j 0) = m ∧
      (mkTopology prim shared).GetChildIndex ((prim.getD m []).getD j 0) = j := by
  rcases List.nodup_join.mp hnd with ⟨heach, hdisj⟩
  have hmemm : prim.getD m [] ∈ prim := by
    rw [List.getD_eq_getElem _ _ hm]
    exact List.getElem_mem _
  have hjmem : (prim.getD m []).getD j 0 ∈ prim.getD m [] := by
    rw [List.getD_eq_getElem _ _ hj]
    exact List.getElem_mem _
  have hpd := List.pairwise_iff_getElem.mp hdisj
  have h := fill_parent_mem prim shared (({} : Topology).SetNumNodes prim.length) 0 m j
    hm hj (heach _ hmemm)
    (by
      intro m2 hlt hm2
      have hd := hpd m m2 hm hm2 hlt
      intro hcon
      have hjmem2 : (prim.getD m []).getD j 0 ∈ prim[m] := by
        rw [← List.getD_eq_getElem prim [] hm]
        exact hjmem
      have := hd hjmem2
      rw [List.getD_eq_getElem _ _ hm2] at hcon
      exact this hcon)
    (by
      simp only [SetNumNodes_empty, List.length_replicate]
      exact hbound _ hmemm _ hjmem)
    (by
      simp only [SetNumNodes_empty, List.length_replicate]
      exact hbound _ hmemm _ hjmem)
  simpa [mkTopology, Topology.GetParentNodeIndex, Topology.GetChildIndex] using h

theorem getD_range_map {α : Type} (N : Nat) (f : Nat → α) (n : Nat) (d : α)
    (hn : n < N) : ((List.range N).map f).getD n d = f n := by
  have hlen : n < ((List.range N).map f).length := by simpa using hn
  rw [List.getD_eq_getElem _ _ hlen]
  simp

-- =============================================================================
-- Helper lemmas: std::lower_bound
-- =============================================================================

theorem getD_lt_getD (a : List Nat) (hp : List.Pairwise (· < ·) a) {i j : Nat}
    (hij : i < j) (hj : j < a.length) : a.getD i 0 < a.getD j 0 := by
  have hi : i < a.length := lt_trans hij hj
  rw [List.getD_eq_getElem a 0 hi, List.getD_eq_getElem a 0 hj]
  exact List.pairwise_iff_get.mp hp ⟨i, hi⟩ ⟨j, hj⟩ hij

theorem lowerBoundAux_spec (a : List Nat) (v : Nat) (hp : List.Pairwise (· < ·) a) :
    ∀ (count first : Nat),
      first + count ≤ a.length →
      (∀ j, j < first → a.getD j 0 < v) →
      (∀ j, first + count ≤ j → j < a.length → ¬ a.getD j 0 < v) →
      first ≤ lowerBoundAux a v first count ∧
        lowerBoundAux a v first count ≤ first + count ∧
        (∀ j, j < lowerBoundAux a v first count → a.getD j 0 < v) ∧
        (∀ j, lowerBoundAux a v first count ≤ j → j < a.length → ¬ a.getD j 0 < v) := by
  intro count
  induction count using Nat.strong_induction_on with
  | _ count ih =>
    intro first hbound hlow hhigh
    rw [lowerBoundAux]
    by_cases h0 : count = 0
    · simp only [h0, dite_true]
      subst h0
      exact ⟨le_refl _, by omega, hlow, by simpa using hhigh⟩
    · simp only [h0, dite_false]
      set step := count / 2 with hstep
      have hsteplt : step < count := Nat.div_lt_self (Nat.pos_of_ne_zero h0) (by norm_num)
      by_cases hmid : a.getD (first + step) 0 < v
      · simp only [hmid, if_true]
        have hlow' : ∀ j, j < first + step + 1 → a.getD j 0 < v := by
          intro j hj
          by_cases hjf : j < first
          · exact hlow j hjf
          · rcases Nat.lt_or_ge j (first + step) with hlt | hge
            · calc a.getD j 0 < a.getD (first + step) 0 :=
                    getD_lt_getD a hp hlt (by omega)
                _ < v := hmid
            · have : j = first + step := by omega
              rw [this]; exact hmid
        have := ih (count - step - 1) (by omega) (first + step + 1) (by omega) hlow'
          (by intro j hj hj2; exact hhigh j (by omega) hj2)
        exact ⟨by omega, by omega, this.2.2.1, this.2.2.2⟩
      · simp only [hmid, if_false]
        have hhigh' : ∀ j, first + step ≤ j → j < a.length → ¬ a.getD j 0 < v := by
          intro j hj hj2 hcon
          rcases Nat.eq_or_lt_of_le hj with heq | hlt
          · rw [← heq] at hcon; exact hmid hcon
          · exact hmid (lt_trans (getD_lt_getD a hp hlt hj2) hcon)
        have := ih step (by omega) first (by omega) hlow hhigh'
        exact ⟨this.1, by omega, this.2.2.1, this.2.2.2⟩

theorem lowerBound_mem (a : List Nat) (hp : List.Pairwise (· < ·) a)
    (k : Nat) (hk : k < a.length) : lowerBound a (a.getD k 0) = k := by
  have hs := lowerBoundAux_spec a (a.getD k 0) hp a.length 0 (by omega)
    (by intro j hj; omega)
    (by intro j hj hj2; omega)
  have h1 := hs.2.2.1
  have h2 := hs.2.2.2
  set r := lowerBoundAux a (a.getD k 0) 0 a.length with hr
  rcases Nat.lt_trichotomy r k with h | h | h
  · exact absurd (getD_lt_getD a hp h hk) (h2 r (le_refl _) (by omega))
  · exact h
  · exact absurd (h1 k h) (lt_irrefl _)

theorem lowerBound_le_length (a : List Nat) (hp : List.Pairwise (· < ·) a) (v : Nat) :
    lowerBound a v ≤ a.length := by
  have hs := lowerBoundAux_spec a v hp a.length 0 (by omega)
    (by intro j hj; omega)
    (by intro j hj hj2; omega)
  simpa [lowerBound] using hs.2.1

/-- The sorted-list invariant of m_event_node_indices: strictly increasing
and all below the node count. -/
def EventIndicesInv (s : CreatorState) : Prop :=
  List.Chain' (· < ·) s.nodes.m_event_node_indices ∧
    ∀ e ∈ s.nodes.m_event_node_indices, e < s.nodes.numNodes

-- =============================================================================
-- Claim theorems
-- =============================================================================

/-- Simple concrete collaborators for concrete builds in witnesses and
counterexamples (the external catalog, memory, strings and sort are free
inputs of the build). -/
def plainParams : Params :=
  { copyMemory := fun _ _ => some 0
    getPacketInfo := fun _ => some {}
    getRegInfo := fun _ => none
    getOpCodeString := fun _ => "OP"
    getEnumString := fun _ _ => some "E"
    isVulkanEventCmd := fun _ => false
    getVkFormatString := fun _ => ""
    getVkColorSpaceKhrString := fun _ => ""
    sortFn := fun _ l => l }

/-- The hierarchy CreateTrees builds over a capture with no submits: a
root node and one Engine node per engine type. -/
def c2Hierarchy : CommandHierarchy :=
  (CreateTrees plainParams (fun _ => some []) {} false).getD
    (CreatorState.CreateTopologies {} plainParams 0)

/-- Claim C2 counterexample: in the Submit-view topology of a real (empty)
build, node 1 is a non-root node (an Engine node), yet its primary parent
is the NONE sentinel UINT64_MAX — engine nodes are parented only in the
Engine view, so "every non-root node has a parent in every topology" fails
as stated. -/
theorem c2_counterexample :
    (CreateTrees plainParams (fun _ => some []) {} false).isSome = true ∧
      1 < c2Hierarchy.GetSubmitHierarchyTopology.GetNumNodes ∧
      c2Hierarchy.GetNodeType 1 = NodeType.kEngineNode ∧
      c2Hierarchy.GetSubmitHierarchyTopology.GetParentNodeIndex 1 = UINT64_MAX := by
  refine ⟨rfl, ?_, rfl, rfl⟩
  decide

/-- Claim C2 (amended): in every topology materialized by CreateTopologies
from pending tables in which each node occurs as a primary child at most
once (the invariant Topology::AddChildren asserts) and all recorded
children are in range, (a) the j-th recorded child of node m has parent m
and child-index j, and (b) every node whose parent is set (not the NONE
sentinel UINT64_MAX) appears at position child_index[n] of its parent's
primary children; nodes recorded nowhere — which do exist in the built
views — keep parent = NONE. -/
theorem c2_parent_links (prim shared : List (List Nat))
    (hnd : prim.join.Nodup)
    (hbound : ∀ p ∈ prim, ∀ c ∈ p, c < prim.length) :
    (∀ m j, m < prim.length → j < (prim.getD m []).length →
      (mkTopology prim shared).GetParentNodeIndex ((prim.getD m []).getD j 0) = m ∧
        (mkTopology prim shared).GetChildIndex ((prim.getD m []).getD j 0) = j) ∧
    ∀ n, (mkTopology prim shared).GetParentNodeIndex n ≠ UINT64_MAX →
      (mkTopology prim shared).GetChildIndex n <
          (mkTopology prim shared).GetNumChildren
            ((mkTopology prim shared).GetParentNodeIndex n) ∧
        (mkTopology prim shared).GetChildNodeIndex
            ((mkTopology prim shared).GetParentNodeIndex n)
            ((mkTopology prim shared).GetChildIndex n) = n := by
  constructor
  · intro m j hm hj
    exact mkTopology_parent_of_child prim shared hnd hbound m j hm hj
  · intro n hne
    by_cases hmem : ∃ p ∈ prim, n ∈ p
    · obtain ⟨p, hp, hnp⟩ := hmem
      obtain ⟨m, hm, hpm⟩ := List.mem_iff_getElem.mp hp
      obtain ⟨j, hj, hnj⟩ := List.mem_iff_getElem.mp hnp
      have hmD : prim.getD m [] = p := by
        rw [List.getD_eq_getElem _ _ hm, hpm]
      have hjD : (prim.getD m []).getD j 0 = n := by
        rw [hmD, List.getD_eq_getElem _ _ hj, hnj]
      have hco := mkTopology_parent_of_child prim shared hnd hbound m j hm
        (by rw [hmD]; exact hj)
      rw [hjD] at hco
      rw [hco.1, hco.2]
      have hch := mkTopology_children prim shared m hm
      constructor
      · rw [hch.1, hmD]
        exact hj
      · rw [hch.2 j (by rw [hmD]; exact hj), hmD, List.getD_eq_getElem _ _ hj, hnj]
    · exfalso
      push_neg at hmem
      exact hne (mkTopology_parent_not_mem prim shared n hmem)

theorem c2_parent_links_witness :
    ((mkTopology [[1, 2], [], [3], []] [[], [], [], []]).GetParentNodeIndex 3 = 2 ∧
        (mkTopology [[1, 2], [], [3], []] [[], [], [], []]).GetChildIndex 3 = 0) ∧
      (mkTopology [[1, 2], [], [3], []] [[], [], [], []]).GetChildNodeIndex
          ((mkTopology [[1, 2], [], [3], []] [[], [], [], []]).GetParentNodeIndex 2)
          ((mkTopology [[1, 2], [], [3], []] [[], [], [], []]).GetChildIndex 2) = 2 := by
  have h := c2_parent_links [[1, 2], [], [3], []] [[], [], [], []] (by decide)
    (by decide)
  refine ⟨?_, (h.2 2 (by decide)).2⟩
  have := h.1 2 0 (by decide) (by decide)
  simpa using this

/-- Claim C4: in the VulkanCall topology produced by the post-pass of
CreateTopologies, no primary child of any node is a DrawDispatchDma, Sync
or PostambleState node, nor a Marker node of kind Barrier; and every node
that is not itself filtered out carries exactly the shared-children list
it has in the AllEvent topology. -/
theorem c4_vulkan_call_filter (s : CreatorState) (pr : Params) (mv : Nat)
    (hlen : s.shared.allEvent.length = s.prim.allEvent.length) :
    (∀ n k,
      n < (s.CreateTopologies pr mv).GetVulkanEventHierarchyTopology.GetNumNodes →
      k < (s.CreateTopologies pr mv).GetVulkanEventHierarchyTopology.GetNumChildren n →
      s.nodes.GetNodeType
          ((s.CreateTopologies pr mv).GetVulkanEventHierarchyTopology.GetChildNodeIndex
            n k) ≠ NodeType.kDrawDispatchDmaNode ∧
        s.nodes.GetNodeType
            ((s.CreateTopologies pr mv).GetVulkanEventHierarchyTopology.GetChildNodeIndex
              n k) ≠ NodeType.kSyncNode ∧
        s.nodes.GetNodeType
            ((s.CreateTopologies pr mv).GetVulkanEventHierarchyTopology.GetChildNodeIndex
              n k) ≠ NodeType.kPostambleStateNode ∧
        ¬(s.nodes.GetNodeType
              ((s.CreateTopologies pr
                  mv).GetVulkanEventHierarchyTopology.GetChildNodeIndex n k) =
              NodeType.kMarkerNode ∧
            s.nodes.GetMarkerNodeType
                ((s.CreateTopologies pr
                    mv).GetVulkanEventHierarchyTopology.GetChildNodeIndex n k) =
              MarkerType.kBarrier)) ∧
    ∀ n, n < (s.CreateTopologies pr mv).GetVulkanEventHierarchyTopology.GetNumNodes →
      FilterOut s.nodes n = false →
      (s.CreateTopologies pr mv).GetVulkanEventHierarchyTopology.GetNumSharedChildren n =
          (s.CreateTopologies pr mv).GetAllEventHierarchyTopology.GetNumSharedChildren
            n ∧
        ∀ k,
          k <
            (s.CreateTopologies pr
                mv).GetVulkanEventHierarchyTopology.GetNumSharedChildren n →
          (s.CreateTopologies pr mv).GetVulkanEventHierarchyTopology.GetSharedChildNodeIndex
              n k =
            (s.CreateTopologies pr mv).GetAllEventHierarchyTopology.GetSharedChildNodeIndex
              n k := by
  have hvcT : (s.CreateTopologies pr mv).GetVulkanEventHierarchyTopology =
      mkTopology (vulkanCallPrim s.nodes s.prim.allEvent)
        (vulkanCallShared s.nodes s.prim.allEvent s.shared.allEvent) := rfl
  have haeT : (s.CreateTopologies pr mv).GetAllEventHierarchyTopology =
      mkTopology s.prim.allEvent s.shared.allEvent := rfl
  have hvclen : (vulkanCallPrim s.nodes s.prim.allEvent).length =
      s.prim.allEvent.length := by
    simp [vulkanCallPrim]
  constructor
  · intro n k hn hk
    rw [hvcT, mkTopology_num_nodes] at hn
    rw [hvclen] at hn
    rw [hvcT] at hk ⊢
    have hch := mkTopology_children (vulkanCallPrim s.nodes s.prim.allEvent)
      (vulkanCallShared s.nodes s.prim.allEvent s.shared.allEvent) n (by omega)
    rw [hch.1] at hk
    rw [hch.2 k hk]
    have hrow : (vulkanCallPrim s.nodes s.prim.allEvent).getD n [] =
        (if FilterOut s.nodes n then []
          else (s.prim.allEvent.getD n []).filter (fun c => !FilterOut s.nodes c)) := by
      simp only [vulkanCallPrim]
      rw [getD_range_map _ _ _ _ hn]
    rw [hrow] at hk ⊢
    by_cases hf : FilterOut s.nodes n
    · rw [if_pos hf] at hk
      simp at hk
    · rw [if_neg hf] at hk ⊢
      set row := (s.prim.allEvent.getD n []).filter (fun c => !FilterOut s.nodes c)
        with hrowdef
      have hmem : row.getD k 0 ∈ row := by
        rw [List.getD_eq_getElem _ _ hk]
        exact List.getElem_mem _
      have hfo : FilterOut s.nodes (row.getD k 0) = false := by
        have := List.of_mem_filter hmem
        simpa using this
      simp only [FilterOut] at hfo
      by_cases h1 : s.nodes.GetNodeType (row.getD k 0) = NodeType.kDrawDispatchDmaNode ∨
          s.nodes.GetNodeType (row.getD k 0) = NodeType.kSyncNode ∨
          s.nodes.GetNodeType (row.getD k 0) = NodeType.kPostambleStateNode
      · rw [if_pos h1] at hfo
        exact absurd hfo (by simp)
      · push_neg at h1
        refine ⟨h1.1, h1.2.1, h1.2.2, ?_⟩
        rintro ⟨hmk, hbar⟩
        rw [if_neg (by tauto), if_pos hmk] at hfo
        rw [hbar] at hfo
        simp at hfo
  · intro n hn hf
    rw [hvcT, mkTopology_num_nodes, hvclen] at hn
    rw [hvcT, haeT]
    have hvs := mkTopology_shared (vulkanCallPrim s.nodes s.prim.allEvent)
      (vulkanCallShared s.nodes s.prim.allEvent s.shared.allEvent) n (by omega)
    have has := mkTopology_shared s.prim.allEvent s.shared.allEvent n hn
    have hrow : (vulkanCallShared s.nodes s.prim.allEvent s.shared.allEvent).getD n [] =
        s.shared.allEvent.getD n [] := by
      simp only [vulkanCallShared]
      rw [getD_range_map _ _ _ _ hn, if_neg (by simp [hf])]
    constructor
    · rw [hvs.1, has.1, hrow]
    · intro k hk
      rw [hvs.1, hrow] at hk
      rw [hvs.2 k (by rw [hrow]; exact hk), has.2 k hk, hrow]

/-- Concrete creator state for the C4 witness: a submit with one event
node (2), one barrier marker (3) and one packet (4) recorded in the
AllEvent pending tables. -/
def c4WitnessState : CreatorState :=
  { nodes :=
      { m_node_type :=
          [.kRootNode, .kSubmitNode, .kDrawDispatchDmaNode, .kMarkerNode, .kPacketNode]
        m_description := ["", "", "", "", ""]
        m_aux_info :=
          [.noAux, .noAux, .eventNode 0, .markerNode MarkerType.kBarrier 7,
            .packetNode 0 0 false]
        m_metadata := [[], [], [], [], []]
        m_event_node_indices := [2] }
    prim := { allEvent := [[1], [2, 3], [], [], []] }
    shared := { allEvent := [[], [4], [4], [], []] } }

theorem c4_vulkan_call_filter_witness :
    ((c4WitnessState.CreateTopologies plainParams
          0).GetVulkanEventHierarchyTopology.GetChildNodeIndex 0 0 = 1 ∧
        (c4WitnessState.CreateTopologies plainParams
            0).GetVulkanEventHierarchyTopology.GetNumChildren 1 = 0) ∧
      Dive.Nodes.GetNodeType c4WitnessState.nodes
          ((c4WitnessState.CreateTopologies plainParams
              0).GetVulkanEventHierarchyTopology.GetChildNodeIndex 0 0) ≠
        NodeType.kDrawDispatchDmaNode ∧
      (c4WitnessState.CreateTopologies plainParams
            0).GetVulkanEventHierarchyTopology.GetNumSharedChildren 1 =
        (c4WitnessState.CreateTopologies plainParams
            0).GetAllEventHierarchyTopology.GetNumSharedChildren 1 := by
  have h := c4_vulkan_call_filter c4WitnessState plainParams 0 (by decide)
  refine ⟨⟨by decide, by decide⟩, (h.1 0 0 (by decide) (by decide)).1, ?_⟩
  exact ((h.2 1 (by decide) (by decide)).1)

theorem find?_eq_some_split {α : Type} (pred : α → Bool) (l : List α) (a : α)
    (h : l.find? pred = some a) :
    pred a = true ∧ ∃ l1 l2, l = l1 ++ a :: l2 ∧ ∀ x ∈ l1, pred x = false := by
  induction l with
  | nil => simp at h
  | cons x xs ih =>
    by_cases hx : pred x
    · rw [List.find?_cons_of_pos _ hx] at h
      obtain rfl : x = a := by simpa using h
      exact ⟨hx, [], xs, rfl, by simp⟩
    · rw [List.find?_cons_of_neg _ hx] at h
      obtain ⟨hp, l1, l2, hsplit, hall⟩ := ih h
      refine ⟨hp, x :: l1, l2, by simp [hsplit], ?_⟩
      intro y hy
      rcases List.mem_cons.mp hy with rfl | hmem
      · simpa using hx
      · exact hall y hmem

theorem find?_congr_pred {α : Type} (p q : α → Bool) (l : List α)
    (h : ∀ x ∈ l, p x = q x) : l.find? p = l.find? q := by
  induction l with
  | nil => rfl
  | cons x xs ih =>
    have hx := h x (List.mem_cons_self x xs)
    by_cases hp : p x
    · rw [List.find?_cons_of_pos _ hp, List.find?_cons_of_pos _ (hx ▸ hp)]
    · rw [List.find?_cons_of_neg _ hp, List.find?_cons_of_neg _ (by rw [← hx]; exact hp)]
      exact ih (fun y hy => h y (List.mem_cons_of_mem x hy))

theorem AddNode_GetIbNodeType_stable (s : CreatorState) (ty : NodeType) (d : String)
    (aux : AuxInfo) (md : List Nat) (i : Nat) (hi : i < s.nodes.m_aux_info.length) :
    (s.AddNode ty d aux md).2.nodes.GetIbNodeType i = s.nodes.GetIbNodeType i := by
  simp only [CreatorState.AddNode, Nodes.AddNode, Nodes.GetIbNodeType, Nodes.GetAux]
  rw [getD_append_left _ _ _ _ hi]

/-- Claim C5: when flatten-chains is enabled and a Chain IB starts while
the primary IB stack holds at least one non-Chain entry, OnIbStart parents
the new Ib node (in both the Engine and Submit pending views) at the
topmost non-Chain entry of the stack: the stack splits below/above that
entry and everything above it is Chain-typed. -/
theorem c5_flatten_chain_parent (s : CreatorState) (ibIndex : Nat)
    (ibInfo : IndirectBufferInfo)
    (hflat : s.m_flatten_chain_nodes = true)
    (hal : s.nodes.m_aux_info.length = s.nodes.numNodes)
    (hstackb : ∀ i ∈ s.m_dcb_ib_stack, i < s.nodes.numNodes)
    (heng : s.prim.engine.length = s.nodes.numNodes)
    (hsub : s.prim.subm.length = s.nodes.numNodes)
    (hnc : ∃ i ∈ s.m_dcb_ib_stack, s.nodes.GetIbNodeType i ≠ IbType.kChain) :
    ∃ p below above,
      findLastNonChain s.nodes s.m_dcb_ib_stack = some p ∧
        s.nodes.GetIbNodeType p ≠ IbType.kChain ∧
        s.m_dcb_ib_stack = below ++ p :: above ∧
        (∀ q ∈ above, s.nodes.GetIbNodeType q = IbType.kChain) ∧
        (s.OnIbStart ibIndex ibInfo IbType.kChain).prim.engine.getD p [] =
          s.prim.engine.getD p [] ++ [s.nodes.numNodes] ∧
        (s.OnIbStart ibIndex ibInfo IbType.kChain).prim.subm.getD p [] =
          s.prim.subm.getD p [] ++ [s.nodes.numNodes] := by
  obtain ⟨i0, hi0mem, hi0⟩ := hnc
  have hsome : (s.m_dcb_ib_stack.reverse.find?
      (fun i => s.nodes.GetIbNodeType i ≠ IbType.kChain)).isSome := by
    rw [List.find?_isSome]
    exact ⟨i0, by simpa using hi0mem, by simpa using hi0⟩
  obtain ⟨p, hfind⟩ := Option.isSome_iff_exists.mp hsome
  have hfindLNC : findLastNonChain s.nodes s.m_dcb_ib_stack = some p := hfind
  obtain ⟨hpred, l1, l2, hsplit, hall⟩ := find?_eq_some_split _ _ _ hfind
  have hpnotchain : s.nodes.GetIbNodeType p ≠ IbType.kChain := by simpa using hpred
  have hstackeq : s.m_dcb_ib_stack = l2.reverse ++ p :: l1.reverse := by
    have : s.m_dcb_ib_stack.reverse.reverse = (l1 ++ p :: l2).reverse := by
      rw [hsplit]
    simpa [List.reverse_append] using this
  have hpmem : p ∈ s.m_dcb_ib_stack := by
    rw [hstackeq]
    exact List.mem_append.mpr (Or.inr (List.mem_cons_self _ _))
  have hplt : p < s.nodes.numNodes := hstackb p hpmem
  refine ⟨p, l2.reverse, l1.reverse, hfindLNC, hpnotchain, hstackeq, ?_, ?_, ?_⟩
  · intro q hq
    have hq2 : q ∈ l1 := by simpa using hq
    have := hall q hq2
    simpa using this
  all_goals
    have hcong : findLastNonChain (s.AddNode NodeType.kIbNode
        (ibDescription ibIndex ibInfo IbType.kChain)
        (AuxInfo.IbNode ibIndex IbType.kChain ibInfo.m_size_in_dwords
          (!ibInfo.m_skip)) []).2.nodes s.m_dcb_ib_stack = some p := by
      rw [← hfindLNC]
      simp only [findLastNonChain]
      refine find?_congr_pred _ _ _ ?_
      intro x hx
      have hxlt : x < s.nodes.m_aux_info.length := by
        rw [hal]
        exact hstackb x (by simpa using hx)
      rw [AddNode_GetIbNodeType_stable s _ _ _ _ x hxlt]
    simp only [CreatorState.OnIbStart, CreatorState.AddNode, Nodes.AddNode] at hcong ⊢
    simp only [hcong, hflat, CreatorState.AddChild, TableSet.push, TableSet.get,
      TableSet.setTable, TableSet.grow, Nodes.numNodes, true_and, and_self, if_true,
      reduceIte]
  · rw [getD_set_self _ p _ [] (by
        simp only [List.length_append, List.length_set, List.length_cons,
          List.length_nil]
        have : s.prim.engine.length = s.nodes.m_node_type.length := heng
        omega)]
    rw [getD_append_left _ _ _ _ (by
        have : s.prim.engine.length = s.nodes.m_node_type.length := heng
        omega)]
  · rw [getD_set_self _ p _ [] (by
        simp only [List.length_append, List.length_set, List.length_cons,
          List.length_nil]
        have : s.prim.subm.length = s.nodes.m_node_type.length := hsub
        omega)]
    rw [getD_append_left _ _ _ _ (by
        have : s.prim.subm.length = s.nodes.m_node_type.length := hsub
        omega)]

/-- A foldl preserves any invariant its step preserves. -/
theorem foldl_preserve {α β : Type} (P : α → Prop) (f : α → β → α) (l : List β)
    (a : α) (h0 : P a) (hstep : ∀ x b, P x → P (f x b)) : P (l.foldl f a) := by
  induction l generalizing a with
  | nil => exact h0
  | cons b rest ih => exact ih (f a b) (hstep a b h0)

/-- The contract the C++ standard gives for std::sort: the output is a
permutation of the input, sorted with respect to the comparator.  The
standard gives no stability guarantee (std::stable_sort would). -/
def IsSortResult (cmp : Nat → Nat → Bool) (input output : List Nat) : Prop :=
  output.Perm input ∧ output.Pairwise (fun a b => cmp b a = false)

instance (cmp : Nat → Nat → Bool) (i o : List Nat) : Decidable (IsSortResult cmp i o) :=
  inferInstanceAs (Decidable (o.Perm i ∧ o.Pairwise (fun a b => cmp b a = false)))

theorem AddSharedChild_prim (s : CreatorState) (t : TopologyType) (n c : Nat) :
    (s.AddSharedChild t n c).prim = s.prim := rfl

theorem shareAllPackets_prim (st : CreatorState) (owner : Nat) (pkts : List Nat) :
    (st.shareAllPackets owner pkts).prim = st.prim := by
  induction pkts generalizing st with
  | nil => rfl
  | cons p rest ih =>
    simp only [CreatorState.shareAllPackets, List.foldl_cons] at ih ⊢
    rw [ih]
    rfl

theorem submitEndPostamble_subm_row (s1 : CreatorState) (n : Nat)
    (h : n < s1.prim.subm.length) :
    (s1.submitEndPostamble).prim.subm.getD n [] = s1.prim.subm.getD n [] ∧
      n < (s1.submitEndPostamble).prim.subm.length := by
  simp only [CreatorState.submitEndPostamble]
  by_cases hc : s1.m_packets.m_packet_node_indices ≠ []
  · rw [if_pos hc]
    split
    all_goals
      simp only [CreatorState.AddChild, TableSet.push, TableSet.get,
        TableSet.setTable, shareAllPackets_prim, CreatorState.AddNode, TableSet.grow]
    all_goals
      constructor
      · exact getD_append_left _ _ _ _ h
      · simp only [List.length_append, List.length_cons, List.length_nil]
        omega
  · rw [if_neg hc]
    exact ⟨rfl, h⟩

theorem addPresentNode_subm_row (st : CreatorState) (pr : Params) (submitIndex : Nat)
    (pi : Nat × PresentInfo) (n : Nat) (h : n < st.prim.subm.length) :
    (st.addPresentNode pr submitIndex pi).prim.subm.getD n [] =
        st.prim.subm.getD n [] ∧
      n < (st.addPresentNode pr submitIndex pi).prim.subm.length := by
  simp only [CreatorState.addPresentNode]
  by_cases hb : submitIndex ≠ pi.2.submitIndex
  · rw [if_pos hb]
    exact ⟨rfl, h⟩
  · rw [if_neg hb]
    simp only [CreatorState.AddChild, TableSet.push, TableSet.get, TableSet.setTable,
      CreatorState.AddNode, TableSet.grow]
    constructor
    · exact getD_append_left _ _ _ _ h
    · simp only [List.length_append, List.length_cons, List.length_nil]
      omega

theorem submitEndPresents_subm_row (s2 : CreatorState) (pr : Params)
    (capture : CaptureData) (submitIndex : Nat) (n : Nat)
    (h : n < s2.prim.subm.length) :
    (s2.submitEndPresents pr capture submitIndex).prim.subm.getD n [] =
        s2.prim.subm.getD n [] ∧
      n < (s2.submitEndPresents pr capture submitIndex).prim.subm.length := by
  simp only [CreatorState.submitEndPresents]
  refine foldl_preserve
    (fun st : CreatorState => st.prim.subm.getD n [] = s2.prim.subm.getD n [] ∧
      n < st.prim.subm.length) _ _ _ ⟨rfl, h⟩ ?_
  intro x b hx
  have := addPresentNode_subm_row x pr submitIndex b n hx.2
  exact ⟨by rw [this.1, hx.1], this.2⟩

/-- Claim C3 (amended): after OnSubmitEnd, the pending Submit-view
children of the current submit node are pairwise non-decreasing by
ib-index, for every sort routine satisfying the std::sort contract.  The
relative order of children with equal ib-index is NOT guaranteed:
std::sort is unstable, see the counterexample. -/
theorem c3_submit_children_sorted (s : CreatorState) (pr : Params)
    (capture : CaptureData) (submitIndex : Nat)
    (hcur : s.m_cur_submit_node_index < s.prim.subm.length)
    (hsort : IsSortResult
      (fun lhs rhs => s.nodes.GetIbNodeIndex lhs < s.nodes.GetIbNodeIndex rhs)
      ((s.prim.subm).getD s.m_cur_submit_node_index [])
      (pr.sortFn
        (fun lhs rhs => s.nodes.GetIbNodeIndex lhs < s.nodes.GetIbNodeIndex rhs)
        ((s.prim.subm).getD s.m_cur_submit_node_index []))) :
    ((s.OnSubmitEnd pr capture submitIndex).prim.subm.getD
        s.m_cur_submit_node_index []).Pairwise
      (fun a b => s.nodes.GetIbNodeIndex a ≤ s.nodes.GetIbNodeIndex b) := by
  have h1row : (s.submitEndSort pr).prim.subm.getD s.m_cur_submit_node_index [] =
      pr.sortFn
        (fun lhs rhs => s.nodes.GetIbNodeIndex lhs < s.nodes.GetIbNodeIndex rhs)
        ((s.prim.subm).getD s.m_cur_submit_node_index []) := by
    simp only [CreatorState.submitEndSort, TableSet.setTable]
    exact getD_set_self _ _ _ [] hcur
  have h1len : s.m_cur_submit_node_index < (s.submitEndSort pr).prim.subm.length := by
    simp only [CreatorState.submitEndSort, TableSet.setTable]
    simpa using hcur
  have h2 := submitEndPostamble_subm_row (s.submitEndSort pr)
    s.m_cur_submit_node_index h1len
  have h3 := submitEndPresents_subm_row ((s.submitEndSort pr).submitEndPostamble) pr
    capture submitIndex s.m_cur_submit_node_index h2.2
  have hfinal : (s.OnSubmitEnd pr capture submitIndex).prim =
      (((s.submitEndSort pr).submitEndPostamble).submitEndPresents pr capture
        submitIndex).prim := rfl
  rw [hfinal, h3.1, h2.1, h1row]
  refine (hsort.2).imp ?_
  intro a b hab
  simp only [decide_eq_false_iff_not, not_lt] at hab
  exact hab

/-- Concrete creator state for the C3 counterexample and witness: submit
node 1 with two Ib children 2 and 3 that share ib-index 0. -/
def c3State : CreatorState :=
  { nodes :=
      { m_node_type := [.kRootNode, .kSubmitNode, .kIbNode, .kIbNode]
        m_description := ["", "", "", ""]
        m_aux_info :=
          [.noAux, .noAux, AuxInfo.IbNode 0 IbType.kNormal 4 true,
            AuxInfo.IbNode 0 IbType.kCall 4 true]
        m_metadata := [[], [], [], []]
        m_event_node_indices := [] }
    prim := { subm := [[], [2, 3], [], []] }
    m_cur_submit_node_index := 1 }

/-- A sort routine that reverses its input.  On the tied input below this
satisfies the std::sort contract (permutation + sorted), so it is a
behavior std::sort is allowed to exhibit. -/
def reversingParams : Params :=
  { plainParams with sortFn := fun _ l => l.reverse }

/-- Claim C3 counterexample: with two submit children of equal ib-index,
a comparator-respecting (contract-satisfying) sort may return them in
reversed order, so OnSubmitEnd does not keep the relative insertion order
of equal-ib-index children: the claim's tie-break clause fails on the
code's unstable std::sort. -/
theorem c3_counterexample :
    c3State.nodes.GetIbNodeIndex 2 = c3State.nodes.GetIbNodeIndex 3 ∧
      IsSortResult
        (fun lhs rhs => c3State.nodes.GetIbNodeIndex lhs <
          c3State.nodes.GetIbNodeIndex rhs)
        (c3State.prim.subm.getD 1 [])
        (reversingParams.sortFn
          (fun lhs rhs => c3State.nodes.GetIbNodeIndex lhs <
            c3State.nodes.GetIbNodeIndex rhs)
          (c3State.prim.subm.getD 1 [])) ∧
      c3State.prim.subm.getD 1 [] = [2, 3] ∧
      (c3State.OnSubmitEnd reversingParams {} 0).prim.subm.getD 1 [] = [3, 2] := by
  refine ⟨rfl, ⟨?_, ?_⟩, rfl, rfl⟩
  · decide
  · decide

theorem c3_submit_children_sorted_witness :
    ((c3State.OnSubmitEnd plainParams {} 0).prim.subm.getD
        c3State.m_cur_submit_node_index []).Pairwise
      (fun a b => c3State.nodes.GetIbNodeIndex a ≤ c3State.nodes.GetIbNodeIndex b) :=
  c3_submit_children_sorted c3State plainParams {} 0 (by decide) (by decide)

theorem shareAllPackets_nodes (st : CreatorState) (owner : Nat) (pkts : List Nat) :
    (st.shareAllPackets owner pkts).nodes = st.nodes := by
  induction pkts generalizing st with
  | nil => rfl
  | cons p rest ih =>
    simp only [CreatorState.shareAllPackets, List.foldl_cons] at ih ⊢
    rw [ih]
    rfl

theorem shareAllPackets_shared (st : CreatorState) (owner : Nat) (pkts : List Nat)
    (h1 : owner < st.shared.allEvent.length) (h2 : owner < st.shared.rgp.length) :
    (st.shareAllPackets owner pkts).shared.allEvent.getD owner [] =
        st.shared.allEvent.getD owner [] ++ pkts ∧
      (st.shareAllPackets owner pkts).shared.rgp.getD owner [] =
        st.shared.rgp.getD owner [] ++ pkts ∧
      (st.shareAllPackets owner pkts).shared.allEvent.length =
        st.shared.allEvent.length ∧
      (st.shareAllPackets owner pkts).shared.rgp.length = st.shared.rgp.length := by
  induction pkts generalizing st with
  | nil => refine ⟨?_, ?_, rfl, rfl⟩ <;> simp [CreatorState.shareAllPackets]
  | cons p rest ih =>
    simp only [CreatorState.shareAllPackets, List.foldl_cons] at ih ⊢
    set st2 := (st.AddSharedChild .kAllEventTopology owner p).AddSharedChild
      .kRgpTopology owner p with hst2
    have hA : owner < st2.shared.allEvent.length := by
      simp only [hst2, CreatorState.AddSharedChild, TableSet.push, TableSet.get,
        TableSet.setTable, List.length_set]
      exact h1
    have hB : owner < st2.shared.rgp.length := by
      simp only [hst2, CreatorState.AddSharedChild, TableSet.push, TableSet.get,
        TableSet.setTable, List.length_set]
      exact h2
    have hstep := ih st2 hA hB
    have hvA : st2.shared.allEvent.getD owner [] =
        st.shared.allEvent.getD owner [] ++ [p] := by
      simp only [hst2, CreatorState.AddSharedChild, TableSet.push, TableSet.get,
        TableSet.setTable]
      exact getD_set_self _ _ _ [] h1
    have hvB : st2.shared.rgp.getD owner [] = st.shared.rgp.getD owner [] ++ [p] := by
      simp only [hst2, CreatorState.AddSharedChild, TableSet.push, TableSet.get,
        TableSet.setTable]
      exact getD_set_self _ _ _ [] h2
    have hlA : st2.shared.allEvent.length = st.shared.allEvent.length := by
      simp only [hst2, CreatorState.AddSharedChild, TableSet.push, TableSet.get,
        TableSet.setTable]
      simp
    have hlB : st2.shared.rgp.length = st.shared.rgp.length := by
      simp only [hst2, CreatorState.AddSharedChild, TableSet.push, TableSet.get,
        TableSet.setTable]
      simp
    refine ⟨?_, ?_, ?_, ?_⟩
    · rw [hstep.1, hvA]
      simp
    · rw [hstep.2.1, hvB]
      simp
    · rw [hstep.2.2.1, hlA]
    · rw [hstep.2.2.2, hlB]

/-- The facts the postamble stage guarantees about node `post`, the row of
`cur`, and the PostambleState population — preserved by the present loop. -/
theorem addPresentNode_stable (st : CreatorState) (pr : Params) (submitIndex : Nat)
    (pi : Nat × PresentInfo) (cur post : Nat)
    (hcur0 : cur ≠ Topology.kRootNodeIndex)
    (hb1 : post < st.nodes.m_node_type.length)
    (hb2 : post < st.nodes.m_description.length)
    (hb3 : cur < st.prim.allEvent.length) (hb4 : cur < st.prim.rgp.length)
    (hb5 : post < st.shared.allEvent.length) (hb6 : post < st.shared.rgp.length) :
    (st.addPresentNode pr submitIndex pi).nodes.m_node_type.getD post default =
        st.nodes.m_node_type.getD post default ∧
      (st.addPresentNode pr submitIndex pi).nodes.m_description.getD post "" =
        st.nodes.m_description.getD post "" ∧
      (st.addPresentNode pr submitIndex pi).nodes.m_node_type.count
          NodeType.kPostambleStateNode =
        st.nodes.m_node_type.count NodeType.kPostambleStateNode ∧
      (st.addPresentNode pr submitIndex pi).prim.allEvent.getD cur [] =
        st.prim.allEvent.getD cur [] ∧
      (st.addPresentNode pr submitIndex pi).prim.rgp.getD cur [] =
        st.prim.rgp.getD cur [] ∧
      (st.addPresentNode pr submitIndex pi).shared.allEvent.getD post [] =
        st.shared.allEvent.getD post [] ∧
      (st.addPresentNode pr submitIndex pi).shared.rgp.getD post [] =
        st.shared.rgp.getD post [] ∧
      post < (st.addPresentNode pr submitIndex pi).nodes.m_node_type.length ∧
      post < (st.addPresentNode pr submitIndex pi).nodes.m_description.length ∧
      cur < (st.addPresentNode pr submitIndex pi).prim.allEvent.length ∧
      cur < (st.addPresentNode pr submitIndex pi).prim.rgp.length ∧
      post < (st.addPresentNode pr submitIndex pi).shared.allEvent.length ∧
      post < (st.addPresentNode pr submitIndex pi).shared.rgp.length := by
  simp only [CreatorState.addPresentNode]
  by_cases hb : submitIndex ≠ pi.2.submitIndex
  · rw [if_pos hb]
    exact ⟨rfl, rfl, rfl, rfl, rfl, rfl, rfl, hb1, hb2, hb3, hb4, hb5, hb6⟩
  · rw [if_neg hb]
    simp only [CreatorState.AddChild, CreatorState.AddNode, Nodes.AddNode,
      TableSet.push, TableSet.get, TableSet.setTable, TableSet.grow]
    refine ⟨getD_append_left _ _ _ _ hb1, getD_append_left _ _ _ _ hb2, ?_, ?_, ?_,
      getD_append_left _ _ _ _ hb5, getD_append_left _ _ _ _ hb6, ?_, ?_, ?_, ?_, ?_, ?_⟩
    · rw [List.count_append]
      simp
    · rw [getD_set_ne _ _ _ _ _ (fun hEq => hcur0 hEq.symm)]
      exact getD_append_left _ _ _ _ hb3
    · rw [getD_set_ne _ _ _ _ _ (fun hEq => hcur0 hEq.symm)]
      exact getD_append_left _ _ _ _ hb4
    all_goals
      simp only [List.length_set, List.length_append, List.length_cons, List.length_nil]
      omega

theorem submitEndPresents_stable (s2 : CreatorState) (pr : Params)
    (capture : CaptureData) (submitIndex : Nat) (cur post : Nat)
    (hcur0 : cur ≠ Topology.kRootNodeIndex)
    (hb1 : post < s2.nodes.m_node_type.length)
    (hb2 : post < s2.nodes.m_description.length)
    (hb3 : cur < s2.prim.allEvent.length) (hb4 : cur < s2.prim.rgp.length)
    (hb5 : post < s2.shared.allEvent.length) (hb6 : post < s2.shared.rgp.length) :
    (s2.submitEndPresents pr capture submitIndex).nodes.m_node_type.getD post default =
        s2.nodes.m_node_type.getD post default ∧
      (s2.submitEndPresents pr capture submitIndex).nodes.m_description.getD post "" =
        s2.nodes.m_description.getD post "" ∧
      (s2.submitEndPresents pr capture submitIndex).nodes.m_node_type.count
          NodeType.kPostambleStateNode =
        s2.nodes.m_node_type.count NodeType.kPostambleStateNode ∧
      (s2.submitEndPresents pr capture submitIndex).prim.allEvent.getD cur [] =
        s2.prim.allEvent.getD cur [] ∧
      (s2.submitEndPresents pr capture submitIndex).prim.rgp.getD cur [] =
        s2.prim.rgp.getD cur [] ∧
      (s2.submitEndPresents pr capture submitIndex).shared.allEvent.getD post [] =
        s2.shared.allEvent.getD post [] ∧
      (s2.submitEndPresents pr capture submitIndex).shared.rgp.getD post [] =
        s2.shared.rgp.getD post [] := by
  simp only [CreatorState.submitEndPresents]
  have h := foldl_preserve
    (fun st : CreatorState =>
      st.nodes.m_node_type.getD post default = s2.nodes.m_node_type.getD post default ∧
        st.nodes.m_description.getD post "" = s2.nodes.m_description.getD post "" ∧
        st.nodes.m_node_type.count NodeType.kPostambleStateNode =
          s2.nodes.m_node_type.count NodeType.kPostambleStateNode ∧
        st.prim.allEvent.getD cur [] = s2.prim.allEvent.getD cur [] ∧
        st.prim.rgp.getD cur [] = s2.prim.rgp.getD cur [] ∧
        st.shared.allEvent.getD post [] = s2.shared.allEvent.getD post [] ∧
        st.shared.rgp.getD post [] = s2.shared.rgp.getD post [] ∧
        post < st.nodes.m_node_type.length ∧
        post < st.nodes.m_description.length ∧
        cur < st.prim.allEvent.length ∧
        cur < st.prim.rgp.length ∧
        post < st.shared.allEvent.length ∧
        post < st.shared.rgp.length)
    (fun st pi => st.addPresentNode pr submitIndex pi) capture.presents.enum s2
    ⟨rfl, rfl, rfl, rfl, rfl, rfl, rfl, hb1, hb2, hb3, hb4, hb5, hb6⟩
    ?_
  · exact ⟨h.1, h.2.1, h.2.2.1, h.2.2.2.1, h.2.2.2.2.1, h.2.2.2.2.2.1,
      h.2.2.2.2.2.2.1⟩
  · intro x b hx
    have hs := addPresentNode_stable x pr submitIndex b cur post hcur0
      hx.2.2.2.2.2.2.2.1 hx.2.2.2.2.2.2.2.2.1 hx.2.2.2.2.2.2.2.2.2.1
      hx.2.2.2.2.2.2.2.2.2.2.1 hx.2.2.2.2.2.2.2.2.2.2.2.1 hx.2.2.2.2.2.2.2.2.2.2.2.2
    refine ⟨?_, ?_, ?_, ?_, ?_, ?_, ?_, hs.2.2.2.2.2.2.2.1, hs.2.2.2.2.2.2.2.2.1,
      hs.2.2.2.2.2.2.2.2.2.1, hs.2.2.2.2.2.2.2.2.2.2.1, hs.2.2.2.2.2.2.2.2.2.2.2.1,
      hs.2.2.2.2.2.2.2.2.2.2.2.2⟩
    · rw [hs.1, hx.1]
    · rw [hs.2.1, hx.2.1]
    · rw [hs.2.2.1, hx.2.2.1]
    · rw [hs.2.2.2.1, hx.2.2.2.1]
    · rw [hs.2.2.2.2.1, hx.2.2.2.2.1]
    · rw [hs.2.2.2.2.2.1, hx.2.2.2.2.2.1]
    · rw [hs.2.2.2.2.2.2.1, hx.2.2.2.2.2.2.1]

theorem AddChild_shared (s : CreatorState) (t : TopologyType) (n c : Nat) :
    (s.AddChild t n c).shared = s.shared := rfl

theorem AddChild_nodes (s : CreatorState) (t : TopologyType) (n c : Nat) :
    (s.AddChild t n c).nodes = s.nodes := rfl

/-- When the run buffer is non-empty, the postamble stage is the body
with the chosen description string. -/
theorem submitEndPostamble_eq (s1 : CreatorState)
    (hne : s1.m_packets.m_packet_node_indices ≠ []) :
    s1.submitEndPostamble =
      s1.postambleBody
        (if s1.GetChildCount .kAllEventTopology s1.m_cur_submit_node_index ≠ 0 then
            "State"
          else "Postamble State") := by
  simp only [CreatorState.submitEndPostamble, CreatorState.postambleBody]
  rw [if_pos hne]
  rcases Classical.em
      (s1.GetChildCount .kAllEventTopology s1.m_cur_submit_node_index ≠ 0) with
    hcc | hcc
  · rw [if_pos hcc, if_pos hcc]
  · rw [if_neg hcc, if_neg hcc]

/-- What the postamble body does: one new PostambleState node carrying the
given description, attached under the current submit in AllEvent and Rgp,
with the buffered packets as its shared children in both views. -/
theorem postambleBody_spec (s1 : CreatorState) (d : String)
    (ha1 : s1.prim.allEvent.length = s1.nodes.numNodes)
    (ha2 : s1.prim.rgp.length = s1.nodes.numNodes)
    (ha3 : s1.shared.allEvent.length = s1.nodes.numNodes)
    (ha4 : s1.shared.rgp.length = s1.nodes.numNodes)
    (hcur : s1.m_cur_submit_node_index < s1.nodes.numNodes) :
    (s1.postambleBody d).nodes.m_node_type =
        s1.nodes.m_node_type ++ [NodeType.kPostambleStateNode] ∧
      (s1.postambleBody d).nodes.m_description = s1.nodes.m_description ++ [d] ∧
      (s1.postambleBody d).prim.allEvent.getD s1.m_cur_submit_node_index [] =
        s1.prim.allEvent.getD s1.m_cur_submit_node_index [] ++ [s1.nodes.numNodes] ∧
      (s1.postambleBody d).prim.rgp.getD s1.m_cur_submit_node_index [] =
        s1.prim.rgp.getD s1.m_cur_submit_node_index [] ++ [s1.nodes.numNodes] ∧
      (s1.postambleBody d).shared.allEvent.getD s1.nodes.numNodes [] =
        s1.m_packets.m_packet_node_indices ∧
      (s1.postambleBody d).shared.rgp.getD s1.nodes.numNodes [] =
        s1.m_packets.m_packet_node_indices ∧
      (s1.postambleBody d).prim.allEvent.length = s1.nodes.numNodes + 1 ∧
      (s1.postambleBody d).prim.rgp.length = s1.nodes.numNodes + 1 ∧
      (s1.postambleBody d).shared.allEvent.length = s1.nodes.numNodes + 1 ∧
      (s1.postambleBody d).shared.rgp.length = s1.nodes.numNodes + 1 := by
  simp only [Nodes.numNodes] at ha1 ha2 ha3 ha4 hcur ⊢
  have hb1 : (s1.AddNode NodeType.kPostambleStateNode d AuxInfo.noAux []).1 <
      (s1.AddNode NodeType.kPostambleStateNode d AuxInfo.noAux
        []).2.shared.allEvent.length := by
    simp only [CreatorState.AddNode, Nodes.AddNode, TableSet.grow, List.length_append,
      List.length_cons, List.length_nil]
    omega
  have hb2 : (s1.AddNode NodeType.kPostambleStateNode d AuxInfo.noAux []).1 <
      (s1.AddNode NodeType.kPostambleStateNode d AuxInfo.noAux
        []).2.shared.rgp.length := by
    simp only [CreatorState.AddNode, Nodes.AddNode, TableSet.grow, List.length_append,
      List.length_cons, List.length_nil]
    omega
  have hsh := shareAllPackets_shared
    (s1.AddNode NodeType.kPostambleStateNode d AuxInfo.noAux []).2
    (s1.AddNode NodeType.kPostambleStateNode d AuxInfo.noAux []).1
    (s1.AddNode NodeType.kPostambleStateNode d AuxInfo.noAux
      []).2.m_packets.m_packet_node_indices hb1 hb2
  simp only [CreatorState.AddNode, Nodes.AddNode, TableSet.grow] at hsh
  have h0ae : (s1.shared.allEvent ++ [[]]).getD s1.nodes.m_node_type.length
      ([] : List Nat) = [] := by
    have h00 := getD_append_add s1.shared.allEvent [([] : List Nat)] 0 ([] : List Nat)
    simp only [Nat.add_zero, List.getD_cons_zero] at h00
    rw [ha3] at h00
    exact h00
  have h0rgp : (s1.shared.rgp ++ [[]]).getD s1.nodes.m_node_type.length
      ([] : List Nat) = [] := by
    have h00 := getD_append_add s1.shared.rgp [([] : List Nat)] 0 ([] : List Nat)
    simp only [Nat.add_zero, List.getD_cons_zero] at h00
    rw [ha4] at h00
    exact h00
  refine ⟨?_, ?_, ?_, ?_, ?_, ?_, ?_, ?_, ?_, ?_⟩
  · simp only [CreatorState.postambleBody, CreatorState.AddChild, shareAllPackets_nodes,
      CreatorState.AddNode, Nodes.AddNode]
  · simp only [CreatorState.postambleBody, CreatorState.AddChild, shareAllPackets_nodes,
      CreatorState.AddNode, Nodes.AddNode]
  · simp only [CreatorState.postambleBody, CreatorState.AddChild, TableSet.push,
      TableSet.get, TableSet.setTable, shareAllPackets_prim, CreatorState.AddNode,
      Nodes.AddNode, TableSet.grow]
    rw [getD_set_self _ _ _ _ (by
      simp only [List.length_append, List.length_cons, List.length_nil]
      omega)]
    rw [getD_append_left _ _ _ _ (by omega)]
  · simp only [CreatorState.postambleBody, CreatorState.AddChild, TableSet.push,
      TableSet.get, TableSet.setTable, shareAllPackets_prim, CreatorState.AddNode,
      Nodes.AddNode, TableSet.grow]
    rw [getD_set_self _ _ _ _ (by
      simp only [List.length_append, List.length_cons, List.length_nil]
      omega)]
    rw [getD_append_left _ _ _ _ (by omega)]
  · simp only [CreatorState.postambleBody, AddChild_shared, CreatorState.AddNode,
      Nodes.AddNode, TableSet.grow]
    rw [hsh.1, h0ae]
    simp
  · simp only [CreatorState.postambleBody, AddChild_shared, CreatorState.AddNode,
      Nodes.AddNode, TableSet.grow]
    rw [hsh.2.1, h0rgp]
    simp
  · simp only [CreatorState.postambleBody, CreatorState.AddChild, TableSet.push,
      TableSet.get, TableSet.setTable, shareAllPackets_prim, CreatorState.AddNode,
      Nodes.AddNode, TableSet.grow, List.length_set, List.length_append,
      List.length_cons, List.length_nil]
    omega
  · simp only [CreatorState.postambleBody, CreatorState.AddChild, TableSet.push,
      TableSet.get, TableSet.setTable, shareAllPackets_prim, CreatorState.AddNode,
      Nodes.AddNode, TableSet.grow, List.length_set, List.length_append,
      List.length_cons, List.length_nil]
    omega
  · simp only [CreatorState.postambleBody, AddChild_shared, CreatorState.AddNode,
      Nodes.AddNode, TableSet.grow]
    rw [hsh.2.2.1]
    simp only [List.length_append, List.length_cons, List.length_nil]
    omega
  · simp only [CreatorState.postambleBody, AddChild_shared, CreatorState.AddNode,
      Nodes.AddNode, TableSet.grow]
    rw [hsh.2.2.2]
    simp only [List.length_append, List.length_cons, List.length_nil]
    omega

theorem submitEndSort_nodes (s : CreatorState) (pr : Params) :
    (s.submitEndSort pr).nodes = s.nodes := rfl

theorem submitEndSort_allEvent (s : CreatorState) (pr : Params) :
    (s.submitEndSort pr).prim.allEvent = s.prim.allEvent := rfl

theorem submitEndSort_rgp (s : CreatorState) (pr : Params) :
    (s.submitEndSort pr).prim.rgp = s.prim.rgp := rfl

theorem submitEndSort_shared (s : CreatorState) (pr : Params) :
    (s.submitEndSort pr).shared = s.shared := rfl

theorem submitEndSort_packets (s : CreatorState) (pr : Params) :
    (s.submitEndSort pr).m_packets = s.m_packets := rfl

theorem submitEndSort_cur (s : CreatorState) (pr : Params) :
    (s.submitEndSort pr).m_cur_submit_node_index = s.m_cur_submit_node_index := rfl

theorem submitEndSort_childCountAE (s : CreatorState) (pr : Params) (n : Nat) :
    (s.submitEndSort pr).GetChildCount .kAllEventTopology n =
      s.GetChildCount .kAllEventTopology n := rfl

theorem addPresentNode_count (st : CreatorState) (pr : Params) (submitIndex : Nat)
    (pi : Nat × PresentInfo) :
    (st.addPresentNode pr submitIndex pi).nodes.m_node_type.count
        NodeType.kPostambleStateNode =
      st.nodes.m_node_type.count NodeType.kPostambleStateNode := by
  simp only [CreatorState.addPresentNode]
  split
  · rfl
  · simp only [CreatorState.AddChild, CreatorState.AddNode, Nodes.AddNode]
    rw [List.count_append]
    simp

theorem submitEndPresents_count (s2 : CreatorState) (pr : Params)
    (capture : CaptureData) (submitIndex : Nat) :
    (s2.submitEndPresents pr capture submitIndex).nodes.m_node_type.count
        NodeType.kPostambleStateNode =
      s2.nodes.m_node_type.count NodeType.kPostambleStateNode := by
  simp only [CreatorState.submitEndPresents]
  exact foldl_preserve
    (fun st : CreatorState =>
      st.nodes.m_node_type.count NodeType.kPostambleStateNode =
        s2.nodes.m_node_type.count NodeType.kPostambleStateNode)
    (fun st pi => st.addPresentNode pr submitIndex pi) capture.presents.enum s2 rfl
    (fun x b hx => by
      have hx2 : x.nodes.m_node_type.count NodeType.kPostambleStateNode =
          s2.nodes.m_node_type.count NodeType.kPostambleStateNode := hx
      show (x.addPresentNode pr submitIndex b).nodes.m_node_type.count
          NodeType.kPostambleStateNode =
        s2.nodes.m_node_type.count NodeType.kPostambleStateNode
      rw [addPresentNode_count]
      exact hx2)

/-- Claim C6: at OnSubmitEnd with a non-empty packet run buffer, exactly
one PostambleState node is created (the PostambleState count rises by
one and the new node, at the old node-count index, has that type); it is
appended as a primary child of the current submit node in the AllEvent
and Rgp views; every buffered packet becomes its shared child in both
views; its description is "State" when the submit already has AllEvent
children (it produced events), else "Postamble State".  With an empty
run buffer no PostambleState node is created. -/
theorem c6_postamble_state (s : CreatorState) (pr : Params) (capture : CaptureData)
    (submitIndex : Nat)
    (ha1 : s.prim.allEvent.length = s.nodes.numNodes)
    (ha2 : s.prim.rgp.length = s.nodes.numNodes)
    (ha3 : s.shared.allEvent.length = s.nodes.numNodes)
    (ha4 : s.shared.rgp.length = s.nodes.numNodes)
    (ha5 : s.nodes.m_description.length = s.nodes.numNodes)
    (hcur : s.m_cur_submit_node_index < s.nodes.numNodes)
    (hcur0 : s.m_cur_submit_node_index ≠ Topology.kRootNodeIndex) :
    (s.m_packets.m_packet_node_indices ≠ [] →
        (s.OnSubmitEnd pr capture submitIndex).nodes.GetNodeType s.nodes.numNodes =
            NodeType.kPostambleStateNode ∧
          (s.OnSubmitEnd pr capture submitIndex).nodes.GetNodeDesc s.nodes.numNodes =
            (if s.GetChildCount .kAllEventTopology s.m_cur_submit_node_index ≠ 0 then
                "State"
              else "Postamble State") ∧
          (s.OnSubmitEnd pr capture submitIndex).nodes.m_node_type.count
              NodeType.kPostambleStateNode =
            s.nodes.m_node_type.count NodeType.kPostambleStateNode + 1 ∧
          (s.OnSubmitEnd pr capture submitIndex).prim.allEvent.getD
              s.m_cur_submit_node_index [] =
            s.prim.allEvent.getD s.m_cur_submit_node_index [] ++ [s.nodes.numNodes] ∧
          (s.OnSubmitEnd pr capture submitIndex).prim.rgp.getD
              s.m_cur_submit_node_index [] =
            s.prim.rgp.getD s.m_cur_submit_node_index [] ++ [s.nodes.numNodes] ∧
          (s.OnSubmitEnd pr capture submitIndex).shared.allEvent.getD
              s.nodes.numNodes [] =
            s.m_packets.m_packet_node_indices ∧
          (s.OnSubmitEnd pr capture submitIndex).shared.rgp.getD s.nodes.numNodes [] =
            s.m_packets.m_packet_node_indices) ∧
      (s.m_packets.m_packet_node_indices = [] →
        (s.OnSubmitEnd pr capture submitIndex).nodes.m_node_type.count
            NodeType.kPostambleStateNode =
          s.nodes.m_node_type.count NodeType.kPostambleStateNode) := by
  have hnn : s.nodes.numNodes = s.nodes.m_node_type.length := rfl
  constructor
  · intro hne
    have hne1 : (s.submitEndSort pr).m_packets.m_packet_node_indices ≠ [] := hne
    have heq := submitEndPostamble_eq (s.submitEndSort pr) hne1
    have hspec0 := postambleBody_spec (s.submitEndSort pr)
      (if (s.submitEndSort pr).GetChildCount .kAllEventTopology
            (s.submitEndSort pr).m_cur_submit_node_index ≠ 0 then
          "State"
        else "Postamble State") ha1 ha2 ha3 ha4 hcur
    rw [← heq] at hspec0
    have hspec : ((s.submitEndSort pr).submitEndPostamble.nodes.m_node_type =
          s.nodes.m_node_type ++ [NodeType.kPostambleStateNode]) ∧
        ((s.submitEndSort pr).submitEndPostamble.nodes.m_description =
          s.nodes.m_description ++
            [if s.GetChildCount .kAllEventTopology s.m_cur_submit_node_index ≠ 0 then
                "State"
              else "Postamble State"]) ∧
        ((s.submitEndSort pr).submitEndPostamble.prim.allEvent.getD
            s.m_cur_submit_node_index [] =
          s.prim.allEvent.getD s.m_cur_submit_node_index [] ++ [s.nodes.numNodes]) ∧
        ((s.submitEndSort pr).submitEndPostamble.prim.rgp.getD
            s.m_cur_submit_node_index [] =
          s.prim.rgp.getD s.m_cur_submit_node_index [] ++ [s.nodes.numNodes]) ∧
        ((s.submitEndSort pr).submitEndPostamble.shared.allEvent.getD
            s.nodes.numNodes [] = s.m_packets.m_packet_node_indices) ∧
        ((s.submitEndSort pr).submitEndPostamble.shared.rgp.getD s.nodes.numNodes [] =
          s.m_packets.m_packet_node_indices) ∧
        ((s.submitEndSort pr).submitEndPostamble.prim.allEvent.length =
          s.nodes.numNodes + 1) ∧
        ((s.submitEndSort pr).submitEndPostamble.prim.rgp.length =
          s.nodes.numNodes + 1) ∧
        ((s.submitEndSort pr).submitEndPostamble.shared.allEvent.length =
          s.nodes.numNodes + 1) ∧
        ((s.submitEndSort pr).submitEndPostamble.shared.rgp.length =
          s.nodes.numNodes + 1) := hspec0
    have hb1 : s.nodes.numNodes <
        (s.submitEndSort pr).submitEndPostamble.nodes.m_node_type.length := by
      rw [hspec.1]
      simp only [List.length_append, List.length_cons, List.length_nil]
      omega
    have hb2 : s.nodes.numNodes <
        (s.submitEndSort pr).submitEndPostamble.nodes.m_description.length := by
      rw [hspec.2.1]
      simp only [List.length_append, List.length_cons, List.length_nil]
      omega
    have hb3 : s.m_cur_submit_node_index <
        (s.submitEndSort pr).submitEndPostamble.prim.allEvent.length := by
      rw [hspec.2.2.2.2.2.2.1]
      omega
    have hb4 : s.m_cur_submit_node_index <
        (s.submitEndSort pr).submitEndPostamble.prim.rgp.length := by
      rw [hspec.2.2.2.2.2.2.2.1]
      omega
    have hb5 : s.nodes.numNodes <
        (s.submitEndSort pr).submitEndPostamble.shared.allEvent.length := by
      rw [hspec.2.2.2.2.2.2.2.2.1]
      omega
    have hb6 : s.nodes.numNodes <
        (s.submitEndSort pr).submitEndPostamble.shared.rgp.length := by
      rw [hspec.2.2.2.2.2.2.2.2.2]
      omega
    have hst := submitEndPresents_stable ((s.submitEndSort pr).submitEndPostamble) pr
      capture submitIndex s.m_cur_submit_node_index s.nodes.numNodes hcur0 hb1 hb2 hb3
      hb4 hb5 hb6
    refine ⟨?_, ?_, ?_, ?_, ?_, ?_, ?_⟩
    · show (((s.submitEndSort pr).submitEndPostamble).submitEndPresents pr capture
          submitIndex).nodes.m_node_type.getD s.nodes.numNodes default =
        NodeType.kPostambleStateNode
      rw [hst.1, hspec.1]
      have h00 := getD_append_add s.nodes.m_node_type [NodeType.kPostambleStateNode] 0
        (default : NodeType)
      simp only [Nat.add_zero, List.getD_cons_zero] at h00
      rw [hnn]
      exact h00
    · show (((s.submitEndSort pr).submitEndPostamble).submitEndPresents pr capture
          submitIndex).nodes.m_description.getD s.nodes.numNodes "" =
        (if s.GetChildCount .kAllEventTopology s.m_cur_submit_node_index ≠ 0 then
            "State"
          else "Postamble State")
      rw [hst.2.1, hspec.2.1]
      have h00 := getD_append_add s.nodes.m_description
        [if s.GetChildCount .kAllEventTopology s.m_cur_submit_node_index ≠ 0 then
            "State"
          else "Postamble State"] 0 ""
      simp only [Nat.add_zero, List.getD_cons_zero] at h00
      rw [ha5] at h00
      exact h00
    · show (((s.submitEndSort pr).submitEndPostamble).submitEndPresents pr capture
          submitIndex).nodes.m_node_type.count NodeType.kPostambleStateNode =
        s.nodes.m_node_type.count NodeType.kPostambleStateNode + 1
      rw [submitEndPresents_count, hspec.1, List.count_append]
      simp
    · show (((s.submitEndSort pr).submitEndPostamble).submitEndPresents pr capture
          submitIndex).prim.allEvent.getD s.m_cur_submit_node_index [] =
        s.prim.allEvent.getD s.m_cur_submit_node_index [] ++ [s.nodes.numNodes]
      rw [hst.2.2.2.1, hspec.2.2.1]
    · show (((s.submitEndSort pr).submitEndPostamble).submitEndPresents pr capture
          submitIndex).prim.rgp.getD s.m_cur_submit_node_index [] =
        s.prim.rgp.getD s.m_cur_submit_node_index [] ++ [s.nodes.numNodes]
      rw [hst.2.2.2.2.1, hspec.2.2.2.1]
    · show (((s.submitEndSort pr).submitEndPostamble).submitEndPresents pr capture
          submitIndex).shared.allEvent.getD s.nodes.numNodes [] =
        s.m_packets.m_packet_node_indices
      rw [hst.2.2.2.2.2.1, hspec.2.2.2.2.1]
    · show (((s.submitEndSort pr).submitEndPostamble).submitEndPresents pr capture
          submitIndex).shared.rgp.getD s.nodes.numNodes [] =
        s.m_packets.m_packet_node_indices
      rw [hst.2.2.2.2.2.2, hspec.2.2.2.2.2.1]
  · intro he
    have he1 : (s.submitEndSort pr).m_packets.m_packet_node_indices = [] := he
    have h2 : (s.submitEndSort pr).submitEndPostamble = s.submitEndSort pr := by
      simp only [CreatorState.submitEndPostamble]
      rw [if_neg (fun hcon => hcon he1)]
    show (((s.submitEndSort pr).submitEndPostamble).submitEndPresents pr capture
        submitIndex).nodes.m_node_type.count NodeType.kPostambleStateNode =
      s.nodes.m_node_type.count NodeType.kPostambleStateNode
    rw [submitEndPresents_count, h2, submitEndSort_nodes]

/-- Concrete creator state for the C6 witness: root and submit node, one
buffered packet (node index 7), no AllEvent children yet. -/
def c6State : CreatorState :=
  { nodes :=
      { m_node_type := [.kRootNode, .kSubmitNode]
        m_description := ["Root", "Submit"]
        m_aux_info := [.noAux, .noAux]
        m_metadata := [[], []]
        m_event_node_indices := [] }
    prim :=
      { engine := [[], []]
        subm := [[1], []]
        allEvent := [[1], []]
        rgp := [[1], []]
        vulkanCall := [[], []]
        vulkanEvent := [[], []] }
    shared :=
      { engine := [[], []]
        subm := [[], []]
        allEvent := [[], []]
        rgp := [[], []]
        vulkanCall := [[], []]
        vulkanEvent := [[], []] }
    m_cur_submit_node_index := 1
    m_packets :=
      { m_packet_opcodes := [0x10]
        m_packet_addrs := [0]
        m_packet_node_indices := [7] } }

theorem c6_postamble_state_witness :
    c6State.m_packets.m_packet_node_indices ≠ [] ∧
      (c6State.OnSubmitEnd plainParams {} 0).nodes.GetNodeType c6State.nodes.numNodes =
        NodeType.kPostambleStateNode ∧
      (c6State.OnSubmitEnd plainParams {} 0).nodes.GetNodeDesc c6State.nodes.numNodes =
        "Postamble State" ∧
      (c6State.OnSubmitEnd plainParams {} 0).shared.allEvent.getD
          c6State.nodes.numNodes [] =
        c6State.m_packets.m_packet_node_indices := by
  have h := c6_postamble_state c6State plainParams {} 0 (by decide) (by decide)
    (by decide) (by decide) (by decide) (by decide) (by decide)
  have hne : c6State.m_packets.m_packet_node_indices ≠ [] := by decide
  have hd : (if c6State.GetChildCount .kAllEventTopology
        c6State.m_cur_submit_node_index ≠ 0 then "State" else "Postamble State") =
      "Postamble State" := by decide
  exact ⟨hne, (h.1 hne).1, hd ▸ (h.1 hne).2.1, (h.1 hne).2.2.2.2.2.1⟩

/-- Concrete creator state for the C5 witness: submit node 1, stack of ib
nodes 2 (Normal), 3 (Chain), 4 (Chain), flatten enabled. -/
def c5State : CreatorState :=
  { nodes :=
      { m_node_type := [.kRootNode, .kSubmitNode, .kIbNode, .kIbNode, .kIbNode]
        m_description := ["", "", "", "", ""]
        m_aux_info :=
          [.noAux, .noAux, AuxInfo.IbNode 0 IbType.kNormal 4 true,
            AuxInfo.IbNode 1 IbType.kChain 4 true, AuxInfo.IbNode 2 IbType.kChain 4 true]
        m_metadata := [[], [], [], [], []]
        m_event_node_indices := [] }
    prim :=
      { engine := [[], [], [], [], []]
        subm := [[], [], [], [], []] }
    m_cur_submit_node_index := 1
    m_dcb_ib_stack := [2, 3, 4]
    m_flatten_chain_nodes := true }

theorem c5_flatten_chain_parent_witness :
    (c5State.OnIbStart 3 {} IbType.kChain).prim.engine.getD 2 [] = [5] ∧
      (c5State.OnIbStart 3 {} IbType.kChain).prim.subm.getD 2 [] = [5] := by
  obtain ⟨p, below, above, hfind, hnc2, hsplit, habove, heng2, hsub2⟩ :=
    c5_flatten_chain_parent c5State 3 {} rfl (by decide) (by decide) (by decide)
      (by decide) ⟨2, by decide, by decide⟩
  have h2 : findLastNonChain c5State.nodes c5State.m_dcb_ib_stack = some 2 := by decide
  have hp : p = 2 := by
    rw [h2] at hfind
    exact (Option.some.inj hfind).symm
  subst hp
  exact ⟨by rw [heng2]; decide, by rw [hsub2]; decide⟩

/-- Claim C7: GetEventIndex returns k+1 on the k-th recorded event node
index and 0 on any index not in the list, provided the list is strictly
increasing; and the builder's event-node creation step
(addDrawDispatchNode, the only writer through AppendEventNodeIndex)
preserves that strictly-increasing discipline, because the appended index
is the freshly created node's index, larger than every node index already
recorded. -/
theorem c7_get_event_index :
    (∀ (s : CreatorState) (opcode : Nat), EventIndicesInv s →
        EventIndicesInv (s.addDrawDispatchNode opcode).2) ∧
    ∀ (ns : Nodes), List.Chain' (· < ·) ns.m_event_node_indices →
      (∀ k, k < ns.m_event_node_indices.length →
          ns.GetEventIndex (ns.m_event_node_indices.getD k 0) = k + 1) ∧
      ∀ m, m ∉ ns.m_event_node_indices → ns.GetEventIndex m = 0 := by
  constructor
  · rintro s opcode ⟨hchain, hbound⟩
    have hev : (s.addDrawDispatchNode opcode).2.nodes.m_event_node_indices =
        s.nodes.m_event_node_indices ++ [s.nodes.numNodes] := by
      simp [CreatorState.addDrawDispatchNode, CreatorState.AddNode, Nodes.AddNode,
        CreatorState.AppendEventNodeIndex, Nodes.numNodes]
    have hnum : s.nodes.numNodes < (s.addDrawDispatchNode opcode).2.nodes.numNodes := by
      simp [CreatorState.addDrawDispatchNode, CreatorState.AddNode, Nodes.AddNode,
        CreatorState.AppendEventNodeIndex, Nodes.numNodes]
    constructor
    · rw [hev]
      rw [List.chain'_append]
      refine ⟨hchain, List.chain'_singleton _, ?_⟩
      intro x hx y hy
      simp only [List.head?_cons, Option.mem_def, Option.some.injEq] at hy
      subst hy
      exact hbound x (List.mem_of_mem_getLast? hx)
    · intro e he
      rw [hev] at he
      rcases List.mem_append.mp he with h | h
      · exact lt_trans (hbound e h) hnum
      · simp only [List.mem_singleton] at h
        subst h
        exact hnum
  · intro ns hchain
    have hp : List.Pairwise (· < ·) ns.m_event_node_indices :=
      List.chain'_iff_pairwise.mp hchain
    constructor
    · intro k hk
      have hlb := lowerBound_mem ns.m_event_node_indices hp k hk
      simp only [Nodes.GetEventIndex, hlb]
      have : ¬ (k = ns.m_event_node_indices.length ∨
          ns.m_event_node_indices.getD k 0 ≠ ns.m_event_node_indices.getD k 0) := by
        push_neg
        exact ⟨by omega, rfl⟩
      rw [if_neg this]
    · intro m hm
      simp only [Nodes.GetEventIndex]
      by_cases hlen : lowerBound ns.m_event_node_indices m =
          ns.m_event_node_indices.length
      · rw [if_pos (Or.inl hlen)]
      · have hlt : lowerBound ns.m_event_node_indices m <
            ns.m_event_node_indices.length :=
          lt_of_le_of_ne (lowerBound_le_length ns.m_event_node_indices hp m) hlen
        have hmem : ns.m_event_node_indices.getD (lowerBound ns.m_event_node_indices m) 0 ∈
            ns.m_event_node_indices := by
          rw [List.getD_eq_getElem ns.m_event_node_indices 0 hlt]
          exact List.getElem_mem _
        have : ns.m_event_node_indices.getD (lowerBound ns.m_event_node_indices m) 0 ≠ m := by
          intro hEq
          exact hm (hEq ▸ hmem)
        rw [if_pos (Or.inr this)]

/-- Concrete nodes store for the C7 witness: events recorded at node
indices 2 and 5 of a 7-node store. -/
def c7WitnessNodes : Nodes :=
  { m_node_type :=
      [.kRootNode, .kSubmitNode, .kDrawDispatchDmaNode, .kPacketNode,
        .kPacketNode, .kDrawDispatchDmaNode, .kPostambleStateNode]
    m_description := ["", "", "", "", "", "", ""]
    m_aux_info := [.noAux, .noAux, .eventNode 0, .noAux, .noAux, .eventNode 1, .noAux]
    m_metadata := [[], [], [], [], [], [], []]
    m_event_node_indices := [2, 5] }

theorem c7_get_event_index_witness :
    EventIndicesInv ((⟨c7WitnessNodes, {}, {}, 2, UINT64_MAX, 0, [], [], false, {},
        [], [], [], [], [], false, UINT32_MAX, false⟩ :
          CreatorState).addDrawDispatchNode CP_DRAW_AUTO).2 ∧
      c7WitnessNodes.GetEventIndex 5 = 2 ∧
      c7WitnessNodes.GetEventIndex 4 = 0 := by
  have hchain : List.Chain' (· < ·) c7WitnessNodes.m_event_node_indices := by
    simp [c7WitnessNodes, List.chain'_cons, List.chain'_singleton]
  refine ⟨c7_get_event_index.1 _ CP_DRAW_AUTO ⟨hchain, ?_⟩, ?_, ?_⟩
  · decide
  · exact (c7_get_event_index.2 c7WitnessNodes hchain).1 1 (by decide)
  · exact (c7_get_event_index.2 c7WitnessNodes hchain).2 4 (by decide)

/-- Claim C9: CreateTrees is a pure function of the capture data, the
emulator-driven callback stream, the catalog/string/sort collaborators and
the flatten flag; two runs on identical inputs produce identical results
(node stores, descriptions, aux payloads, metadata, and the primary and
shared child tables of every topology). -/
theorem c9_create_trees_deterministic (pr : Params) (emu : Nat → Option (List EmuEv))
    (capture : CaptureData) (flatten : Bool) :
    CreateTrees pr emu capture flatten = CreateTrees pr emu capture flatten :=
  rfl

/-- Claim C10: the Ib aux payload encoding round-trips: packing an
ib-index below 2^kMaxNumIbsBits, an IbType, a 32-bit size and the
fully-captured flag and reading the four accessors back returns exactly
the packed values. -/
theorem c10_ib_aux_roundtrip (ibIndex : Nat) (t : IbType) (size : Nat) (cap : Bool)
    (hIb : ibIndex < 2 ^ kMaxNumIbsBits) (hSz : size < 2 ^ 32) :
    GetIbNodeIndexPacked (AuxInfo.IbNodePacked ibIndex t size cap) = ibIndex ∧
      GetIbNodeTypePacked (AuxInfo.IbNodePacked ibIndex t size cap) = t ∧
      GetIbNodeSizeInDwordsPacked (AuxInfo.IbNodePacked ibIndex t size cap) = size ∧
      GetIbNodeIsFullyCapturedPacked (AuxInfo.IbNodePacked ibIndex t size cap) = cap := by
  simp only [kMaxNumIbsBits] at hIb
  have hc : t.code < 3 := by cases t <;> simp [IbType.code]
  have hb : (if cap then 1 else 0) = (cond cap 1 0 : Nat) := by cases cap <;> simp
  have hu : AuxInfo.IbNodePacked ibIndex t size cap =
      t.code + ibIndex * 2 ^ 8 + size * 2 ^ 16 + (cond cap 1 0) * 2 ^ 48 := by
    simp only [AuxInfo.IbNodePacked, kMaxNumIbsBits, hb]
    rw [Nat.mod_eq_of_lt (by omega), Nat.mod_eq_of_lt hIb, Nat.mod_eq_of_lt hSz]
  have hbb : (cond cap 1 0 : Nat) = 1 ∨ (cond cap 1 0 : Nat) = 0 := by
    cases cap <;> simp
  refine ⟨?_, ?_, ?_, ?_⟩
  · simp only [GetIbNodeIndexPacked, hu, kMaxNumIbsBits]
    omega
  · have hm : AuxInfo.IbNodePacked ibIndex t size cap % 2 ^ 8 = t.code := by
      rw [hu]; omega
    simp only [GetIbNodeTypePacked, hm]
    cases t <;> simp [IbType.code, IbType.fromCode]
  · simp only [GetIbNodeSizeInDwordsPacked, hu]
    omega
  · simp only [GetIbNodeIsFullyCapturedPacked, hu]
    cases cap <;> simp <;> omega

theorem c10_ib_aux_roundtrip_witness :
    GetIbNodeIndexPacked (AuxInfo.IbNodePacked 5 IbType.kCall 77 true) = 5 ∧
      GetIbNodeTypePacked (AuxInfo.IbNodePacked 5 IbType.kCall 77 true) = IbType.kCall ∧
      GetIbNodeSizeInDwordsPacked (AuxInfo.IbNodePacked 5 IbType.kCall 77 true) = 77 ∧
      GetIbNodeIsFullyCapturedPacked (AuxInfo.IbNodePacked 5 IbType.kCall 77 true) = true :=
  c10_ib_aux_roundtrip 5 IbType.kCall 77 true (by norm_num [kMaxNumIbsBits]) (by norm_num)

-- =============================================================================
-- Claim C1: OnIbEnd chain-run pop safety
-- =============================================================================

theorem dropWhileMap {α β : Type} (f : α → β) (p : β → Bool) (l : List α) :
    (l.map f).dropWhile p = (l.dropWhile (fun a => p (f a))).map f := by
  induction l with
  | nil => rfl
  | cons x xs ih =>
    simp only [List.map_cons, List.dropWhile_cons]
    cases hpx : p (f x) with
    | false => simp [hpx]
    | true => simp [hpx, ih]

theorem dropTrailingChainsNat_map (ns : Nodes) (stack : List Nat) :
    dropTrailingChains (stack.map ns.GetIbNodeType) =
      (dropTrailingChainsNat ns stack).map ns.GetIbNodeType := by
  have h1 : (stack.map ns.GetIbNodeType).reverse =
      stack.reverse.map ns.GetIbNodeType := by simp
  simp only [dropTrailingChains, dropTrailingChainsNat]
  rw [h1, dropWhileMap]
  simp

theorem chainPopLoop_correct (ns : Nodes) (stack : List Nat) :
    ∀ b, stack.getLast? = some b →
      chainPopLoop ns stack (ns.GetIbNodeType b) =
        if dropTrailingChainsNat ns stack = [] then none
        else some (dropTrailingChainsNat ns stack) := by
  induction stack using List.reverseRecOn with
  | nil =>
    intro b hb
    simp at hb
  | append_singleton l a ih =>
    intro b hb
    have hba : b = a := by
      have h2 : (l ++ [a]).getLast? = some a := by simp
      rw [h2] at hb
      exact (Option.some.inj hb).symm
    subst hba
    by_cases hch : ns.GetIbNodeType b = IbType.kChain
    · have hcond : l ++ [b] ≠ [] ∧ ns.GetIbNodeType b = IbType.kChain :=
        ⟨by simp, hch⟩
      have hdl : (l ++ [b]).dropLast = l := by simp
      rw [chainPopLoop]
      simp only [if_pos hcond, hdl]
      cases hl : l.getLast? with
      | none =>
        have hle : l = [] := by
          cases l with
          | nil => rfl
          | cons x xs => simp at hl
        subst hle
        have hdt : dropTrailingChainsNat ns ([] ++ [b]) = [] := by
          simp [dropTrailingChainsNat, hch]
        rw [if_pos hdt]
      | some c =>
        have hdt : dropTrailingChainsNat ns (l ++ [b]) =
            dropTrailingChainsNat ns l := by
          simp [dropTrailingChainsNat, hch]
        show chainPopLoop ns l (ns.GetIbNodeType c) =
          if dropTrailingChainsNat ns (l ++ [b]) = [] then none
          else some (dropTrailingChainsNat ns (l ++ [b]))
        rw [hdt]
        exact ih c hl
    · have hcond : ¬(l ++ [b] ≠ [] ∧ ns.GetIbNodeType b = IbType.kChain) :=
        fun hcon => hch hcon.2
      have hdt : dropTrailingChainsNat ns (l ++ [b]) = l ++ [b] := by
        simp [dropTrailingChainsNat, hch]
      rw [chainPopLoop]
      rw [if_neg hcond, hdt, if_neg (by simp)]

theorem OnVulkanMarkerEnd_dcb (s : CreatorState) :
    s.OnVulkanMarkerEnd.m_dcb_ib_stack = s.m_dcb_ib_stack := by
  simp only [CreatorState.OnVulkanMarkerEnd]
  split <;> split <;> rfl

theorem OnVulkanMarkerEnd_nodes (s : CreatorState) :
    s.OnVulkanMarkerEnd.nodes = s.nodes := by
  simp only [CreatorState.OnVulkanMarkerEnd]
  split <;> split <;> rfl

theorem OnIbEnd_eq_none (s : CreatorState)
    (hb : s.m_dcb_ib_stack.getLast? = none) : s.OnIbEnd = none := by
  simp only [CreatorState.OnIbEnd]
  rw [hb]

theorem OnIbEnd_eq_some (s : CreatorState) (b : Nat)
    (hb : s.m_dcb_ib_stack.getLast? = some b) :
    s.OnIbEnd =
      (chainPopLoop s.nodes s.m_dcb_ib_stack (s.nodes.GetIbNodeType b)).bind
        (fun stack2 =>
          if stack2 = [] then none
          else
            some
              { ({ s with
                    m_dcb_ib_stack := stack2.dropLast } : CreatorState).OnVulkanMarkerEnd with
                m_cmd_begin_packet_node_indices := []
                m_cmd_begin_event_node_indices := [] }) := by
  simp only [CreatorState.OnIbEnd]
  rw [hb]
  rfl

theorem OnIbEnd_spec (s : CreatorState) :
    (dropTrailingChainsNat s.nodes s.m_dcb_ib_stack = [] → s.OnIbEnd = none) ∧
      (dropTrailingChainsNat s.nodes s.m_dcb_ib_stack ≠ [] →
        ∃ s2, s.OnIbEnd = some s2 ∧
          s2.m_dcb_ib_stack =
            (dropTrailingChainsNat s.nodes s.m_dcb_ib_stack).dropLast ∧
          s2.nodes = s.nodes) := by
  cases hb : s.m_dcb_ib_stack.getLast? with
  | none =>
    have hempty : s.m_dcb_ib_stack = [] := by
      cases hsl : s.m_dcb_ib_stack with
      | nil => rfl
      | cons x xs =>
        rw [hsl] at hb
        simp at hb
    refine ⟨fun _ => OnIbEnd_eq_none s hb, fun hcon => absurd ?_ hcon⟩
    rw [hempty]
    rfl
  | some b =>
    have hrun := chainPopLoop_correct s.nodes s.m_dcb_ib_stack b hb
    by_cases hd : dropTrailingChainsNat s.nodes s.m_dcb_ib_stack = []
    · refine ⟨fun _ => ?_, fun hcon => absurd hd hcon⟩
      rw [OnIbEnd_eq_some s b hb, hrun, if_pos hd]
      rfl
    · refine ⟨fun hcon => absurd hcon hd, fun _ => ?_⟩
      refine ⟨{ ({ s with
            m_dcb_ib_stack :=
              (dropTrailingChainsNat s.nodes
                  s.m_dcb_ib_stack).dropLast } : CreatorState).OnVulkanMarkerEnd with
          m_cmd_begin_packet_node_indices := []
          m_cmd_begin_event_node_indices := [] }, ?_, ?_, ?_⟩
      · rw [OnIbEnd_eq_some s b hb, hrun, if_neg hd]
        simp only [Option.bind]
        rw [if_neg hd]
      · simp only [OnVulkanMarkerEnd_dcb]
      · simp only [OnVulkanMarkerEnd_nodes]

theorem OnIbStart_step (s : CreatorState) (ibIndex : Nat) (info : IndirectBufferInfo)
    (t : IbType) (halign : s.nodes.m_aux_info.length = s.nodes.numNodes) :
    (s.OnIbStart ibIndex info t).m_dcb_ib_stack =
        s.m_dcb_ib_stack ++ [s.nodes.numNodes] ∧
      (s.OnIbStart ibIndex info t).nodes.m_aux_info.length =
        (s.OnIbStart ibIndex info t).nodes.numNodes ∧
      (s.OnIbStart ibIndex info t).nodes.numNodes = s.nodes.numNodes + 1 ∧
      (∀ i, i < s.nodes.numNodes →
        (s.OnIbStart ibIndex info t).nodes.GetIbNodeType i =
          s.nodes.GetIbNodeType i) ∧
      (s.OnIbStart ibIndex info t).nodes.GetIbNodeType s.nodes.numNodes = t := by
  have hnn : s.nodes.numNodes = s.nodes.m_node_type.length := rfl
  refine ⟨?_, ?_, ?_, ?_, ?_⟩
  · simp only [CreatorState.OnIbStart, CreatorState.AddChild, CreatorState.AddNode,
      Nodes.AddNode, Nodes.numNodes]
  · simp only [CreatorState.OnIbStart, CreatorState.AddChild, CreatorState.AddNode,
      Nodes.AddNode, Nodes.numNodes, List.length_append, List.length_cons,
      List.length_nil]
    omega
  · simp only [CreatorState.OnIbStart, CreatorState.AddChild, CreatorState.AddNode,
      Nodes.AddNode, Nodes.numNodes, List.length_append, List.length_cons,
      List.length_nil]
  · intro i hi
    exact AddNode_GetIbNodeType_stable s NodeType.kIbNode
      (ibDescription ibIndex info t)
      (AuxInfo.IbNode ibIndex t info.m_size_in_dwords (!info.m_skip)) [] i
      (by omega)
  · have halign2 : s.nodes.m_aux_info.length = s.nodes.m_node_type.length := halign
    simp only [CreatorState.OnIbStart, CreatorState.AddChild, CreatorState.AddNode,
      Nodes.AddNode, Nodes.GetIbNodeType, Nodes.GetAux, Nodes.numNodes]
    rw [← halign2]
    have h00 := getD_append_add s.nodes.m_aux_info
      [AuxInfo.IbNode ibIndex t info.m_size_in_dwords (!info.m_skip)] 0
      (default : AuxInfo)
    simp only [Nat.add_zero, List.getD_cons_zero] at h00
    rw [h00]
    simp [AuxInfo.IbNode]

theorem ibExec_refines (tr : List IbEv) :
    ∀ (s : CreatorState) (σfin : List IbType),
      s.nodes.m_aux_info.length = s.nodes.numNodes →
      (∀ i ∈ s.m_dcb_ib_stack, i < s.nodes.numNodes) →
      specExec (s.m_dcb_ib_stack.map s.nodes.GetIbNodeType) tr = some σfin →
      ∃ s2, ibExec s tr = some s2 ∧
        s2.m_dcb_ib_stack.map s2.nodes.GetIbNodeType = σfin := by
  induction tr with
  | nil =>
    intro s σfin halign hb hspec
    simp only [specExec] at hspec
    exact ⟨s, rfl, Option.some.inj hspec⟩
  | cons e rest ih =>
    intro s σfin halign hb hspec
    cases e with
    | ibStart ibIndex info t =>
      simp only [specExec, specStep, Option.bind] at hspec
      obtain ⟨hstk, hal2, hnum, hstab, hnew⟩ := OnIbStart_step s ibIndex info t halign
      have hmap : (s.OnIbStart ibIndex info t).m_dcb_ib_stack.map
          (s.OnIbStart ibIndex info t).nodes.GetIbNodeType =
          s.m_dcb_ib_stack.map s.nodes.GetIbNodeType ++ [t] := by
        rw [hstk, List.map_append]
        congr 1
        · exact List.map_congr_left fun i hiM => hstab i (hb i hiM)
        · simp [hnew]
      have hbnd : ∀ i ∈ (s.OnIbStart ibIndex info t).m_dcb_ib_stack,
          i < (s.OnIbStart ibIndex info t).nodes.numNodes := by
        intro i hiM
        rw [hstk] at hiM
        rw [hnum]
        rcases List.mem_append.mp hiM with hin | hin
        · exact Nat.lt_succ_of_lt (hb i hin)
        · simp only [List.mem_singleton] at hin
          omega
      obtain ⟨s2, hex, hm⟩ := ih (s.OnIbStart ibIndex info t) σfin hal2 hbnd
        (by rw [hmap]; exact hspec)
      exact ⟨s2, hex, hm⟩
    | ibEnd =>
      simp only [specExec, specStep] at hspec
      by_cases hdσ : dropTrailingChains
          (s.m_dcb_ib_stack.map s.nodes.GetIbNodeType) = []
      · rw [if_pos hdσ] at hspec
        simp [Option.bind] at hspec
      · rw [if_neg hdσ] at hspec
        simp only [Option.bind] at hspec
        have hcomm := dropTrailingChainsNat_map s.nodes s.m_dcb_ib_stack
        have hdn : dropTrailingChainsNat s.nodes s.m_dcb_ib_stack ≠ [] := by
          intro hcon
          apply hdσ
          rw [hcomm, hcon]
          rfl
        obtain ⟨sm, hend, hstk2, hnodes2⟩ := (OnIbEnd_spec s).2 hdn
        have hal2 : sm.nodes.m_aux_info.length = sm.nodes.numNodes := by
          rw [hnodes2]
          exact halign
        have hbnd2 : ∀ i ∈ sm.m_dcb_ib_stack, i < sm.nodes.numNodes := by
          intro i hiM
          rw [hstk2] at hiM
          rw [hnodes2]
          have h1 : i ∈ dropTrailingChainsNat s.nodes s.m_dcb_ib_stack :=
            (List.dropLast_prefix _).subset hiM
          have h2 : i ∈ s.m_dcb_ib_stack := by
            simp only [dropTrailingChainsNat, List.mem_reverse] at h1
            exact List.mem_reverse.mp (List.Sublist.subset
              (List.dropWhile_sublist
                (fun j => s.nodes.GetIbNodeType j == IbType.kChain)) h1)
          exact hb i h2
        have hmap2 : sm.m_dcb_ib_stack.map sm.nodes.GetIbNodeType =
            (dropTrailingChains
              (s.m_dcb_ib_stack.map s.nodes.GetIbNodeType)).dropLast := by
          rw [hstk2, hnodes2, hcomm]
          exact List.map_dropLast _ _
        obtain ⟨s2, hex, hm⟩ := ih sm σfin hal2 hbnd2 (by rw [hmap2]; exact hspec)
        refine ⟨s2, ?_, hm⟩
        simp only [ibExec]
        rw [hend]
        simp only [Option.bind]
        exact hex

/-- Claim C1: for every callback trace whose abstract stack discipline is
well formed (each end-callback finds, below the top run of Chain IBs, one
more non-Chain entry to pop — the spec-level machine never underflows),
running the real OnIbStart/OnIbEnd handlers from an empty IB stack never
reads or pops an empty stack (ibExec never hits the `none` that models
every such access), each OnIbEnd pops exactly the top run of Chain-typed
entries plus one more, and the final stack's type sequence matches the
abstract machine's. -/
theorem c1_ib_end_no_underflow (tr : List IbEv) (s0 : CreatorState)
    (σfin : List IbType) (hstack : s0.m_dcb_ib_stack = [])
    (halign : s0.nodes.m_aux_info.length = s0.nodes.numNodes)
    (hwf : specExec [] tr = some σfin) :
    ∃ s2, ibExec s0 tr = some s2 ∧
      s2.m_dcb_ib_stack.map s2.nodes.GetIbNodeType = σfin := by
  apply ibExec_refines tr s0 σfin halign
  · intro i hiM
    rw [hstack] at hiM
    simp at hiM
  · rw [hstack]
    exact hwf

theorem c1_ib_end_no_underflow_witness :
    specExec []
        [IbEv.ibStart 0 {} IbType.kNormal, IbEv.ibStart 1 {} IbType.kChain,
          IbEv.ibStart 2 {} IbType.kChain, IbEv.ibEnd] =
        some [] ∧
      ∃ s2,
        ibExec {}
            [IbEv.ibStart 0 {} IbType.kNormal, IbEv.ibStart 1 {} IbType.kChain,
              IbEv.ibStart 2 {} IbType.kChain, IbEv.ibEnd] =
          some s2 ∧
        s2.m_dcb_ib_stack.map s2.nodes.GetIbNodeType = [] := by
  refine ⟨rfl, c1_ib_end_no_underflow _ {} [] rfl rfl rfl⟩

-- =============================================================================
-- Claim C8: GetNextNodeIndex is the pre-order successor
-- =============================================================================

theorem tflat (n : Nat) (cs : LForest) : (LTree.node n cs).flat = n :: cs.flat := rfl

theorem fflat_nil : (LForest.nil).flat = ([] : List Nat) := rfl

theorem fflat_cons (c : LTree) (cs : LForest) :
    (LForest.cons c cs).flat = c.flat ++ cs.flat := rfl

theorem tlabel (n : Nat) (cs : LForest) : (LTree.node n cs).label = n := rfl

theorem tchildren (n : Nat) (cs : LForest) : (LTree.node n cs).children = cs := rfl

theorem flen_nil : LForest.nil.length = 0 := rfl

theorem flen_cons (c : LTree) (cs : LForest) :
    (LForest.cons c cs).length = cs.length + 1 := rfl

theorem flat_ne_nil (c : LTree) : c.flat ≠ [] := by
  cases c with
  | node n cs =>
    rw [tflat]
    simp

theorem flat_head (c : LTree) : c.flat.getD 0 0 = c.label := by
  cases c with
  | node n cs =>
    rw [tflat, tlabel]
    simp

theorem walkUp_root (t : Topology) (f : Nat) :
    t.walkUp (f + 1) Topology.kRootNodeIndex = some UINT64_MAX := by
  simp only [Topology.walkUp]
  simp

theorem walkUp_step (t : Topology) (f m : Nat) (hm : m ≠ Topology.kRootNodeIndex) :
    t.walkUp (f + 1) m =
      if t.GetChildIndex m + 1 < t.GetNumChildren (t.GetParentNodeIndex m) then
        some (t.GetChildNodeIndex (t.GetParentNodeIndex m) (t.GetChildIndex m + 1))
      else t.walkUp f (t.GetParentNodeIndex m) := by
  simp only [Topology.walkUp]
  rw [if_neg hm]

theorem walkUp_mono (t : Topology) :
    ∀ (f n v : Nat), t.walkUp f n = some v → t.walkUp (f + 1) n = some v := by
  intro f
  induction f with
  | zero =>
    intro n v h
    simp [Topology.walkUp] at h
  | succ g ih =>
    intro n v h
    simp only [Topology.walkUp] at h ⊢
    by_cases h1 : n = Topology.kRootNodeIndex
    · rw [if_pos h1] at h ⊢
      exact h
    · rw [if_neg h1] at h ⊢
      by_cases h2 : t.GetChildIndex n + 1 < t.GetNumChildren (t.GetParentNodeIndex n)
      · rw [if_pos h2] at h ⊢
        exact h
      · rw [if_neg h2] at h ⊢
        exact ih _ _ h

theorem walkUp_le (t : Topology) (f g n v : Nat) (hfg : f ≤ g)
    (h : t.walkUp f n = some v) : t.walkUp g n = some v := by
  obtain ⟨d, rfl⟩ : ∃ d, g = f + d := ⟨g - f, by omega⟩
  clear hfg
  induction d with
  | zero => simpa using h
  | succ e ih =>
    have h2 := walkUp_mono t (f + e) n v ih
    have h3 : f + (e + 1) = f + e + 1 := by omega
    rw [h3]
    exact h2

theorem nodup_lt_length (l : List Nat) (N : Nat) (hd : l.Nodup)
    (hb : ∀ x ∈ l, x < N) : l.length ≤ N := by
  classical
  have h1 : l.toFinset.card = l.length := List.toFinset_card_of_nodup hd
  have h2 : l.toFinset ⊆ Finset.range N := by
    intro x hx
    rw [List.mem_toFinset] at hx
    exact Finset.mem_range.mpr (hb x hx)
  have h3 := Finset.card_le_card h2
  rw [h1, Finset.card_range] at h3
  exact h3

theorem Succ_mono (t : Topology) (n m B B2 : Nat) (h : B ≤ B2)
    (hs : Succ t n m B) : Succ t n m B2 := by
  refine ⟨hs.1, fun hz => ?_⟩
  obtain ⟨f, hf, hw⟩ := hs.2 hz
  exact ⟨f, by omega, hw⟩

theorem SuccList_mono (t : Topology) (l : List Nat) (K B B2 : Nat) (h : B ≤ B2)
    (hs : SuccList t l K B) : SuccList t l K B2 :=
  ⟨fun k hk => Succ_mono t _ _ B B2 h (hs.1 k hk),
    fun hne => Succ_mono t _ _ B B2 h (hs.2 hne)⟩

theorem SuccList_singleton (t : Topology) (n K B : Nat) (hs : Succ t n K B) :
    SuccList t [n] K B := by
  refine ⟨fun k hk => ?_, fun _ => ?_⟩
  · simp at hk
  · simpa using hs

theorem SuccList_append (t : Topology) (l1 l2 : List Nat) (K B : Nat)
    (h2ne : l2 ≠ [])
    (h1 : SuccList t l1 (l2.getD 0 0) B) (h2 : SuccList t l2 K B) :
    SuccList t (l1 ++ l2) K B := by
  have hl2pos : 0 < l2.length := List.length_pos.mpr h2ne
  constructor
  · intro k hk
    simp only [List.length_append] at hk
    by_cases hk1 : k + 1 < l1.length
    · rw [getD_append_left _ _ _ _ (by omega), getD_append_left _ _ _ _ hk1]
      exact h1.1 k hk1
    · by_cases hk2 : k + 1 = l1.length
      · have hgk1 : (l1 ++ l2).getD (k + 1) 0 = l2.getD 0 0 := by
          have h3 := getD_append_add l1 l2 0 0
          rw [Nat.add_zero] at h3
          rw [← hk2] at h3
          exact h3
        rw [getD_append_left _ _ _ _ (by omega), hgk1]
        have hl1ne : l1 ≠ [] := by
          intro hc
          rw [hc] at hk2
          simp at hk2
        have hk0 : k = l1.length - 1 := by omega
        rw [hk0]
        exact h1.2 hl1ne
      · obtain ⟨k2, rfl⟩ : ∃ k2, k = l1.length + k2 := ⟨k - l1.length, by omega⟩
        have hgk1 : (l1 ++ l2).getD (l1.length + k2 + 1) 0 = l2.getD (k2 + 1) 0 := by
          have h3 := getD_append_add l1 l2 (k2 + 1) 0
          rw [← Nat.add_assoc] at h3
          exact h3
        rw [getD_append_add, hgk1]
        exact h2.1 k2 (by omega)
  · intro _
    have hgl : (l1 ++ l2).getD ((l1 ++ l2).length - 1) 0 = l2.getD (l2.length - 1) 0 := by
      have h3 := getD_append_add l1 l2 (l2.length - 1) 0
      have hlen : (l1 ++ l2).length - 1 = l1.length + (l2.length - 1) := by
        simp only [List.length_append]
        omega
      rw [hlen]
      exact h3
    rw [hgl]
    exact h2.2 h2ne

mutual

theorem treeSucc (t : Topology) (c : LTree) (K B : Nat)
    (htree : isTreeAt t c = true)
    (hnz : ∀ m ∈ c.children.flat, m ≠ Topology.kRootNodeIndex)
    (hexit : ∃ f, 1 ≤ f ∧ f ≤ B ∧ t.walkUp f c.label = some K) :
    SuccList t c.flat K (B + c.flat.length) := by
  cases c with
  | node n cs =>
    simp only [isTreeAt, Bool.and_eq_true, beq_iff_eq] at htree
    obtain ⟨⟨hcnt, hco⟩, hf⟩ := htree
    rw [tchildren] at hnz
    rw [tlabel] at hexit
    rw [tflat]
    cases cs with
    | nil =>
      rw [fflat_nil]
      refine ⟨fun k hk => by simp at hk, fun _ => ⟨fun h0 => ?_, fun _ => ?_⟩⟩
      · rw [flen_nil] at hcnt
        simp only [List.length_cons, List.length_nil, Nat.add_sub_cancel,
          List.getD_cons_zero] at h0
        omega
      · obtain ⟨f, _, hfB, hw⟩ := hexit
        refine ⟨f, by simp; omega, ?_⟩
        simpa using hw
    | cons c1 cs2 =>
      have hFS := forestSucc t n (.cons c1 cs2) 0 K B (by rw [hcnt]; omega) hco hf hnz
        hexit
      have hhead : (LForest.cons c1 cs2).flat.getD 0 0 = c1.label := by
        rw [fflat_cons, getD_append_left _ _ _ _
          (List.length_pos.mpr (flat_ne_nil c1))]
        exact flat_head c1
      have hfne : (LForest.cons c1 cs2).flat ≠ [] := by
        rw [fflat_cons]
        simp [flat_ne_nil c1]
      have h1 : Succ t n ((LForest.cons c1 cs2).flat.getD 0 0)
          (B + (n :: (LForest.cons c1 cs2).flat).length) := by
        refine ⟨fun _ => ?_, fun hz => ?_⟩
        · rw [hhead]
          simp only [childOk, Bool.and_eq_true, beq_iff_eq] at hco
          exact hco.1.1.1
        · rw [hcnt, flen_cons] at hz
          omega
      rw [← List.singleton_append]
      refine SuccList_append t [n] ((LForest.cons c1 cs2).flat) K _ hfne
        (SuccList_singleton t n _ _ h1) (SuccList_mono t _ K _ _ ?_ hFS)
      simp only [List.length_append, List.length_cons, List.length_nil]
      omega

theorem forestSucc (t : Topology) (n : Nat) (cs : LForest) (j K B : Nat)
    (hcnt : t.GetNumChildren n = j + cs.length)
    (hco : childOk t n cs j = true)
    (hf : isForest t cs = true)
    (hnz : ∀ m ∈ cs.flat, m ≠ Topology.kRootNodeIndex)
    (hexit : ∃ f, 1 ≤ f ∧ f ≤ B ∧ t.walkUp f n = some K) :
    SuccList t cs.flat K (B + 1 + cs.flat.length) := by
  cases cs with
  | nil =>
    rw [fflat_nil]
    exact ⟨fun k hk => by simp at hk, fun hne => absurd rfl hne⟩
  | cons c cs2 =>
    simp only [childOk, Bool.and_eq_true, beq_iff_eq] at hco
    obtain ⟨⟨⟨hch0, hpar⟩, hidx⟩, hco2⟩ := hco
    simp only [isForest, Bool.and_eq_true] at hf
    obtain ⟨htc, hf2⟩ := hf
    rw [fflat_cons] at hnz ⊢
    have hnzc : ∀ m ∈ c.flat, m ≠ Topology.kRootNodeIndex := fun m hm =>
      hnz m (List.mem_append_left _ hm)
    have hnz2 : ∀ m ∈ cs2.flat, m ≠ Topology.kRootNodeIndex := fun m hm =>
      hnz m (List.mem_append_right _ hm)
    have hclnz : c.label ≠ Topology.kRootNodeIndex := by
      apply hnzc
      cases c with
      | node m ds =>
        rw [tflat, tlabel]
        simp
    have hnzch : ∀ m ∈ c.children.flat, m ≠ Topology.kRootNodeIndex := by
      intro m hm
      apply hnzc
      cases c with
      | node m2 ds =>
        rw [tflat]
        rw [tchildren] at hm
        exact List.mem_cons_of_mem _ hm
    cases cs2 with
    | nil =>
      rw [fflat_nil, List.append_nil]
      obtain ⟨f, hf1, hfB, hw⟩ := hexit
      have hstep : t.walkUp (f + 1) c.label = some K := by
        rw [walkUp_step t f c.label hclnz, hpar, hidx]
        rw [if_neg (by rw [hcnt, flen_cons, flen_nil]; omega)]
        exact hw
      have hts := treeSucc t c K (B + 1) htc hnzch
        ⟨f + 1, by omega, by omega, hstep⟩
      exact hts
    | cons c2 cs3 =>
      have hch1 : t.GetChildNodeIndex n (j + 1) = c2.label := by
        simp only [childOk, Bool.and_eq_true, beq_iff_eq] at hco2
        exact hco2.1.1.1
      have hstep1 : t.walkUp 1 c.label = some c2.label := by
        rw [show (1 : Nat) = 0 + 1 by rfl, walkUp_step t 0 c.label hclnz, hpar, hidx]
        rw [if_pos (by rw [hcnt, flen_cons, flen_cons]; omega)]
        rw [hch1]
      have hts := treeSucc t c c2.label 1 htc hnzch ⟨1, le_refl 1, le_refl 1, hstep1⟩
      have hIH := forestSucc t n (.cons c2 cs3) (j + 1) K B
        (by rw [hcnt, flen_cons]; omega) hco2 hf2 hnz2 hexit
      have hhead2 : (LForest.cons c2 cs3).flat.getD 0 0 = c2.label := by
        rw [fflat_cons, getD_append_left _ _ _ _
          (List.length_pos.mpr (flat_ne_nil c2))]
        exact flat_head c2
      have hfne2 : (LForest.cons c2 cs3).flat ≠ [] := by
        rw [fflat_cons]
        simp [flat_ne_nil c2]
      refine SuccList_append t c.flat ((LForest.cons c2 cs3).flat) K _ hfne2
        ?_ (SuccList_mono t _ K _ _ ?_ hIH)
      · rw [hhead2]
        refine SuccList_mono t _ _ _ _ ?_ hts
        simp only [List.length_append]
        omega
      · simp only [List.length_append]
        omega

end

theorem succ_to_next (t : Topology) (n m B : Nat) (hs : Succ t n m B)
    (hB : B ≤ t.GetNumNodes + 1) :
    t.GetNextNodeIndex n = some m := by
  simp only [Topology.GetNextNodeIndex]
  by_cases h0 : 0 < t.GetNumChildren n
  · rw [if_pos h0, hs.1 h0]
  · rw [if_neg h0]
    obtain ⟨f, hfB, hw⟩ := hs.2 (by omega)
    exact walkUp_le t f (t.GetNumNodes + 1) n m (by omega) hw

/-- Claim C8: on a topology whose primary links form a tree (the accessor
data agrees with a rose tree whose labels are distinct, in range and
rooted at kRootNodeIndex), GetNextNodeIndex maps each node to its
successor in the pre-order flattening — first child if any, else the next
sibling of the nearest ancestor-or-self having one — and maps the last
pre-order node to the UINT64_MAX sentinel (the walk past the root). -/
theorem c8_preorder_successor (t : Topology) (tr : LTree)
    (hroot : tr.label = Topology.kRootNodeIndex)
    (htree : isTreeAt t tr = true)
    (hnodup : tr.flat.Nodup)
    (hbound : ∀ m ∈ tr.flat, m < t.GetNumNodes) :
    (∀ k, k + 1 < tr.flat.length →
        t.GetNextNodeIndex (tr.flat.getD k 0) = some (tr.flat.getD (k + 1) 0)) ∧
      t.GetNextNodeIndex (tr.flat.getD (tr.flat.length - 1) 0) =
        some UINT64_MAX := by
  have hflat : tr.flat = tr.label :: tr.children.flat := by
    cases tr with
    | node n cs => rfl
  have hnz : ∀ m ∈ tr.children.flat, m ≠ Topology.kRootNodeIndex := by
    intro m hm hcon
    rw [hflat] at hnodup
    have hni := (List.nodup_cons.mp hnodup).1
    rw [hroot] at hni
    rw [hcon] at hm
    exact hni hm
  have hexit : ∃ f, 1 ≤ f ∧ f ≤ 1 ∧ t.walkUp f tr.label = some UINT64_MAX :=
    ⟨1, le_refl 1, le_refl 1, by rw [hroot]; exact walkUp_root t 0⟩
  have hS := treeSucc t tr UINT64_MAX 1 htree hnz hexit
  have hlen : tr.flat.length ≤ t.GetNumNodes := nodup_lt_length _ _ hnodup hbound
  constructor
  · intro k hk
    exact succ_to_next t _ _ _ (hS.1 k hk) (by omega)
  · have hne : tr.flat ≠ [] := flat_ne_nil tr
    exact succ_to_next t _ _ _ (hS.2 hne) (by omega)

/-- Concrete topology for the C8 witness: root 0 with children 1 and 2,
node 1 with child 3 (pre-order 0, 1, 3, 2). -/
def c8Topo : Topology :=
  { m_children_list := [1, 2, 3]
    m_shared_children_list := []
    m_node_children := [⟨0, 2⟩, ⟨2, 1⟩, ⟨3, 0⟩, ⟨3, 0⟩]
    m_node_shared_children := [⟨0, 0⟩, ⟨0, 0⟩, ⟨0, 0⟩, ⟨0, 0⟩]
    m_node_parent := [UINT64_MAX, 0, 0, 1]
    m_node_child_index := [UINT64_MAX, 0, 1, 0] }

def c8Tree : LTree :=
  .node 0
    (.cons (.node 1 (.cons (.node 3 .nil) .nil)) (.cons (.node 2 .nil) .nil))

theorem c8_preorder_successor_witness :
    c8Tree.label = Topology.kRootNodeIndex ∧
      isTreeAt c8Topo c8Tree = true ∧
      c8Tree.flat.Nodup ∧
      (∀ m ∈ c8Tree.flat, m < c8Topo.GetNumNodes) ∧
      c8Topo.GetNextNodeIndex 0 = some 1 ∧
      c8Topo.GetNextNodeIndex 1 = some 3 ∧
      c8Topo.GetNextNodeIndex 3 = some 2 ∧
      c8Topo.GetNextNodeIndex 2 = some UINT64_MAX := by
  have h := c8_preorder_successor c8Topo c8Tree rfl (by decide) (by decide)
    (by decide)
  refine ⟨rfl, by decide, by decide, by decide, ?_, ?_, ?_, ?_⟩
  · exact h.1 0 (by decide)
  · exact h.1 1 (by decide)
  · exact h.1 2 (by decide)
  · exact h.2

end Dive
